import Mathlib

/-!
Shallow embedding of the VSFS consistency checker (src/vsfsck.c).

The image is modelled at 32-bit-word granularity: every read or write the
checker performs is a 4-byte-aligned 32-bit access, so an image is a map from
word index to word value.  Word index p corresponds to bytes 4p..4p+3 of the
file; block b occupies words 1024*b .. 1024*b+1023 (BLOCK_SIZE = 4096).

Layout facts taken from the source:
- superblock_t is not packed, so on the usual ABI magic sits in the low 16
  bits of word 0 and the eight uint32 fields sit in words 1..8
  (block_size, total_blocks, inode_bitmap_block, data_bitmap_block,
  inode_table_start, first_data_block, inode_size, inode_count);
- sizeof(inode_t) = 14*4 + 156 = 212 bytes = 53 words, so inode i of the
  inode table (which starts at block 3, word 3072) occupies words
  3072 + 53*i .. 3072 + 53*i + 52, with field k of the 14 uint32 fields at
  word 3072 + 53*i + k (mode 0, uid 1, gid 2, size 3, atime 4, ctime 5,
  mtime 6, dtime 7, links_count 8, blocks_count 9, direct_block 10,
  single_indirect 11, double_indirect 12, triple_indirect 13);
- the inode bitmap is block 1 (words 1024..2047), the data bitmap block 2
  (words 2048..3071); bit i of a bitmap lives at byte i/8, bit i%8, which in
  little-endian word terms is bit i%32 of word base + i/32.
-/

namespace VSFSck

set_option maxRecDepth 1000000

/-- A file-system image, one cell per 32-bit word. -/
def Image : Type := Nat → Nat

/-- Read a 32-bit word (uint32 semantics). -/
def readWord (fs : Image) (p : Nat) : Nat := fs p % 4294967296

/-- Store a 32-bit word. -/
def writeWord (fs : Image) (p v : Nat) : Image := fun q => if q = p then v else fs q

/-- Word index of entry j of block b (get_block plus uint32 array index). -/
def blockWord (b j : Nat) : Nat := 1024 * b + j

/-- Word index of uint32 field k of inode i (inode table starts at block 3,
sizeof(inode_t) = 212 bytes = 53 words). -/
def inodeField (i k : Nat) : Nat := 3072 + 53 * i + k

/-- is_inode_valid: links_count > 0 and dtime == 0. -/
def is_inode_valid (fs : Image) (i : Nat) : Bool :=
  decide (0 < readWord fs (inodeField i 8)) && decide (readWord fs (inodeField i 7) = 0)

/-- is_bit_set on the bitmap block whose first word is base. -/
def is_bit_set (fs : Image) (base i : Nat) : Bool :=
  Nat.testBit (readWord fs (base + i / 32)) (i % 32)

/-- set_bit: bitmap[i/8] |= 1 << (i%8), expressed on the containing word. -/
def set_bit (fs : Image) (base i : Nat) : Image :=
  writeWord fs (base + i / 32) (Nat.lor (readWord fs (base + i / 32)) (2 ^ (i % 32)))

/-- clear_bit: bitmap[i/8] &= ~(1 << (i%8)), expressed on the containing word
(4294967295 - 2^(i%32) is the 32-bit mask with only bit i%32 clear). -/
def clear_bit (fs : Image) (base i : Nat) : Image :=
  writeWord fs (base + i / 32) (Nat.land (readWord fs (base + i / 32)) (4294967295 - 2 ^ (i % 32)))

/-! ## Superblock validator (validate_superblock) -/

/-- One superblock field check: how to read it, the required value, and how the
fixing write is performed. -/
structure SBField where
  rd : Image → Nat
  expected : Nat
  fixw : Image → Image

/-- Fixing the magic writes only the low 16 bits of word 0 (uint16 store). -/
def sbMagicFix (fs : Image) : Image :=
  writeWord fs 0 (readWord fs 0 - readWord fs 0 % 65536 + 54093)

/-- The nine checked fields, in source order: magic 0xD34D, block_size 4096,
total_blocks 64, inode_bitmap_block 1, data_bitmap_block 2,
inode_table_start 3, first_data_block 8, inode_size 256, inode_count 80. -/
def sbFields : List SBField :=
  [ { rd := fun fs => readWord fs 0 % 65536, expected := 54093, fixw := sbMagicFix },
    { rd := fun fs => readWord fs 1, expected := 4096, fixw := fun fs => writeWord fs 1 4096 },
    { rd := fun fs => readWord fs 2, expected := 64, fixw := fun fs => writeWord fs 2 64 },
    { rd := fun fs => readWord fs 3, expected := 1, fixw := fun fs => writeWord fs 3 1 },
    { rd := fun fs => readWord fs 4, expected := 2, fixw := fun fs => writeWord fs 4 2 },
    { rd := fun fs => readWord fs 5, expected := 3, fixw := fun fs => writeWord fs 5 3 },
    { rd := fun fs => readWord fs 6, expected := 8, fixw := fun fs => writeWord fs 6 8 },
    { rd := fun fs => readWord fs 7, expected := 256, fixw := fun fs => writeWord fs 7 256 },
    { rd := fun fs => readWord fs 8, expected := 80, fixw := fun fs => writeWord fs 8 80 } ]

/-- One field check of validate_superblock. -/
def sbStep (fix : Bool) (st : Bool × Image) (f : SBField) : Bool × Image :=
  if f.rd st.2 = f.expected then st else (false, if fix then f.fixw st.2 else st.2)

/-- validate_superblock: check the nine fields in order; on mismatch report
(isValid=false) and, when fixing, overwrite with the required value. -/
def validate_superblock (fix : Bool) (fs : Image) : Bool × Image :=
  List.foldl (sbStep fix) (true, fs) sbFields

/-! ## Data bitmap validator (validate_data_bitmap) -/

/-- The C int value obtained by converting a uint32 value r (two's complement). -/
def toI32 (r : Nat) : Int :=
  if r < 2147483648 then (r : Int) else (r : Int) - 4294967296

/-- int block_idx = ptr - DATA_BLOCK_START_NUM, computed in uint32 arithmetic
then converted to int: (ptr + 2^32 - 8) mod 2^32, read as a signed 32-bit value. -/
def blkIdxI (b : Nat) : Int := toI32 ((b + 4294967288) % 4294967296)

/-- Mark the used slot for the pointer stored at word p, exactly as the source:
only when the pointer is non-zero and 0 <= block_idx < 56. -/
def markPtr (fs : Image) (used : Nat → Bool) (p : Nat) : Nat → Bool :=
  let b := readWord fs p
  if b ≠ 0 ∧ 0 ≤ blkIdxI b ∧ blkIdxI b < 56 then
    fun q => if q = (blkIdxI b).toNat then true else used q
  else used

/-- First pass of validate_data_bitmap for one inode: skip invalid inodes,
then mark the four top-level pointers (direct, single, double, triple). -/
def usedOfInode (fs : Image) (used : Nat → Bool) (i : Nat) : Nat → Bool :=
  if is_inode_valid fs i then
    markPtr fs (markPtr fs (markPtr fs (markPtr fs used (inodeField i 10))
      (inodeField i 11)) (inodeField i 12)) (inodeField i 13)
  else used

/-- block_used after the first loop of validate_data_bitmap. -/
def computeUsed (fs : Image) : Nat → Bool :=
  List.foldl (usedOfInode fs) (fun _ => false) (List.range 80)

/-- Second loop of validate_data_bitmap, one data-region bit.  The two error
cases of the source are mutually exclusive, so the chained form is exact. -/
def dbStep (fix : Bool) (used : Nat → Bool) (st : Bool × Image) (i : Nat) : Bool × Image :=
  let cur := is_bit_set st.2 2048 i
  if used i = true ∧ cur = false then (false, if fix then set_bit st.2 2048 i else st.2)
  else if used i = false ∧ cur = true then (false, if fix then clear_bit st.2 2048 i else st.2)
  else st

/-- validate_data_bitmap: build block_used from the four top-level pointer
slots of every live inode, then reconcile the 56 data-bitmap bits with it. -/
def validate_data_bitmap (fix : Bool) (fs : Image) : Bool × Image :=
  List.foldl (dbStep fix (computeUsed fs)) (true, fs) (List.range 56)

/-! ## Inode bitmap validator (validate_inode_bitmap) -/

/-- One inode of validate_inode_bitmap (the two cases are mutually exclusive). -/
def ibStep (fix : Bool) (st : Bool × Image) (i : Nat) : Bool × Image :=
  let live := is_inode_valid st.2 i
  let cur := is_bit_set st.2 1024 i
  if live = true ∧ cur = false then (false, if fix then set_bit st.2 1024 i else st.2)
  else if live = false ∧ cur = true then (false, if fix then clear_bit st.2 1024 i else st.2)
  else st

/-- validate_inode_bitmap: reconcile the 80 inode-bitmap bits with liveness. -/
def validate_inode_bitmap (fix : Bool) (fs : Image) : Bool × Image :=
  List.foldl (ibStep fix) (true, fs) (List.range 80)

/-! ## Duplicate block checker (check_duplicate_blocks) -/

/-- State of the duplicate pass: accumulated isValid, the block_ref_count
array (seen), the inode_refs array (owner), and the image. -/
structure DupSt where
  ok : Bool
  seen : Nat → Bool
  owner : Nat → Nat
  img : Image

/-- block_ref_count[b] = true; inode_refs[b] = i. -/
def dupMark (st : DupSt) (b i : Nat) : DupSt :=
  { st with seen := fun q => if q = b then true else st.seen q,
            owner := fun q => if q = b then i else st.owner q }

/-- check_data_block_for_duplicates: range-check, then either report a
duplicate (returning false) or mark the block seen with its owner.  The
function itself never writes to the image. -/
def check_data_block_for_duplicates (blk ino : Nat) (seen : Nat → Bool) (owner : Nat → Nat) :
    Bool × (Nat → Bool) × (Nat → Nat) :=
  if 8 ≤ blk ∧ blk < 64 then
    if seen blk then (false, seen, owner)
    else (true, fun q => if q = blk then true else seen q,
                 fun q => if q = blk then ino else owner q)
  else (true, seen, owner)

/-- Caller-side pattern around check_data_block_for_duplicates: on a duplicate
the caller records isValid=false and, when fixing, zeroes the slot word the
pointer was read from. -/
def dupSlotVisit (fix : Bool) (ino slot b : Nat) (st : DupSt) : DupSt :=
  let r := check_data_block_for_duplicates b ino st.seen st.owner
  if r.1 then { st with seen := r.2.1, owner := r.2.2 }
  else { ok := false, seen := r.2.1, owner := r.2.2,
         img := if fix then writeWord st.img slot 0 else st.img }

/-- One entry of a walked single-indirect block (leaf level). -/
def dupLeafStep (fix : Bool) (ino c : Nat) (st : DupSt) (j : Nat) : DupSt :=
  let e := readWord st.img (blockWord c j)
  if e ≠ 0 then dupSlotVisit fix ino (blockWord c j) e st else st

/-- Direct pointer handling (inline in the source). -/
def dupDirect (fix : Bool) (ino : Nat) (st : DupSt) : DupSt :=
  let d := readWord st.img (inodeField ino 10)
  if d ≠ 0 then
    if 8 ≤ d ∧ d < 64 then
      if st.seen d then
        { st with ok := false,
                  img := if fix then writeWord st.img (inodeField ino 10) 0 else st.img }
      else dupMark st d ino
    else st
  else st

/-- Single-indirect handling: on a duplicate root zero the inode field and do
not walk; on a fresh root mark it and walk its 1024 entries as leaves. -/
def dupSingle (fix : Bool) (ino : Nat) (st : DupSt) : DupSt :=
  let s := readWord st.img (inodeField ino 11)
  if s ≠ 0 then
    if 8 ≤ s ∧ s < 64 then
      if st.seen s then
        { st with ok := false,
                  img := if fix then writeWord st.img (inodeField ino 11) 0 else st.img }
      else List.foldl (dupLeafStep fix ino s) (dupMark st s ino) (List.range 1024)
    else st
  else st

/-- One entry of a walked double-indirect block: visit the entry, then
(matching the source) walk the entry as a single-indirect container whenever
it is non-zero and get_block accepts it (value < 64), regardless of whether
the visit found it duplicate or out of the data region. -/
def dupDblEntryStep (fix : Bool) (ino c : Nat) (st : DupSt) (j : Nat) : DupSt :=
  let e := readWord st.img (blockWord c j)
  if e ≠ 0 then
    let st1 := dupSlotVisit fix ino (blockWord c j) e st
    if e < 64 then List.foldl (dupLeafStep fix ino e) st1 (List.range 1024) else st1
  else st

/-- Double-indirect handling. -/
def dupDouble (fix : Bool) (ino : Nat) (st : DupSt) : DupSt :=
  let d := readWord st.img (inodeField ino 12)
  if d ≠ 0 then
    if 8 ≤ d ∧ d < 64 then
      if st.seen d then
        { st with ok := false,
                  img := if fix then writeWord st.img (inodeField ino 12) 0 else st.img }
      else List.foldl (dupDblEntryStep fix ino d) (dupMark st d ino) (List.range 1024)
    else st
  else st

/-- One entry of a walked triple-indirect block: visit it, then walk it as a
double-indirect container whenever non-zero and < 64. -/
def dupTrpEntryStep (fix : Bool) (ino c : Nat) (st : DupSt) (j : Nat) : DupSt :=
  let e := readWord st.img (blockWord c j)
  if e ≠ 0 then
    let st1 := dupSlotVisit fix ino (blockWord c j) e st
    if e < 64 then List.foldl (dupDblEntryStep fix ino e) st1 (List.range 1024) else st1
  else st

/-- Triple-indirect handling. -/
def dupTriple (fix : Bool) (ino : Nat) (st : DupSt) : DupSt :=
  let t := readWord st.img (inodeField ino 13)
  if t ≠ 0 then
    if 8 ≤ t ∧ t < 64 then
      if st.seen t then
        { st with ok := false,
                  img := if fix then writeWord st.img (inodeField ino 13) 0 else st.img }
      else List.foldl (dupTrpEntryStep fix ino t) (dupMark st t ino) (List.range 1024)
    else st
  else st

/-- Loop body of check_duplicate_blocks for one inode. -/
def dupInodeStep (fix : Bool) (st : DupSt) (i : Nat) : DupSt :=
  if is_inode_valid st.img i then
    dupTriple fix i (dupDouble fix i (dupSingle fix i (dupDirect fix i st)))
  else st

/-- check_duplicate_blocks: block_ref_count and inode_refs start cleared, then
every inode is processed in order. -/
def check_duplicate_blocks (fix : Bool) (fs : Image) : Bool × Image :=
  let r := List.foldl (dupInodeStep fix)
    { ok := true, seen := fun _ => false, owner := fun _ => 0, img := fs } (List.range 80)
  (r.ok, r.img)

/-! ## Bad block checker (check_bad_blocks) -/

/-- One entry of a walked single-indirect block: bad iff >= 64 (TOTAL_BLOCKS),
zeroed in place when fixing. -/
def badLeafStep (fix : Bool) (c : Nat) (st : Bool × Image) (j : Nat) : Bool × Image :=
  let e := readWord st.2 (blockWord c j)
  if 64 ≤ e then (false, if fix then writeWord st.2 (blockWord c j) 0 else st.2) else st

/-- Walk of a single-indirect container block. -/
def badLeafWalk (fix : Bool) (c : Nat) (st : Bool × Image) : Bool × Image :=
  List.foldl (badLeafStep fix c) st (List.range 1024)

/-- One entry of a walked double-indirect block: if bad, zero; else if
non-zero, walk it as a single-indirect container (get_block accepts any
block number < 64, including metadata blocks 1..7). -/
def badMidStep (fix : Bool) (c : Nat) (st : Bool × Image) (j : Nat) : Bool × Image :=
  let e := readWord st.2 (blockWord c j)
  if 64 ≤ e then (false, if fix then writeWord st.2 (blockWord c j) 0 else st.2)
  else if e ≠ 0 then badLeafWalk fix e st else st

/-- Walk of a double-indirect container block. -/
def badMidWalk (fix : Bool) (c : Nat) (st : Bool × Image) : Bool × Image :=
  List.foldl (badMidStep fix c) st (List.range 1024)

/-- One entry of a walked triple-indirect block. -/
def badTopStep (fix : Bool) (c : Nat) (st : Bool × Image) (j : Nat) : Bool × Image :=
  let e := readWord st.2 (blockWord c j)
  if 64 ≤ e then (false, if fix then writeWord st.2 (blockWord c j) 0 else st.2)
  else if e ≠ 0 then badMidWalk fix e st else st

/-- Walk of a triple-indirect container block. -/
def badTopWalk (fix : Bool) (c : Nat) (st : Bool × Image) : Bool × Image :=
  List.foldl (badTopStep fix c) st (List.range 1024)

/-- Direct pointer check of check_bad_blocks: bad iff >= 64. -/
def badDirect (fix : Bool) (ino : Nat) (st : Bool × Image) : Bool × Image :=
  let b := readWord st.2 (inodeField ino 10)
  if 64 ≤ b then (false, if fix then writeWord st.2 (inodeField ino 10) 0 else st.2) else st

/-- Single-indirect check: zero the field if bad, else walk it when non-zero. -/
def badSingle (fix : Bool) (ino : Nat) (st : Bool × Image) : Bool × Image :=
  let b := readWord st.2 (inodeField ino 11)
  if 64 ≤ b then (false, if fix then writeWord st.2 (inodeField ino 11) 0 else st.2)
  else if b ≠ 0 then badLeafWalk fix b st else st

/-- Double-indirect check. -/
def badDouble (fix : Bool) (ino : Nat) (st : Bool × Image) : Bool × Image :=
  let b := readWord st.2 (inodeField ino 12)
  if 64 ≤ b then (false, if fix then writeWord st.2 (inodeField ino 12) 0 else st.2)
  else if b ≠ 0 then badMidWalk fix b st else st

/-- Triple-indirect check. -/
def badTriple (fix : Bool) (ino : Nat) (st : Bool × Image) : Bool × Image :=
  let b := readWord st.2 (inodeField ino 13)
  if 64 ≤ b then (false, if fix then writeWord st.2 (inodeField ino 13) 0 else st.2)
  else if b ≠ 0 then badTopWalk fix b st else st

/-- Loop body of check_bad_blocks for one inode. -/
def badInodeStep (fix : Bool) (st : Bool × Image) (i : Nat) : Bool × Image :=
  if is_inode_valid st.2 i then
    badTriple fix i (badDouble fix i (badSingle fix i (badDirect fix i st)))
  else st

/-- check_bad_blocks: every inode in order; a block number is bad iff it is
>= TOTAL_BLOCKS (64); bad pointers and container entries are zeroed in place. -/
def check_bad_blocks (fix : Bool) (fs : Image) : Bool × Image :=
  List.foldl (badInodeStep fix) (true, fs) (List.range 80)

/-! ## Orchestration (main) -/

/-- The header each pass prints on entry; the trace of headers records the
execution order of the passes. -/
inductive PassTag where
  | superblockHdr : PassTag
  | dataBitmapHdr : PassTag
  | inodeBitmapHdr : PassTag
  | duplicateHdr : PassTag
  | badBlockHdr : PassTag
deriving DecidableEq, Repr

/-- Result of one pass invocation: its printed header, isValid, image after. -/
structure PassOut where
  tag : PassTag
  ok : Bool
  img : Image

def runSuperblock (fix : Bool) (fs : Image) : PassOut :=
  let r := validate_superblock fix fs
  { tag := PassTag.superblockHdr, ok := r.1, img := r.2 }

def runDataBitmap (fix : Bool) (fs : Image) : PassOut :=
  let r := validate_data_bitmap fix fs
  { tag := PassTag.dataBitmapHdr, ok := r.1, img := r.2 }

def runInodeBitmap (fix : Bool) (fs : Image) : PassOut :=
  let r := validate_inode_bitmap fix fs
  { tag := PassTag.inodeBitmapHdr, ok := r.1, img := r.2 }

def runDuplicate (fix : Bool) (fs : Image) : PassOut :=
  let r := check_duplicate_blocks fix fs
  { tag := PassTag.duplicateHdr, ok := r.1, img := r.2 }

def runBadBlocks (fix : Bool) (fs : Image) : PassOut :=
  let r := check_bad_blocks fix fs
  { tag := PassTag.badBlockHdr, ok := r.1, img := r.2 }

/-- Result of one full round of checks. -/
structure RunOut where
  img : Image
  sbOk : Bool
  dbOk : Bool
  ibOk : Bool
  dupOk : Bool
  badOk : Bool
  trace : List PassTag

/-- The check pipeline exactly as called from main: superblock, data bitmap,
inode bitmap, duplicate blocks, bad blocks, each pass on the image produced
by the previous one; the trace lists the pass headers in invocation order. -/
def runChecks (fix : Bool) (fs : Image) : RunOut :=
  let p1 := runSuperblock fix fs
  let p2 := runDataBitmap fix p1.img
  let p3 := runInodeBitmap fix p2.img
  let p4 := runDuplicate fix p3.img
  let p5 := runBadBlocks fix p4.img
  { img := p5.img, sbOk := p1.ok, dbOk := p2.ok, ibOk := p3.ok, dupOk := p4.ok,
    badOk := p5.ok, trace := [p1.tag, p2.tag, p3.tag, p4.tag, p5.tag] }

/-- fs_valid: conjunction of the five pass results. -/
def RunOut.valid (r : RunOut) : Bool := r.sbOk && r.dbOk && r.ibOk && r.dupOk && r.badOk

/-- An image is consistent when a check-only round finds no violation. -/
def consistentImg (fs : Image) : Bool := (runChecks false fs).valid

/-- Abstract description of one program invocation: command line shape and
the success of each environment interaction of main, plus the image content. -/
structure RunInput where
  argc : Nat
  fixArg : Bool
  openOk : Bool
  fileSize : Nat
  mallocOk : Bool
  readOk : Bool
  callocOk : Bool
  writeOk : Bool
  img : Image

/-- Observable outcome of main: exit code, number of image write-backs
attempted, and the final in-memory buffer. -/
structure MainOut where
  exitCode : Nat
  writes : Nat
  finalImg : Image

/-- main, following the source control flow: usage check, open, size check
(TOTAL_BLOCKS*BLOCK_SIZE = 262144 bytes), malloc, fread, calloc each exit 1 on
failure; then the pipeline runs; when fixing and the initial round found
errors, the checks are re-run in check-only mode and the image is written back
once (a failed fwrite only prints); the exit code is then 0. -/
def vsfsckMain (inp : RunInput) : MainOut :=
  if inp.argc < 2 ∨ 3 < inp.argc then { exitCode := 1, writes := 0, finalImg := inp.img }
  else if inp.openOk = false then { exitCode := 1, writes := 0, finalImg := inp.img }
  else if inp.fileSize ≠ 262144 then { exitCode := 1, writes := 0, finalImg := inp.img }
  else if inp.mallocOk = false then { exitCode := 1, writes := 0, finalImg := inp.img }
  else if inp.readOk = false then { exitCode := 1, writes := 0, finalImg := inp.img }
  else if inp.callocOk = false then { exitCode := 1, writes := 0, finalImg := inp.img }
  else
    let fix := decide (inp.argc = 3) && inp.fixArg
    let r := runChecks fix inp.img
    if fix = true ∧ r.valid = false then
      let r2 := runChecks false r.img
      { exitCode := 0, writes := 1, finalImg := r2.img }
    else { exitCode := 0, writes := 0, finalImg := r.img }

/-- A well-formed invocation whose environment interactions all succeed. -/
def goodInput (fix : Bool) (fs : Image) : RunInput :=
  { argc := if fix then 3 else 2, fixArg := fix, openOk := true, fileSize := 262144,
    mallocOk := true, readOk := true, callocOk := true, writeOk := true, img := fs }

/-! ## The visit rule of the specification (section 4.5), transcribed from its
words, for comparison with check_duplicate_blocks.  The rule: if the pointer
is outside [first_data_block, total_blocks) = [8, 64), ignore it; if already
seen, report and in repair mode zero the later reference (the inode field for
a top-level pointer, the container slot for a container entry); only when
fresh, mark it seen with its owner, and only then recurse into its 1024
entries when it is an indirect container (level > 0). -/

/-- Repair rule: remove the later reference by zeroing the slot it came from. -/
def dupRepairAt (fix : Bool) (slot : Nat) (st : DupSt) : DupSt :=
  { st with ok := false, img := if fix then writeWord st.img slot 0 else st.img }

/-- The visit rule, literally: level is the container depth of b (0 = data
leaf, 1 = single-, 2 = double-, 3 = triple-indirect container); slot is the
word the pointer b was read from. -/
def visitSpec (fix : Bool) (ino : Nat) : Nat → Nat → Nat → DupSt → DupSt
  | 0, slot, b, st =>
      if 8 ≤ b ∧ b < 64 then
        if st.seen b then dupRepairAt fix slot st else dupMark st b ino
      else st
  | (L+1), slot, b, st =>
      if 8 ≤ b ∧ b < 64 then
        if st.seen b then dupRepairAt fix slot st
        else
          List.foldl (fun s j =>
            let e := readWord s.img (blockWord b j)
            if e ≠ 0 then visitSpec fix ino L (blockWord b j) e s else s)
            (dupMark st b ino) (List.range 1024)
      else st

/-- Apply the visit rule to a top-level pointer field when it is non-zero. -/
def specRoot (fix : Bool) (ino level fieldK : Nat) (st : DupSt) : DupSt :=
  let b := readWord st.img (inodeField ino fieldK)
  if b ≠ 0 then visitSpec fix ino level (inodeField ino fieldK) b st else st

/-- The duplicate pass as the specification states it: for each live inode,
visit direct, single-, double-, triple-indirect in order by the visit rule. -/
def specDupInodeStep (fix : Bool) (st : DupSt) (i : Nat) : DupSt :=
  if is_inode_valid st.img i then
    specRoot fix i 3 13 (specRoot fix i 2 12 (specRoot fix i 1 11 (specRoot fix i 0 10 st)))
  else st

/-- dupPassSpec: the whole duplicate pass under the literal visit rule. -/
def dupPassSpec (fix : Bool) (fs : Image) : Bool × Image :=
  let r := List.foldl (specDupInodeStep fix)
    { ok := true, seen := fun _ => false, owner := fun _ => 0, img := fs } (List.range 80)
  (r.ok, r.img)

/-! ## The amended visit rule.  Top-level pointers follow the rule as stated,
but a container entry met inside a double- or triple-indirect walk is walked
as a container whenever it is non-zero and < 64 — even when it was already
seen or lies below first_data_block. -/

/-- Amended entry rule for container entries (b non-zero at the call site):
apply the leaf part of the visit rule, then walk b whenever b < 64. -/
def visitAmended (fix : Bool) (ino : Nat) : Nat → Nat → Nat → DupSt → DupSt
  | 0, slot, b, st =>
      if 8 ≤ b ∧ b < 64 then
        if st.seen b then dupRepairAt fix slot st else dupMark st b ino
      else st
  | (L+1), slot, b, st =>
      let st1 :=
        if 8 ≤ b ∧ b < 64 then
          if st.seen b then dupRepairAt fix slot st else dupMark st b ino
        else st
      if b < 64 then
        List.foldl (fun s j =>
          let e := readWord s.img (blockWord b j)
          if e ≠ 0 then visitAmended fix ino L (blockWord b j) e s else s)
          st1 (List.range 1024)
      else st1

/-- Amended root rule: a top-level pointer keeps the strict visit rule (no
walk when duplicate or out of range), and its walk uses the amended entry
rule one level down. -/
def amRoot (fix : Bool) (ino level fieldK : Nat) (st : DupSt) : DupSt :=
  let b := readWord st.img (inodeField ino fieldK)
  if b ≠ 0 then
    if 8 ≤ b ∧ b < 64 then
      if st.seen b then dupRepairAt fix (inodeField ino fieldK) st
      else
        match level with
        | 0 => dupMark st b ino
        | Nat.succ L =>
            List.foldl (fun s j =>
              let e := readWord s.img (blockWord b j)
              if e ≠ 0 then visitAmended fix ino L (blockWord b j) e s else s)
              (dupMark st b ino) (List.range 1024)
    else st
  else st

/-- The duplicate pass under the amended rule. -/
def amDupInodeStep (fix : Bool) (st : DupSt) (i : Nat) : DupSt :=
  if is_inode_valid st.img i then
    amRoot fix i 3 13 (amRoot fix i 2 12 (amRoot fix i 1 11 (amRoot fix i 0 10 st)))
  else st

/-- dupPassAmended: the whole duplicate pass under the amended visit rule. -/
def dupPassAmended (fix : Bool) (fs : Image) : Bool × Image :=
  let r := List.foldl (amDupInodeStep fix)
    { ok := true, seen := fun _ => false, owner := fun _ => 0, img := fs } (List.range 80)
  (r.ok, r.img)

/-! ## Concrete images used as witnesses and counterexamples -/

/-- The nine superblock words with their required values. -/
def sbWords (p : Nat) : Nat :=
  if p = 0 then 54093 else if p = 1 then 4096 else if p = 2 then 64 else if p = 3 then 1
  else if p = 4 then 2 else if p = 5 then 3 else if p = 6 then 8 else if p = 7 then 256
  else if p = 8 then 80 else 0

/-- Scenario S1: consistent image, inode 0 live with direct block 8,
inode-bitmap bit 0 and data-bitmap bit 0 set. -/
def fsClean : Image := fun p =>
  if p < 9 then sbWords p
  else if p = 1024 then 1
  else if p = 2048 then 1
  else if p = 3080 then 1
  else if p = 3082 then 8
  else 0

/-- Scenario S2: same as S1 with inode-bitmap bit 0 cleared (word 1024 = 0). -/
def fsS2 : Image := writeWord fsClean 1024 0

/-- The S2 image after the repair sets inode-bitmap bit 0 again. -/
def fsS2fixed : Image := writeWord fsS2 1024 1

/-- Duplicate-pass counterexample image: inode 0 live with single_indirect 9
and double_indirect 10; block 9 entry 0 holds 11; block 10 entry 0 holds 9
(a duplicate of the single-indirect root). -/
def fsC1 : Image := fun p =>
  if p = 3080 then 1
  else if p = 3083 then 9
  else if p = 3084 then 10
  else if p = 9216 then 11
  else if p = 10240 then 9
  else 0

/-- Metadata-walk image: inode 0 live with single_indirect = 3 (an inode-table
block); inode 1 has links_count 1 and dtime 100 (dead); the inode bitmap has
only bit 0 set, consistently.  Words: 3132 = dtime of inode 1 (entry 60 of
block 3), 3133 = links_count of inode 1. -/
def fsC6 : Image := fun p =>
  if p < 9 then sbWords p
  else if p = 1024 then 1
  else if p = 3080 then 1
  else if p = 3083 then 3
  else if p = 3132 then 100
  else if p = 3133 then 1
  else 0

/-- The initial state of a duplicate-pass run (cleared seen and owner). -/
def dupInitSt (fs : Image) : DupSt :=
  { ok := true, seen := fun _ => false, owner := fun _ => 0, img := fs }

/-- Intermediate states of the duplicate pass on fsC1: after marking the
single-indirect root 9. -/
def stC1a : DupSt := dupMark (dupInitSt fsC1) 9 0

/-- ... after visiting entry 0 of block 9 (the fresh leaf 11). -/
def stC1b : DupSt := dupSlotVisit true 0 (blockWord 9 0) 11 stC1a

/-- ... after marking the double-indirect root 10. -/
def stC1c : DupSt := dupMark stC1b 10 0

/-- ... after visiting entry 0 of block 10 (the duplicate 9): slot zeroed. -/
def stC1d : DupSt := dupSlotVisit true 0 (blockWord 10 0) 9 stC1c

/-- ... after the source recursed into the already-seen block 9 and zeroed its
entry 0 (11 is seen, so it counts as one more duplicate). -/
def stC1e : DupSt := dupSlotVisit true 0 (blockWord 9 0) 11 stC1d

/-- Final image of the duplicate pass on fsC1 under the literal visit rule:
only the duplicate slot in block 10 is zeroed. -/
def fsC1spec : Image := writeWord fsC1 10240 0

/-- Final image of the source duplicate pass on fsC1: additionally entry 0 of
the already-seen block 9 is zeroed by the recursion the visit rule forbids. -/
def fsC1code : Image := writeWord fsC1spec 9216 0

/-- fsC6 after the bad-block pass zeroed the stale dtime value of inode 1
(word 3132 = entry 60 of inode-table block 3), which the pass reached by
walking single_indirect = 3 of inode 0. -/
def fsC6after : Image := writeWord fsC6 3132 0

/-- Scenario S3 style image: inode 0 live with direct = 100 (a bad block). -/
def fsBadDirect : Image := fun p =>
  if p = 3080 then 1 else if p = 3082 then 100 else 0

/-- Two state transformers agree from any healthy state, or both leave it
unhealthy: the relation between a fixing and a checking run of one operation
of a pass (healthy means the accumulated validity flag is still set). -/
def OpBisim {σ : Type} (P : σ → Prop) (f g : σ → σ) : Prop :=
  ∀ st, P st → f st = g st ∨ (¬ P (f st) ∧ ¬ P (g st))

/-- An operation never resurrects a cleared validity flag. -/
def OpAbsorb {σ : Type} (P : σ → Prop) (f : σ → σ) : Prop :=
  ∀ st, ¬ P st → ¬ P (f st)

/-- An operation leaves a projection of the state (the image) unchanged. -/
def OpPure {σ τ : Type} (prj : σ → τ) (f : σ → σ) : Prop :=
  ∀ st, prj (f st) = prj st

/-- Repair-mode invocation on the S2 image. -/
def inpS2 : RunInput := goodInput true fsS2

/-- Repair-mode invocation on the stale-bitmap image whose final fwrite fails. -/
def inpWriteFail : RunInput := { goodInput true fsS2 with writeOk := false }

def BadFrame (a b : Image) : Prop :=
  ∀ p, b p = a p ∨ (64 ≤ readWord a p ∧ b p = 0)

def BadGood (fs : Image) (st : Bool × Image) : Prop :=
  BadFrame fs st.2 ∧ (st.1 = false → ∃ p, 64 ≤ readWord fs p)

/-- Repair-mode invocation on the metadata-walk image fsC6. -/
def inpC6 : RunInput := goodInput true fsC6

/-! ## Basic lemmas about the word store -/

theorem readWord_writeWord_same (fs : Image) (p v : Nat) :
    readWord (writeWord fs p v) p = v % 4294967296 := by
  simp [readWord, writeWord]

theorem readWord_writeWord_other (fs : Image) (p v q : Nat) (h : q ≠ p) :
    readWord (writeWord fs p v) q = readWord fs q := by
  simp [readWord, writeWord, h]

theorem readWord_lt (fs : Image) (p : Nat) : readWord fs p < 4294967296 :=
  Nat.mod_lt _ (by omega)

/-! ## Generic lemmas about loops

The container walks iterate over all 1024 entries of a block; on the concrete
images used below at most one entry does anything, so the walks are evaluated
symbolically: a loop all of whose iterations leave the state alone is the
identity, and a loop with a single active index equals that one step. -/

theorem foldl_eq_of_inactive {σ ι : Type} (s : σ → ι → σ) (P : σ → Prop) :
    ∀ (l : List ι), (∀ st j, P st → j ∈ l → s st j = st) →
    ∀ st, P st → List.foldl s st l = st := by
  intro l
  induction l with
  | nil => intro _ st _; rfl
  | cons a t ih =>
      intro hs st hP
      have ha : s st a = st := hs st a hP (List.mem_cons_self a t)
      simp only [List.foldl_cons, ha]
      exact ih (fun st j h1 h2 => hs st j h1 (List.mem_cons_of_mem a h2)) st hP

theorem foldl_single_active {σ : Type} (s : σ → Nat → σ) (P Q : σ → Prop) (k : Nat) :
    ∀ (l : List Nat), l.Nodup → k ∈ l →
    (∀ st j, P st → j ∈ l → j ≠ k → s st j = st) →
    (∀ st j, Q st → j ∈ l → j ≠ k → s st j = st) →
    (∀ st, P st → Q (s st k)) →
    ∀ st, P st → List.foldl s st l = s st k := by
  intro l
  induction l with
  | nil => intro _ hk; cases hk
  | cons a t ih =>
      intro hnd hk hP hQ hPQ st hPst
      rcases List.mem_cons.mp hk with hak | hkt
      · have hnot : a ∉ t := (List.nodup_cons.mp hnd).1
        rw [← hak] at hnot
        simp only [List.foldl_cons, ← hak]
        refine foldl_eq_of_inactive s Q t ?_ (s st k) (hPQ st hPst)
        intro st2 j hQ2 hjt
        have hja : j ≠ k := fun h => hnot (h ▸ hjt)
        exact hQ st2 j hQ2 (List.mem_cons_of_mem a hjt) hja
      · have hak : a ≠ k := by
          intro h; subst h
          exact (List.nodup_cons.mp hnd).1 hkt
        have ha : s st a = st := hP st a hPst (List.mem_cons_self a t) hak
        simp only [List.foldl_cons, ha]
        exact ih (List.nodup_cons.mp hnd).2 hkt
          (fun st2 j h1 h2 h3 => hP st2 j h1 (List.mem_cons_of_mem a h2) h3)
          (fun st2 j h1 h2 h3 => hQ st2 j h1 (List.mem_cons_of_mem a h2) h3)
          hPQ st hPst

/-! ## Bisimulation machinery for check-mode versus fix-mode runs

Each pass accumulates a validity flag that is never reset to true.  From one
state the fixing run and the checking run take the same branches until the
first violation, at which point both record invalidity.  Hence either the two
runs produce identical states, or both end invalid; in particular their
validity results always agree, and a valid run never changed anything. -/

theorem foldl_absorbs {σ ι : Type} (s : σ → ι → σ) (P : σ → Prop) :
    ∀ (l : List ι), (∀ st j, j ∈ l → ¬ P st → ¬ P (s st j)) →
    ∀ st, ¬ P st → ¬ P (List.foldl s st l) := by
  intro l
  induction l with
  | nil => intro _ st h; exact h
  | cons a t ih =>
      intro hs st hP
      simp only [List.foldl_cons]
      exact ih (fun st2 j hj => hs st2 j (List.mem_cons_of_mem a hj))
        (s st a) (hs st a (List.mem_cons_self a t) hP)

theorem foldl_bisim {σ ι : Type} (s1 s2 : σ → ι → σ) (P : σ → Prop) :
    ∀ (l : List ι),
    (∀ st j, j ∈ l → ¬ P st → ¬ P (s1 st j)) →
    (∀ st j, j ∈ l → ¬ P st → ¬ P (s2 st j)) →
    (∀ st j, j ∈ l → P st → s1 st j = s2 st j ∨ (¬ P (s1 st j) ∧ ¬ P (s2 st j))) →
    ∀ st, P st → List.foldl s1 st l = List.foldl s2 st l ∨
      (¬ P (List.foldl s1 st l) ∧ ¬ P (List.foldl s2 st l)) := by
  intro l
  induction l with
  | nil => intro _ _ _ st _; exact Or.inl rfl
  | cons a t ih =>
      intro habs1 habs2 hstep st hP
      have habs1t : ∀ st j, j ∈ t → ¬ P st → ¬ P (s1 st j) :=
        fun st2 j hj => habs1 st2 j (List.mem_cons_of_mem a hj)
      have habs2t : ∀ st j, j ∈ t → ¬ P st → ¬ P (s2 st j) :=
        fun st2 j hj => habs2 st2 j (List.mem_cons_of_mem a hj)
      have hstept : ∀ st j, j ∈ t → P st →
          s1 st j = s2 st j ∨ (¬ P (s1 st j) ∧ ¬ P (s2 st j)) :=
        fun st2 j hj => hstep st2 j (List.mem_cons_of_mem a hj)
      rcases hstep st a (List.mem_cons_self a t) hP with heq | hbad
      · simp only [List.foldl_cons, heq]
        by_cases hP2 : P (s2 st a)
        · exact ih habs1t habs2t hstept (s2 st a) hP2
        · exact Or.inr ⟨foldl_absorbs s1 P t habs1t _ hP2,
            foldl_absorbs s2 P t habs2t _ hP2⟩
      · simp only [List.foldl_cons]
        exact Or.inr ⟨foldl_absorbs s1 P t habs1t _ hbad.1,
          foldl_absorbs s2 P t habs2t _ hbad.2⟩

theorem comp_bisim {σ : Type} (f1 f2 g1 g2 : σ → σ) (P : σ → Prop)
    (habsg1 : ∀ st, ¬ P st → ¬ P (g1 st))
    (habsg2 : ∀ st, ¬ P st → ¬ P (g2 st))
    (hg : ∀ st, P st → g1 st = g2 st ∨ (¬ P (g1 st) ∧ ¬ P (g2 st)))
    (st : σ)
    (hf : f1 st = f2 st ∨ (¬ P (f1 st) ∧ ¬ P (f2 st))) :
    g1 (f1 st) = g2 (f2 st) ∨ (¬ P (g1 (f1 st)) ∧ ¬ P (g2 (f2 st))) := by
  rcases hf with heq | hbad
  · rw [heq]
    by_cases hP2 : P (f2 st)
    · exact hg _ hP2
    · exact Or.inr ⟨habsg1 _ hP2, habsg2 _ hP2⟩
  · exact Or.inr ⟨habsg1 _ hbad.1, habsg2 _ hbad.2⟩

/-! ## Evaluated pipeline runs on the concrete walk-free images

These are proved pass by pass: each pass evaluation is a shallow fold, while
evaluating a whole nested pipeline in one step exceeds the interpreter
recursion limits. -/

theorem S2_runChecks_fix : runChecks true fsS2 =
    { img := fsS2fixed, sbOk := true, dbOk := true, ibOk := false, dupOk := true,
      badOk := true,
      trace := [PassTag.superblockHdr, PassTag.dataBitmapHdr, PassTag.inodeBitmapHdr,
        PassTag.duplicateHdr, PassTag.badBlockHdr] } := by
  have h1 : validate_superblock true fsS2 = (true, fsS2) := rfl
  have h2 : validate_data_bitmap true fsS2 = (true, fsS2) := rfl
  have h3 : validate_inode_bitmap true fsS2 = (false, fsS2fixed) := rfl
  have h4 : check_duplicate_blocks true fsS2fixed = (true, fsS2fixed) := rfl
  have h5 : check_bad_blocks true fsS2fixed = (true, fsS2fixed) := rfl
  simp only [runChecks, runSuperblock, runDataBitmap, runInodeBitmap, runDuplicate,
    runBadBlocks, h1, h2, h3, h4, h5]

theorem S2_runChecks_reaudit : runChecks false fsS2fixed =
    { img := fsS2fixed, sbOk := true, dbOk := true, ibOk := true, dupOk := true,
      badOk := true,
      trace := [PassTag.superblockHdr, PassTag.dataBitmapHdr, PassTag.inodeBitmapHdr,
        PassTag.duplicateHdr, PassTag.badBlockHdr] } := by
  have h1 : validate_superblock false fsS2fixed = (true, fsS2fixed) := rfl
  have h2 : validate_data_bitmap false fsS2fixed = (true, fsS2fixed) := rfl
  have h3 : validate_inode_bitmap false fsS2fixed = (true, fsS2fixed) := rfl
  have h4 : check_duplicate_blocks false fsS2fixed = (true, fsS2fixed) := rfl
  have h5 : check_bad_blocks false fsS2fixed = (true, fsS2fixed) := rfl
  simp only [runChecks, runSuperblock, runDataBitmap, runInodeBitmap, runDuplicate,
    runBadBlocks, h1, h2, h3, h4, h5]

/-- Shape of a successful repair-mode invocation of main, before the checks
themselves are evaluated. -/
theorem vsfsckMain_run (inp : RunInput) (h1 : inp.argc = 3) (h2 : inp.fixArg = true)
    (h3 : inp.openOk = true) (h4 : inp.fileSize = 262144) (h5 : inp.mallocOk = true)
    (h6 : inp.readOk = true) (h7 : inp.callocOk = true) :
    vsfsckMain inp =
      if (runChecks true inp.img).valid = false then
        { exitCode := 0, writes := 1,
          finalImg := (runChecks false (runChecks true inp.img).img).img }
      else { exitCode := 0, writes := 0, finalImg := (runChecks true inp.img).img } := by
  simp only [vsfsckMain, h1, h2, h3, h4, h5, h6, h7]
  norm_num

/-- Shape of a successful check-only invocation of main. -/
theorem vsfsckMain_runCheck (inp : RunInput) (h1 : inp.argc = 2)
    (h3 : inp.openOk = true) (h4 : inp.fileSize = 262144) (h5 : inp.mallocOk = true)
    (h6 : inp.readOk = true) (h7 : inp.callocOk = true) :
    vsfsckMain inp =
      { exitCode := 0, writes := 0, finalImg := (runChecks false inp.img).img } := by
  simp only [vsfsckMain, h1, h3, h4, h5, h6, h7]
  norm_num

theorem S2_main : vsfsckMain inpS2 = { exitCode := 0, writes := 1, finalImg := fsS2fixed } := by
  rw [vsfsckMain_run inpS2 rfl rfl rfl rfl rfl rfl rfl]
  rw [show inpS2.img = fsS2 from rfl, S2_runChecks_fix]
  simp only [RunOut.valid]
  norm_num
  rw [S2_runChecks_reaudit]

theorem Clean_runChecks_fix : runChecks true fsClean =
    { img := fsClean, sbOk := true, dbOk := true, ibOk := true, dupOk := true,
      badOk := true,
      trace := [PassTag.superblockHdr, PassTag.dataBitmapHdr, PassTag.inodeBitmapHdr,
        PassTag.duplicateHdr, PassTag.badBlockHdr] } := by
  have h1 : validate_superblock true fsClean = (true, fsClean) := rfl
  have h2 : validate_data_bitmap true fsClean = (true, fsClean) := rfl
  have h3 : validate_inode_bitmap true fsClean = (true, fsClean) := rfl
  have h4 : check_duplicate_blocks true fsClean = (true, fsClean) := rfl
  have h5 : check_bad_blocks true fsClean = (true, fsClean) := rfl
  simp only [runChecks, runSuperblock, runDataBitmap, runInodeBitmap, runDuplicate,
    runBadBlocks, h1, h2, h3, h4, h5]

theorem Clean_main :
    vsfsckMain (goodInput true fsClean) = { exitCode := 0, writes := 0, finalImg := fsClean } := by
  rw [vsfsckMain_run (goodInput true fsClean) rfl rfl rfl rfl rfl rfl rfl]
  rw [show (goodInput true fsClean).img = fsClean from rfl, Clean_runChecks_fix]
  simp only [RunOut.valid]
  norm_num

/-! ## Claim C2: pass order -/

/-- Claim C2, counterexample: the trace of pass headers emitted by the
pipeline is not superblock, inode bitmap, data bitmap, duplicate, bad
blocks — main calls validate_data_bitmap before validate_inode_bitmap. -/
theorem C2_counterexample :
    (runChecks false fsClean).trace ≠
      [PassTag.superblockHdr, PassTag.inodeBitmapHdr, PassTag.dataBitmapHdr,
       PassTag.duplicateHdr, PassTag.badBlockHdr] := by
  intro h
  have := congrArg (fun l => l.get? 1) h
  simp [runChecks, runDataBitmap, runInodeBitmap] at this

/-- Claim C2 (amended): the five passes run in the order superblock,
data bitmap, inode bitmap, duplicate blocks, bad blocks, and each pass runs
on the image produced by the previous one, so every pass observes the
mutations of earlier passes. -/
theorem C2_theorem : ∀ (fix : Bool) (fs : Image),
    (runChecks fix fs).trace =
      [PassTag.superblockHdr, PassTag.dataBitmapHdr, PassTag.inodeBitmapHdr,
       PassTag.duplicateHdr, PassTag.badBlockHdr] ∧
    (runChecks fix fs).img =
      (check_bad_blocks fix (check_duplicate_blocks fix (validate_inode_bitmap fix
        (validate_data_bitmap fix (validate_superblock fix fs).2).2).2).2).2 := by
  intro fix fs
  refine ⟨rfl, ?_⟩
  simp only [runChecks, runSuperblock, runDataBitmap, runInodeBitmap, runDuplicate,
    runBadBlocks]

/-! ## Claim C4: exit codes -/

theorem WF_main :
    vsfsckMain inpWriteFail = { exitCode := 0, writes := 1, finalImg := fsS2fixed } := by
  rw [vsfsckMain_run inpWriteFail rfl rfl rfl rfl rfl rfl rfl]
  rw [show inpWriteFail.img = fsS2 from rfl, S2_runChecks_fix]
  simp only [RunOut.valid]
  norm_num
  rw [S2_runChecks_reaudit]

/-- Claim C4, counterexample: an invocation in repair mode on an inconsistent
image whose final fwrite fails (writeOk = false) attempts the write-back and
still exits 0, while the claim demands exit code 1 on a write failure. -/
theorem C4_counterexample :
    inpWriteFail.writeOk = false ∧ (vsfsckMain inpWriteFail).writes = 1 ∧
    (vsfsckMain inpWriteFail).exitCode = 0 := by
  rw [WF_main]
  exact ⟨rfl, rfl, rfl⟩

/-- Closed form of the exit code of main. -/
theorem vsfsckMain_exitCode (inp : RunInput) :
    (vsfsckMain inp).exitCode =
      if inp.argc < 2 ∨ 3 < inp.argc then 1
      else if inp.openOk = false then 1
      else if inp.fileSize ≠ 262144 then 1
      else if inp.mallocOk = false then 1
      else if inp.readOk = false then 1
      else if inp.callocOk = false then 1
      else 0 := by
  unfold vsfsckMain
  split_ifs <;> first
    | rfl
    | (dsimp only; split <;> rfl)

/-- Claim C4 (amended): the exit code is 1 exactly on a usage error, a failure
to open or read the image, an allocation failure, or an image-size mismatch;
a failed write-back of the repaired image only prints a message, and whenever
the pipeline runs to completion the exit code is 0 regardless of findings. -/
theorem C4_theorem : ∀ inp : RunInput,
    (vsfsckMain inp).exitCode = 1 ↔
      (inp.argc < 2 ∨ 3 < inp.argc ∨ inp.openOk = false ∨ inp.fileSize ≠ 262144 ∨
       inp.mallocOk = false ∨ inp.readOk = false ∨ inp.callocOk = false) := by
  intro inp
  rw [vsfsckMain_exitCode]
  split_ifs <;> simp_all <;> tauto

/-! ## Claim C8: scenario S2 -/

/-- Claim C8, counterexample: on the S2 image the repair run changes word 1024
(bytes 4096..4099, the start of the inode bitmap) and leaves word 32 (bytes
128..131, which lie inside the superblock) untouched; the claim places the
single changed bit at byte 128. -/
theorem C8_counterexample :
    (vsfsckMain inpS2).finalImg 32 = fsS2 32 ∧
    fsS2 1024 = 0 ∧ (vsfsckMain inpS2).finalImg 1024 = 1 := by
  rw [S2_main]
  refine ⟨?_, ?_, ?_⟩ <;> simp [fsS2fixed, fsS2, writeWord]

/-- Claim C8 (amended): the repair run on the S2 image sets inode-bitmap bit 0
and the resulting image differs from the input in exactly one bit: bit 0 of
byte 4096, the first inode-bitmap byte (word 1024 goes from 0 to 1). -/
theorem C8_theorem : ∀ p : Nat,
    (p = 1024 → (vsfsckMain inpS2).finalImg p = 1 ∧ fsS2 p = 0) ∧
    (p ≠ 1024 → (vsfsckMain inpS2).finalImg p = fsS2 p) := by
  have h : (vsfsckMain inpS2).finalImg = fsS2fixed := by rw [S2_main]
  intro p
  constructor
  · intro hp
    subst hp
    rw [h]
    refine ⟨?_, ?_⟩ <;> simp [fsS2fixed, fsS2, writeWord]
  · intro hp
    rw [h]
    simp [fsS2fixed, writeWord, hp]

/-- Witness for C8_theorem at the concrete word 32. -/
theorem C8_witness : (vsfsckMain inpS2).finalImg 32 = fsS2 32 :=
  (C8_theorem 32).2 (by decide)

/-! ## Claim C3, counterexample part -/

/-- Claim C3, counterexample: a repair-mode run (argc = 3 with the fix flag)
on an already-consistent image performs no write-back at all, while the claim
demands exactly one write for every input image in repair mode. -/
theorem C3_counterexample :
    (goodInput true fsClean).argc = 3 ∧ (goodInput true fsClean).fixArg = true ∧
    (vsfsckMain (goodInput true fsClean)).writes = 0 := by
  rw [Clean_main]
  exact ⟨rfl, rfl, rfl⟩

/-! ## The bad-block pass on fsC6, evaluated symbolically

The walk of block 3 (reached through single_indirect = 3 of inode 0) iterates
over all 1024 words of the first inode-table block; only entry 60 — the stale
dtime of inode 1, value 100 — is >= 64, so the walk equals that single step. -/

theorem fsC6_block3 (j : Nat) (hj : j < 1024) :
    fsC6 (3072 + j) =
      if j = 8 then 1 else if j = 11 then 3 else if j = 60 then 100
      else if j = 61 then 1 else 0 := by
  unfold fsC6
  split_ifs <;> omega

theorem readWord_fsC6_block3 (j : Nat) (hj : j < 1024) :
    readWord fsC6 (3072 + j) =
      if j = 8 then 1 else if j = 11 then 3 else if j = 60 then 100
      else if j = 61 then 1 else 0 := by
  rw [readWord, fsC6_block3 j hj]
  split_ifs <;> rfl

theorem C6_badLeafWalk : badLeafWalk true 3 (true, fsC6) = (false, fsC6after) := by
  have hact : badLeafStep true 3 (true, fsC6) 60 = (false, fsC6after) := rfl
  unfold badLeafWalk
  refine (foldl_single_active (badLeafStep true 3)
    (fun st => st = (true, fsC6)) (fun st => st = (false, fsC6after)) 60
    (List.range 1024) (List.nodup_range 1024) (List.mem_range.mpr (by omega))
    ?_ ?_ ?_ (true, fsC6) rfl).trans hact
  · intro st j hst hj hne
    subst hst
    have hj2 : j < 1024 := List.mem_range.mp hj
    unfold badLeafStep
    have hb : blockWord 3 j = 3072 + j := by unfold blockWord; omega
    rw [hb]
    rw [show ((true, fsC6) : Bool × Image).2 = fsC6 from rfl, readWord_fsC6_block3 j hj2]
    split_ifs <;> first | rfl | omega
  · intro st j hst hj hne
    subst hst
    have hj2 : j < 1024 := List.mem_range.mp hj
    unfold badLeafStep
    have hb : blockWord 3 j = 3072 + j := by unfold blockWord; omega
    rw [hb]
    rw [show ((false, fsC6after) : Bool × Image).2 = fsC6after from rfl]
    unfold fsC6after
    rw [readWord_writeWord_other _ _ _ _ (by omega : 3072 + j ≠ 3132),
      readWord_fsC6_block3 j hj2]
    split_ifs <;> first | rfl | omega
  · intro st hst
    subst hst
    rw [hact]

theorem fsC6_links_zero (j : Nat) (h1 : 2 ≤ j) (h2 : j < 80) :
    fsC6 (3072 + 53 * j + 8) = 0 := by
  unfold fsC6
  split_ifs <;> omega

theorem fsC6_dead (j : Nat) (h1 : 2 ≤ j) (h2 : j < 80) :
    is_inode_valid fsC6 j = false := by
  unfold is_inode_valid inodeField
  have h : readWord fsC6 (3072 + 53 * j + 8) = 0 := by
    rw [readWord, fsC6_links_zero j h1 h2]
  rw [h]
  simp

theorem fsC6after_dead (j : Nat) (h1 : 2 ≤ j) (h2 : j < 80) :
    is_inode_valid fsC6after j = false := by
  unfold is_inode_valid inodeField
  have h : readWord fsC6after (3072 + 53 * j + 8) = 0 := by
    unfold fsC6after
    rw [readWord_writeWord_other _ _ _ _ (by omega : 3072 + 53 * j + 8 ≠ 3132), readWord,
      fsC6_links_zero j h1 h2]
  rw [h]
  simp

theorem C6_badSingle0 : badSingle true 0 (true, fsC6) = (false, fsC6after) := by
  unfold badSingle
  rw [show readWord ((true, fsC6) : Bool × Image).2 (inodeField 0 11) = 3 from rfl]
  norm_num
  exact C6_badLeafWalk

theorem C6_badInodeStep0 : badInodeStep true (true, fsC6) 0 = (false, fsC6after) := by
  unfold badInodeStep
  rw [show is_inode_valid ((true, fsC6) : Bool × Image).2 0 = true from rfl]
  rw [show badDirect true 0 (true, fsC6) = (true, fsC6) from rfl]
  rw [C6_badSingle0]
  rfl

theorem C6_check_bad : check_bad_blocks true fsC6 = (false, fsC6after) := by
  unfold check_bad_blocks
  refine (foldl_single_active (badInodeStep true)
    (fun st => st = (true, fsC6)) (fun st => st = (false, fsC6after)) 0
    (List.range 80) (List.nodup_range 80) (List.mem_range.mpr (by omega))
    ?_ ?_ ?_ (true, fsC6) rfl).trans C6_badInodeStep0
  · intro st j hst hj hne
    subst hst
    have hj2 : j < 80 := List.mem_range.mp hj
    unfold badInodeStep
    by_cases h1 : j = 1
    · subst h1; rfl
    · rw [show ((true, fsC6) : Bool × Image).2 = fsC6 from rfl,
        fsC6_dead j (by omega) hj2]
      rfl
  · intro st j hst hj hne
    subst hst
    have hj2 : j < 80 := List.mem_range.mp hj
    unfold badInodeStep
    by_cases h1 : j = 1
    · subst h1; rfl
    · rw [show ((false, fsC6after) : Bool × Image).2 = fsC6after from rfl,
        fsC6after_dead j (by omega) hj2]
      rfl
  · intro st hst
    subst hst
    rw [C6_badInodeStep0]

theorem C6_badLeafWalk_recheck : badLeafWalk false 3 (true, fsC6after) = (true, fsC6after) := by
  unfold badLeafWalk
  refine foldl_eq_of_inactive (badLeafStep false 3) (fun st => st = (true, fsC6after))
    (List.range 1024) ?_ (true, fsC6after) rfl
  intro st j hst hj
  subst hst
  have hj2 : j < 1024 := List.mem_range.mp hj
  unfold badLeafStep
  have hb : blockWord 3 j = 3072 + j := by unfold blockWord; omega
  rw [hb]
  rw [show ((true, fsC6after) : Bool × Image).2 = fsC6after from rfl]
  by_cases h60 : j = 60
  · subst h60
    rw [show readWord fsC6after 3132 = 0 from rfl]
    rfl
  · unfold fsC6after
    rw [readWord_writeWord_other _ _ _ _ (by omega : 3072 + j ≠ 3132),
      readWord_fsC6_block3 j hj2]
    split_ifs <;> first | rfl | omega

theorem C6_check_bad_recheck : check_bad_blocks false fsC6after = (true, fsC6after) := by
  unfold check_bad_blocks
  refine foldl_eq_of_inactive (badInodeStep false) (fun st => st = (true, fsC6after))
    (List.range 80) ?_ (true, fsC6after) rfl
  intro st j hst hj
  subst hst
  have hj2 : j < 80 := List.mem_range.mp hj
  unfold badInodeStep
  by_cases h0 : j = 0
  · subst h0
    rw [show is_inode_valid ((true, fsC6after) : Bool × Image).2 0 = true from rfl]
    rw [show badDirect false 0 (true, fsC6after) = (true, fsC6after) from rfl]
    have hs : badSingle false 0 (true, fsC6after) = (true, fsC6after) := by
      unfold badSingle
      rw [show readWord ((true, fsC6after) : Bool × Image).2 (inodeField 0 11) = 3 from rfl]
      norm_num
      exact C6_badLeafWalk_recheck
    rw [hs]
    rfl
  · by_cases h1 : j = 1
    · subst h1; rfl
    · rw [show ((true, fsC6after) : Bool × Image).2 = fsC6after from rfl,
        fsC6after_dead j (by omega) hj2]
      rfl

theorem C6_runChecks_fix : runChecks true fsC6 =
    { img := fsC6after, sbOk := true, dbOk := true, ibOk := true, dupOk := true,
      badOk := false,
      trace := [PassTag.superblockHdr, PassTag.dataBitmapHdr, PassTag.inodeBitmapHdr,
        PassTag.duplicateHdr, PassTag.badBlockHdr] } := by
  have h1 : validate_superblock true fsC6 = (true, fsC6) := rfl
  have h2 : validate_data_bitmap true fsC6 = (true, fsC6) := rfl
  have h3 : validate_inode_bitmap true fsC6 = (true, fsC6) := rfl
  have h4 : check_duplicate_blocks true fsC6 = (true, fsC6) := rfl
  simp only [runChecks, runSuperblock, runDataBitmap, runInodeBitmap, runDuplicate,
    runBadBlocks, h1, h2, h3, h4, C6_check_bad]

theorem C6_runChecks_reaudit : runChecks false fsC6after =
    { img := fsC6after, sbOk := true, dbOk := true, ibOk := false, dupOk := true,
      badOk := true,
      trace := [PassTag.superblockHdr, PassTag.dataBitmapHdr, PassTag.inodeBitmapHdr,
        PassTag.duplicateHdr, PassTag.badBlockHdr] } := by
  have h1 : validate_superblock false fsC6after = (true, fsC6after) := rfl
  have h2 : validate_data_bitmap false fsC6after = (true, fsC6after) := rfl
  have h3 : validate_inode_bitmap false fsC6after = (false, fsC6after) := rfl
  have h4 : check_duplicate_blocks false fsC6after = (true, fsC6after) := rfl
  simp only [runChecks, runSuperblock, runDataBitmap, runInodeBitmap, runDuplicate,
    runBadBlocks, h1, h2, h3, h4, C6_check_bad_recheck]

theorem C6_main : vsfsckMain inpC6 = { exitCode := 0, writes := 1, finalImg := fsC6after } := by
  rw [vsfsckMain_run inpC6 rfl rfl rfl rfl rfl rfl rfl]
  rw [show inpC6.img = fsC6 from rfl, C6_runChecks_fix]
  simp only [RunOut.valid]
  norm_num
  rw [C6_runChecks_reaudit]

/-! ## Claim C10: the bad-block pass walks metadata blocks -/

/-- Claim C10: inode 0 holds single_indirect = 3, a metadata pointer to the
first inode-table block; the repair-mode bad-block pass descends into block 3
as a container and zeroes its entry 60 (word 3132, value 100) in place,
mutating the inode table. -/
theorem C10_theorem :
    readWord fsC6 (inodeField 0 11) = 3 ∧
    readWord fsC6 (blockWord 3 60) = 100 ∧
    (check_bad_blocks true fsC6).2 (blockWord 3 60) = 0 ∧
    (check_bad_blocks true fsC6).1 = false := by
  rw [C6_check_bad]
  refine ⟨rfl, rfl, ?_, rfl⟩
  show fsC6after (blockWord 3 60) = 0
  rfl

/-! ## Claim C6, counterexample part -/

/-! ## The duplicate pass on fsC1, evaluated symbolically, for both the
source traversal and the literal visit rule of the specification. -/

theorem fsC1_block9 (j : Nat) (h1 : 1 ≤ j) (h2 : j < 1024) : fsC1 (9216 + j) = 0 := by
  unfold fsC1
  split_ifs <;> omega

theorem fsC1_block10 (j : Nat) (h1 : 1 ≤ j) (h2 : j < 1024) : fsC1 (10240 + j) = 0 := by
  unfold fsC1
  split_ifs <;> omega

theorem fsC1_links (j : Nat) (h1 : 1 ≤ j) (h2 : j < 80) :
    fsC1 (3072 + 53 * j + 8) = 0 := by
  unfold fsC1
  split_ifs <;> omega

theorem fsC1_dead (j : Nat) (h1 : 1 ≤ j) (h2 : j < 80) :
    is_inode_valid fsC1 j = false := by
  unfold is_inode_valid inodeField
  rw [show readWord fsC1 (3072 + 53 * j + 8) = 0 by
    rw [readWord, fsC1_links j h1 h2]]
  simp

theorem fsC1code_dead (j : Nat) (h1 : 1 ≤ j) (h2 : j < 80) :
    is_inode_valid fsC1code j = false := by
  unfold is_inode_valid inodeField
  have h : readWord fsC1code (3072 + 53 * j + 8) = 0 := by
    unfold fsC1code fsC1spec
    rw [readWord_writeWord_other _ _ _ _ (by omega : 3072 + 53 * j + 8 ≠ 9216),
      readWord_writeWord_other _ _ _ _ (by omega : 3072 + 53 * j + 8 ≠ 10240),
      readWord, fsC1_links j h1 h2]
  rw [h]
  simp

theorem fsC1spec_dead (j : Nat) (h1 : 1 ≤ j) (h2 : j < 80) :
    is_inode_valid fsC1spec j = false := by
  unfold is_inode_valid inodeField
  have h : readWord fsC1spec (3072 + 53 * j + 8) = 0 := by
    unfold fsC1spec
    rw [readWord_writeWord_other _ _ _ _ (by omega : 3072 + 53 * j + 8 ≠ 10240),
      readWord, fsC1_links j h1 h2]
  rw [h]
  simp

theorem C1_walk_single :
    List.foldl (dupLeafStep true 0 9) stC1a (List.range 1024) = stC1b := by
  have hact : dupLeafStep true 0 9 stC1a 0 = stC1b := rfl
  refine (foldl_single_active (dupLeafStep true 0 9)
    (fun st => st = stC1a) (fun st => st = stC1b) 0 (List.range 1024)
    (List.nodup_range 1024) (List.mem_range.mpr (by omega)) ?_ ?_ ?_ stC1a rfl).trans hact
  · intro st j hst hj hne
    subst hst
    simp only [dupLeafStep]
    rw [show blockWord 9 j = 9216 + j from by unfold blockWord; omega]
    rw [show stC1a.img = fsC1 from rfl]
    rw [show readWord fsC1 (9216 + j) = 0 by
      rw [readWord, fsC1_block9 j (by omega) (List.mem_range.mp hj)]]
    simp
  · intro st j hst hj hne
    subst hst
    simp only [dupLeafStep]
    rw [show blockWord 9 j = 9216 + j from by unfold blockWord; omega]
    rw [show stC1b.img = fsC1 from rfl]
    rw [show readWord fsC1 (9216 + j) = 0 by
      rw [readWord, fsC1_block9 j (by omega) (List.mem_range.mp hj)]]
    simp
  · intro st hst
    subst hst
    rw [hact]

theorem C1_walk9_seen :
    List.foldl (dupLeafStep true 0 9) stC1d (List.range 1024) = stC1e := by
  have hact : dupLeafStep true 0 9 stC1d 0 = stC1e := rfl
  refine (foldl_single_active (dupLeafStep true 0 9)
    (fun st => st = stC1d) (fun st => st = stC1e) 0 (List.range 1024)
    (List.nodup_range 1024) (List.mem_range.mpr (by omega)) ?_ ?_ ?_ stC1d rfl).trans hact
  · intro st j hst hj hne
    subst hst
    have hj2 : j < 1024 := List.mem_range.mp hj
    simp only [dupLeafStep]
    rw [show blockWord 9 j = 9216 + j from by unfold blockWord; omega]
    rw [show stC1d.img = writeWord fsC1 10240 0 from rfl]
    rw [show readWord (writeWord fsC1 10240 0) (9216 + j) = 0 by
      rw [readWord_writeWord_other _ _ _ _ (by omega : 9216 + j ≠ 10240), readWord,
        fsC1_block9 j (by omega) hj2]]
    simp
  · intro st j hst hj hne
    subst hst
    have hj2 : j < 1024 := List.mem_range.mp hj
    simp only [dupLeafStep]
    rw [show blockWord 9 j = 9216 + j from by unfold blockWord; omega]
    rw [show stC1e.img = writeWord (writeWord fsC1 10240 0) 9216 0 from rfl]
    rw [show readWord (writeWord (writeWord fsC1 10240 0) 9216 0) (9216 + j) = 0 by
      rw [readWord_writeWord_other _ _ _ _ (by omega : 9216 + j ≠ 9216),
        readWord_writeWord_other _ _ _ _ (by omega : 9216 + j ≠ 10240), readWord,
        fsC1_block9 j (by omega) hj2]]
    simp
  · intro st hst
    subst hst
    rw [hact]

theorem C1_walk_double :
    List.foldl (dupDblEntryStep true 0 10) stC1c (List.range 1024) = stC1e := by
  have hact : dupDblEntryStep true 0 10 stC1c 0 = stC1e := by
    simp only [dupDblEntryStep]
    rw [show readWord stC1c.img (blockWord 10 0) = 9 from rfl]
    norm_num
    rw [show dupSlotVisit true 0 (blockWord 10 0) 9 stC1c = stC1d from rfl]
    exact C1_walk9_seen
  refine (foldl_single_active (dupDblEntryStep true 0 10)
    (fun st => st = stC1c) (fun st => st = stC1e) 0 (List.range 1024)
    (List.nodup_range 1024) (List.mem_range.mpr (by omega)) ?_ ?_ ?_ stC1c rfl).trans hact
  · intro st j hst hj hne
    subst hst
    simp only [dupDblEntryStep]
    rw [show blockWord 10 j = 10240 + j from by unfold blockWord; omega]
    rw [show stC1c.img = fsC1 from rfl]
    rw [show readWord fsC1 (10240 + j) = 0 by
      rw [readWord, fsC1_block10 j (by omega) (List.mem_range.mp hj)]]
    simp
  · intro st j hst hj hne
    subst hst
    have hj2 : j < 1024 := List.mem_range.mp hj
    simp only [dupDblEntryStep]
    rw [show blockWord 10 j = 10240 + j from by unfold blockWord; omega]
    rw [show stC1e.img = writeWord (writeWord fsC1 10240 0) 9216 0 from rfl]
    rw [show readWord (writeWord (writeWord fsC1 10240 0) 9216 0) (10240 + j) = 0 by
      rw [readWord_writeWord_other _ _ _ _ (by omega : 10240 + j ≠ 9216),
        readWord_writeWord_other _ _ _ _ (by omega : 10240 + j ≠ 10240), readWord,
        fsC1_block10 j (by omega) hj2]]
    simp
  · intro st hst
    subst hst
    rw [hact]

theorem C1_dupSingle : dupSingle true 0 (dupInitSt fsC1) = stC1b := by
  simp only [dupSingle]
  rw [show readWord (dupInitSt fsC1).img (inodeField 0 11) = 9 from rfl]
  norm_num
  rw [show (dupInitSt fsC1).seen 9 = false from rfl]
  norm_num
  rw [show dupMark (dupInitSt fsC1) 9 0 = stC1a from rfl]
  exact C1_walk_single

theorem C1_dupDouble : dupDouble true 0 stC1b = stC1e := by
  simp only [dupDouble]
  rw [show readWord stC1b.img (inodeField 0 12) = 10 from rfl]
  rw [if_pos (show (10:Nat) ≠ 0 by norm_num)]
  rw [if_pos (show 8 ≤ 10 ∧ 10 < 64 by norm_num)]
  rw [show stC1b.seen 10 = false from rfl]
  rw [if_neg (show ¬(false = true) by simp)]
  rw [show dupMark stC1b 10 0 = stC1c from rfl]
  exact C1_walk_double

theorem C1_dupInodeStep0 : dupInodeStep true (dupInitSt fsC1) 0 = stC1e := by
  unfold dupInodeStep
  rw [show is_inode_valid (dupInitSt fsC1).img 0 = true from rfl]
  rw [show dupDirect true 0 (dupInitSt fsC1) = dupInitSt fsC1 from rfl]
  rw [C1_dupSingle, C1_dupDouble]
  rw [show dupTriple true 0 stC1e = stC1e from rfl]
  rw [if_pos rfl]

theorem C1_code_run : check_duplicate_blocks true fsC1 = (false, fsC1code) := by
  unfold check_duplicate_blocks
  have h : List.foldl (dupInodeStep true)
      { ok := true, seen := fun _ => false, owner := fun _ => 0, img := fsC1 }
      (List.range 80) = stC1e := by
    refine (foldl_single_active (dupInodeStep true)
      (fun st => st = dupInitSt fsC1) (fun st => st = stC1e) 0 (List.range 80)
      (List.nodup_range 80) (List.mem_range.mpr (by omega)) ?_ ?_ ?_
      (dupInitSt fsC1) rfl).trans C1_dupInodeStep0
    · intro st j hst hj hne
      subst hst
      unfold dupInodeStep
      rw [show (dupInitSt fsC1).img = fsC1 from rfl,
        fsC1_dead j (by omega) (List.mem_range.mp hj)]
      rfl
    · intro st j hst hj hne
      subst hst
      unfold dupInodeStep
      rw [show stC1e.img = fsC1code from rfl,
        fsC1code_dead j (by omega) (List.mem_range.mp hj)]
      rfl
    · intro st hst
      subst hst
      rw [C1_dupInodeStep0]
  rw [h]
  rfl

/-! The same image under the literal visit rule of section 4.5. -/

theorem C1_spec_walk_single :
    List.foldl (fun s j =>
      let e := readWord s.img (blockWord 9 j)
      if e ≠ 0 then visitSpec true 0 0 (blockWord 9 j) e s else s)
      stC1a (List.range 1024) = stC1b := by
  have hact : (fun (s : DupSt) (j : Nat) =>
      let e := readWord s.img (blockWord 9 j)
      if e ≠ 0 then visitSpec true 0 0 (blockWord 9 j) e s else s) stC1a 0 = stC1b := rfl
  refine (foldl_single_active _
    (fun st => st = stC1a) (fun st => st = stC1b) 0 (List.range 1024)
    (List.nodup_range 1024) (List.mem_range.mpr (by omega)) ?_ ?_ ?_ stC1a rfl).trans hact
  · intro st j hst hj hne
    subst hst
    dsimp only
    rw [show blockWord 9 j = 9216 + j from by unfold blockWord; omega]
    rw [show stC1a.img = fsC1 from rfl]
    rw [show readWord fsC1 (9216 + j) = 0 by
      rw [readWord, fsC1_block9 j (by omega) (List.mem_range.mp hj)]]
    simp
  · intro st j hst hj hne
    subst hst
    dsimp only
    rw [show blockWord 9 j = 9216 + j from by unfold blockWord; omega]
    rw [show stC1b.img = fsC1 from rfl]
    rw [show readWord fsC1 (9216 + j) = 0 by
      rw [readWord, fsC1_block9 j (by omega) (List.mem_range.mp hj)]]
    simp
  · intro st hst
    subst hst
    exact hact

theorem C1_spec_walk_double :
    List.foldl (fun s j =>
      let e := readWord s.img (blockWord 10 j)
      if e ≠ 0 then visitSpec true 0 1 (blockWord 10 j) e s else s)
      stC1c (List.range 1024) = stC1d := by
  have hact : (fun (s : DupSt) (j : Nat) =>
      let e := readWord s.img (blockWord 10 j)
      if e ≠ 0 then visitSpec true 0 1 (blockWord 10 j) e s else s) stC1c 0 = stC1d := by
    dsimp only
    rw [show readWord stC1c.img (blockWord 10 0) = 9 from rfl]
    norm_num
    show visitSpec true 0 (0 + 1) (blockWord 10 0) 9 stC1c = stC1d
    rw [visitSpec]
    rw [show stC1c.seen 9 = true from rfl]
    norm_num
    rfl
  refine (foldl_single_active _
    (fun st => st = stC1c) (fun st => st = stC1d) 0 (List.range 1024)
    (List.nodup_range 1024) (List.mem_range.mpr (by omega)) ?_ ?_ ?_ stC1c rfl).trans hact
  · intro st j hst hj hne
    subst hst
    dsimp only
    rw [show blockWord 10 j = 10240 + j from by unfold blockWord; omega]
    rw [show stC1c.img = fsC1 from rfl]
    rw [show readWord fsC1 (10240 + j) = 0 by
      rw [readWord, fsC1_block10 j (by omega) (List.mem_range.mp hj)]]
    simp
  · intro st j hst hj hne
    subst hst
    have hj2 : j < 1024 := List.mem_range.mp hj
    dsimp only
    rw [show blockWord 10 j = 10240 + j from by unfold blockWord; omega]
    rw [show stC1d.img = writeWord fsC1 10240 0 from rfl]
    rw [show readWord (writeWord fsC1 10240 0) (10240 + j) = 0 by
      rw [readWord_writeWord_other _ _ _ _ (by omega : 10240 + j ≠ 10240), readWord,
        fsC1_block10 j (by omega) hj2]]
    simp
  · intro st hst
    subst hst
    exact hact

theorem C1_specRoot_single : specRoot true 0 1 11 (dupInitSt fsC1) = stC1b := by
  simp only [specRoot]
  rw [show readWord (dupInitSt fsC1).img (inodeField 0 11) = 9 from rfl]
  rw [if_pos (show (9:Nat) ≠ 0 by norm_num)]
  show visitSpec true 0 (0 + 1) (inodeField 0 11) 9 (dupInitSt fsC1) = stC1b
  rw [visitSpec]
  rw [if_pos (show 8 ≤ 9 ∧ 9 < 64 by norm_num)]
  rw [show (dupInitSt fsC1).seen 9 = false from rfl]
  rw [if_neg (show ¬(false = true) by simp)]
  rw [show dupMark (dupInitSt fsC1) 9 0 = stC1a from rfl]
  exact C1_spec_walk_single

theorem C1_specRoot_double : specRoot true 0 2 12 stC1b = stC1d := by
  simp only [specRoot]
  rw [show readWord stC1b.img (inodeField 0 12) = 10 from rfl]
  rw [if_pos (show (10:Nat) ≠ 0 by norm_num)]
  show visitSpec true 0 (1 + 1) (inodeField 0 12) 10 stC1b = stC1d
  rw [visitSpec]
  rw [if_pos (show 8 ≤ 10 ∧ 10 < 64 by norm_num)]
  rw [show stC1b.seen 10 = false from rfl]
  rw [if_neg (show ¬(false = true) by simp)]
  rw [show dupMark stC1b 10 0 = stC1c from rfl]
  exact C1_spec_walk_double

theorem C1_spec_run : dupPassSpec true fsC1 = (false, fsC1spec) := by
  unfold dupPassSpec
  have hstep : specDupInodeStep true (dupInitSt fsC1) 0 = stC1d := by
    unfold specDupInodeStep
    rw [show is_inode_valid (dupInitSt fsC1).img 0 = true from rfl]
    rw [show specRoot true 0 0 10 (dupInitSt fsC1) = dupInitSt fsC1 from rfl]
    rw [C1_specRoot_single, C1_specRoot_double]
    rw [show specRoot true 0 3 13 stC1d = stC1d from rfl]
    rw [if_pos rfl]
  have h : List.foldl (specDupInodeStep true)
      { ok := true, seen := fun _ => false, owner := fun _ => 0, img := fsC1 }
      (List.range 80) = stC1d := by
    refine (foldl_single_active (specDupInodeStep true)
      (fun st => st = dupInitSt fsC1) (fun st => st = stC1d) 0 (List.range 80)
      (List.nodup_range 80) (List.mem_range.mpr (by omega)) ?_ ?_ ?_
      (dupInitSt fsC1) rfl).trans hstep
    · intro st j hst hj hne
      subst hst
      unfold specDupInodeStep
      rw [show (dupInitSt fsC1).img = fsC1 from rfl,
        fsC1_dead j (by omega) (List.mem_range.mp hj)]
      rfl
    · intro st j hst hj hne
      subst hst
      unfold specDupInodeStep
      rw [show stC1d.img = fsC1spec from rfl,
        fsC1spec_dead j (by omega) (List.mem_range.mp hj)]
      rfl
    · intro st hst
      subst hst
      rw [hstep]
  rw [h]
  rfl

/-! ## Claim C1: the visit rule versus the source traversal -/

/-- Claim C1, counterexample: on fsC1 (inode 0 with single_indirect 9 and
double_indirect 10, block 10 entry 0 holding the already-seen 9, block 9
entry 0 holding 11), the source pass recurses into the already-seen container
9 after zeroing the duplicate slot, re-visits the seen leaf 11 and zeroes
block 9 entry 0 (word 9216), while the visit rule of the claim leaves it at
11; so the later reference is not removed without recursing into the
duplicate container's contents. -/
theorem C1_counterexample :
    (check_duplicate_blocks true fsC1).2 9216 = 0 ∧
    (dupPassSpec true fsC1).2 9216 = 11 ∧
    (check_duplicate_blocks true fsC1).2 ≠ (dupPassSpec true fsC1).2 := by
  rw [C1_code_run, C1_spec_run]
  refine ⟨rfl, rfl, ?_⟩
  intro h
  have h2 := congrArg (fun f => f 9216) h
  simp only [fsC1code, fsC1spec, writeWord, fsC1] at h2
  norm_num at h2

/-! ## Claim C1, amended: the source traversal equals the amended visit rule -/

theorem leafRule_eq (fix : Bool) (ino slot b : Nat) (st : DupSt) :
    (if 8 ≤ b ∧ b < 64 then
      (if st.seen b then dupRepairAt fix slot st else dupMark st b ino)
     else st) = dupSlotVisit fix ino slot b st := by
  unfold dupSlotVisit check_data_block_for_duplicates dupRepairAt dupMark
  split_ifs <;> rfl

theorem visitAmended_zero (fix : Bool) (ino slot b : Nat) (st : DupSt) :
    visitAmended fix ino 0 slot b st = dupSlotVisit fix ino slot b st := by
  rw [show visitAmended fix ino 0 slot b st =
    (if 8 ≤ b ∧ b < 64 then
      (if st.seen b then dupRepairAt fix slot st else dupMark st b ino)
     else st) from rfl]
  exact leafRule_eq fix ino slot b st

theorem leafStep_eq (fix : Bool) (ino c : Nat) :
    (fun (s : DupSt) (j : Nat) =>
      let e := readWord s.img (blockWord c j)
      if e ≠ 0 then visitAmended fix ino 0 (blockWord c j) e s else s) =
    dupLeafStep fix ino c := by
  funext s j
  simp only [dupLeafStep, visitAmended_zero]

theorem midStep_eq (fix : Bool) (ino c : Nat) :
    (fun (s : DupSt) (j : Nat) =>
      let e := readWord s.img (blockWord c j)
      if e ≠ 0 then visitAmended fix ino 1 (blockWord c j) e s else s) =
    dupDblEntryStep fix ino c := by
  funext s j
  show (if readWord s.img (blockWord c j) ≠ 0 then
      visitAmended fix ino (0 + 1) (blockWord c j) (readWord s.img (blockWord c j)) s
    else s) = _
  rw [visitAmended]
  simp only [dupDblEntryStep, leafRule_eq, leafStep_eq]

theorem topStep_eq (fix : Bool) (ino c : Nat) :
    (fun (s : DupSt) (j : Nat) =>
      let e := readWord s.img (blockWord c j)
      if e ≠ 0 then visitAmended fix ino 2 (blockWord c j) e s else s) =
    dupTrpEntryStep fix ino c := by
  funext s j
  show (if readWord s.img (blockWord c j) ≠ 0 then
      visitAmended fix ino (1 + 1) (blockWord c j) (readWord s.img (blockWord c j)) s
    else s) = _
  rw [visitAmended]
  simp only [dupTrpEntryStep, leafRule_eq, midStep_eq]

theorem amRoot_direct (fix : Bool) (ino : Nat) (st : DupSt) :
    amRoot fix ino 0 10 st = dupDirect fix ino st := by
  unfold amRoot dupDirect dupRepairAt
  split_ifs <;> rfl

theorem amRoot_single (fix : Bool) (ino : Nat) (st : DupSt) :
    amRoot fix ino 1 11 st = dupSingle fix ino st := by
  unfold amRoot dupSingle dupRepairAt
  simp only [leafStep_eq]

theorem amRoot_double (fix : Bool) (ino : Nat) (st : DupSt) :
    amRoot fix ino 2 12 st = dupDouble fix ino st := by
  unfold amRoot dupDouble dupRepairAt
  simp only [midStep_eq]

theorem amRoot_triple (fix : Bool) (ino : Nat) (st : DupSt) :
    amRoot fix ino 3 13 st = dupTriple fix ino st := by
  unfold amRoot dupTriple dupRepairAt
  simp only [topStep_eq]

/-- Claim C1 (amended): the duplicate pass follows the visit rule for
top-level pointers (ignore out-of-range, repair a duplicate without walking
it, mark-then-walk a fresh container) and for leaf entries, but a container
entry met inside a double- or triple-indirect walk is walked as a container
whenever it is non-zero and below total_blocks, even when it was already
seen or lies below first_data_block; with that one change the traversal of
the source is exactly the amended rule, in both modes and on every image. -/
theorem C1_theorem : ∀ (fix : Bool) (fs : Image),
    check_duplicate_blocks fix fs = dupPassAmended fix fs := by
  intro fix fs
  unfold check_duplicate_blocks dupPassAmended
  have hstep : dupInodeStep fix = amDupInodeStep fix := by
    funext st i
    unfold dupInodeStep amDupInodeStep
    rw [amRoot_direct, amRoot_single, amRoot_double, amRoot_triple]
  rw [hstep]

/-! ## Bit-level lemmas for the bitmap passes -/

theorem testBit_set (w pos j : Nat) :
    Nat.testBit (Nat.lor w (2 ^ pos)) j = if j = pos then true else Nat.testBit w j := by
  show (w ||| 2 ^ pos).testBit j = _
  rw [Nat.testBit_lor]
  by_cases h : j = pos
  · subst h
    simp [Nat.testBit_two_pow_self]
  · rw [Nat.testBit_two_pow_of_ne (Ne.symm h)]
    simp [h]

theorem mask_eq_xor (pos : Nat) (h : pos < 32) :
    (4294967295 - 2 ^ pos : Nat) = 4294967295 ^^^ 2 ^ pos := by
  interval_cases pos <;> rfl

theorem testBit_clear (w pos j : Nat) (hw : w < 4294967296) (hpos : pos < 32) :
    Nat.testBit (Nat.land w (4294967295 - 2 ^ pos)) j =
      if j = pos then false else Nat.testBit w j := by
  rw [mask_eq_xor pos hpos]
  show (w &&& (4294967295 ^^^ 2 ^ pos)).testBit j = _
  rw [Nat.testBit_land, Nat.testBit_xor,
    show (4294967295 : Nat) = 2 ^ 32 - 1 from rfl, Nat.testBit_two_pow_sub_one]
  by_cases hj : j = pos
  · subst hj
    rw [Nat.testBit_two_pow_self]
    simp [hpos]
  · by_cases h32 : j < 32
    · rw [Nat.testBit_two_pow_of_ne (Ne.symm hj)]
      simp [h32, hj]
    · have hzero : Nat.testBit w j = false := by
        apply Nat.testBit_eq_false_of_lt
        calc w < 4294967296 := hw
          _ = 2 ^ 32 := rfl
          _ ≤ 2 ^ j := Nat.pow_le_pow_right (by omega) (by omega)
      rw [Nat.testBit_two_pow_of_ne (Ne.symm hj), hzero]
      simp [h32, hj]

theorem set_bit_frame (fs : Image) (base i p : Nat) (h : p ≠ base + i / 32) :
    readWord (set_bit fs base i) p = readWord fs p := by
  unfold set_bit
  exact readWord_writeWord_other _ _ _ _ h

theorem clear_bit_frame (fs : Image) (base i p : Nat) (h : p ≠ base + i / 32) :
    readWord (clear_bit fs base i) p = readWord fs p := by
  unfold clear_bit
  exact readWord_writeWord_other _ _ _ _ h

theorem is_bit_set_set_bit (fs : Image) (base i j : Nat) :
    is_bit_set (set_bit fs base i) base j = if j = i then true else is_bit_set fs base j := by
  unfold is_bit_set
  by_cases hw : base + j / 32 = base + i / 32
  · have hv : readWord (set_bit fs base i) (base + j / 32) =
        Nat.lor (readWord fs (base + i / 32)) (2 ^ (i % 32)) := by
      unfold set_bit
      rw [hw, readWord_writeWord_same]
      exact Nat.mod_eq_of_lt (Nat.or_lt_two_pow (readWord_lt fs _)
        (Nat.pow_lt_pow_right (by omega) (Nat.mod_lt _ (by omega))))
    rw [hv, testBit_set]
    have hdiv : j / 32 = i / 32 := by omega
    by_cases hji : j = i
    · subst hji
      simp
    · have hmod : j % 32 ≠ i % 32 := by omega
      simp [hmod, hji, hdiv]
  · rw [set_bit_frame fs base i _ hw]
    have hji : j ≠ i := by
      intro h
      exact hw (by rw [h])
    simp [hji]

theorem is_bit_set_clear_bit (fs : Image) (base i j : Nat) :
    is_bit_set (clear_bit fs base i) base j =
      if j = i then false else is_bit_set fs base j := by
  unfold is_bit_set
  by_cases hw : base + j / 32 = base + i / 32
  · have hv : readWord (clear_bit fs base i) (base + j / 32) =
        Nat.land (readWord fs (base + i / 32)) (4294967295 - 2 ^ (i % 32)) := by
      unfold clear_bit
      rw [hw, readWord_writeWord_same]
      exact Nat.mod_eq_of_lt (lt_of_le_of_lt Nat.and_le_left (readWord_lt fs _))
    rw [hv, testBit_clear _ _ _ (readWord_lt fs _) (by omega)]
    have hdiv : j / 32 = i / 32 := by omega
    by_cases hji : j = i
    · subst hji
      simp
    · have hmod : j % 32 ≠ i % 32 := by omega
      simp [hmod, hji, hdiv]
  · rw [clear_bit_frame fs base i _ hw]
    have hji : j ≠ i := by
      intro h
      exact hw (by rw [h])
    simp [hji]

/-! ## The inode-bitmap pass makes every bit agree with liveness -/

theorem ibStep_char (st : Bool × Image) (i : Nat) (hi : i < 80) :
    (∀ p, p < 1024 ∨ 1027 ≤ p → readWord (ibStep true st i).2 p = readWord st.2 p) ∧
    (∀ j, j ≠ i → is_bit_set (ibStep true st i).2 1024 j = is_bit_set st.2 1024 j) ∧
    is_bit_set (ibStep true st i).2 1024 i = is_inode_valid st.2 i := by
  have hword : ∀ p : Nat, p < 1024 ∨ 1027 ≤ p → p ≠ 1024 + i / 32 := by
    intro p hp
    omega
  unfold ibStep
  by_cases h1 : is_inode_valid st.2 i = true ∧ is_bit_set st.2 1024 i = false
  · rw [if_pos h1]
    dsimp only
    rw [if_pos (rfl : (true : Bool) = true)]
    refine ⟨?_, ?_, ?_⟩
    · intro p hp
      exact set_bit_frame st.2 1024 i p (hword p hp)
    · intro j hj
      rw [is_bit_set_set_bit, if_neg hj]
    · rw [is_bit_set_set_bit, if_pos rfl, h1.1]
  · rw [if_neg h1]
    by_cases h2 : is_inode_valid st.2 i = false ∧ is_bit_set st.2 1024 i = true
    · rw [if_pos h2]
      dsimp only
      rw [if_pos (rfl : (true : Bool) = true)]
      refine ⟨?_, ?_, ?_⟩
      · intro p hp
        exact clear_bit_frame st.2 1024 i p (hword p hp)
      · intro j hj
        rw [is_bit_set_clear_bit, if_neg hj]
      · rw [is_bit_set_clear_bit, if_pos rfl, h2.1]
    · rw [if_neg h2]
      refine ⟨fun p _ => rfl, fun j _ => rfl, ?_⟩
      rcases Bool.eq_false_or_eq_true (is_inode_valid st.2 i) with hl | hl <;>
        rcases Bool.eq_false_or_eq_true (is_bit_set st.2 1024 i) with hc | hc <;>
        simp [hl, hc] at h1 h2 ⊢

theorem ib_fix_invariant (fs : Image) : ∀ n, n ≤ 80 →
    (∀ p, p < 1024 ∨ 1027 ≤ p →
      readWord (List.foldl (ibStep true) (true, fs) (List.range n)).2 p = readWord fs p) ∧
    (∀ j, n ≤ j →
      is_bit_set (List.foldl (ibStep true) (true, fs) (List.range n)).2 1024 j
        = is_bit_set fs 1024 j) ∧
    (∀ j, j < n →
      is_bit_set (List.foldl (ibStep true) (true, fs) (List.range n)).2 1024 j
        = is_inode_valid fs j) := by
  intro n
  induction n with
  | zero =>
      intro _
      exact ⟨fun p _ => rfl, fun j _ => rfl, fun j hj => absurd hj (by omega)⟩
  | succ n ih =>
      intro hn
      obtain ⟨hframe, hup, hdone⟩ := ih (by omega)
      rw [List.range_succ, List.foldl_append]
      simp only [List.foldl_cons, List.foldl_nil]
      obtain ⟨sframe, sother, sbit⟩ :=
        ibStep_char (List.foldl (ibStep true) (true, fs) (List.range n)) n (by omega)
      have hliveA : is_inode_valid
          (List.foldl (ibStep true) (true, fs) (List.range n)).2 n = is_inode_valid fs n := by
        unfold is_inode_valid
        rw [hframe (inodeField n 8) (Or.inr (by unfold inodeField; omega)),
          hframe (inodeField n 7) (Or.inr (by unfold inodeField; omega))]
      refine ⟨?_, ?_, ?_⟩
      · intro p hp
        rw [sframe p hp, hframe p hp]
      · intro j hj
        rw [sother j (by omega), hup j (by omega)]
      · intro j hj
        by_cases hjn : j = n
        · subst hjn
          rw [sbit, hliveA]
        · rw [sother j hjn, hdone j (by omega)]

/-- Claim C6 (amended): immediately after the repair-mode inode-bitmap pass,
bit i of the inode bitmap equals the liveness of inode i for every
i < inode_count, and the pass leaves the inode table (and hence liveness)
untouched; the original claim fails only because the later duplicate and
bad-block passes may rewrite inode metadata, as the counterexample shows. -/
theorem C6_theorem : ∀ (fs : Image) (i : Nat), i < 80 →
    is_bit_set (validate_inode_bitmap true fs).2 1024 i = is_inode_valid fs i ∧
    is_inode_valid (validate_inode_bitmap true fs).2 i = is_inode_valid fs i := by
  intro fs i hi
  obtain ⟨hframe, _, hdone⟩ := ib_fix_invariant fs 80 le_rfl
  constructor
  · exact hdone i hi
  · unfold validate_inode_bitmap
    unfold is_inode_valid
    rw [hframe (inodeField i 8) (Or.inr (by unfold inodeField; omega)),
      hframe (inodeField i 7) (Or.inr (by unfold inodeField; omega))]

/-- Witness for C6_theorem on the metadata-walk image at inode 1. -/
theorem C6_witness :
    (1 : Nat) < 80 ∧
    is_bit_set (validate_inode_bitmap true fsC6).2 1024 1 = is_inode_valid fsC6 1 :=
  ⟨by omega, (C6_theorem fsC6 1 (by omega)).1⟩

/-! ## Claim C5: the data-bitmap pass -/

theorem blkIdx_iff (b : Nat) (hb : b < 4294967296) :
    (b ≠ 0 ∧ 0 ≤ blkIdxI b ∧ blkIdxI b < 56) ↔ (8 ≤ b ∧ b < 64) := by
  unfold blkIdxI toI32
  split_ifs <;> omega

theorem blkIdx_toNat (b : Nat) (h8 : 8 ≤ b) (h64 : b < 64) : (blkIdxI b).toNat = b - 8 := by
  unfold blkIdxI toI32
  split_ifs <;> omega

theorem markPtr_iff (fs : Image) (u : Nat → Bool) (p i : Nat) (hi : i < 56) :
    (markPtr fs u p i = true) ↔ (u i = true ∨ readWord fs p = i + 8) := by
  unfold markPtr
  by_cases hcond : readWord fs p ≠ 0 ∧ 0 ≤ blkIdxI (readWord fs p) ∧
      blkIdxI (readWord fs p) < 56
  · rw [if_pos hcond]
    have hrange := (blkIdx_iff _ (readWord_lt fs p)).mp hcond
    rw [blkIdx_toNat _ hrange.1 hrange.2]
    by_cases hie : i = readWord fs p - 8
    · rw [if_pos hie]
      constructor
      · intro _
        right
        omega
      · intro _
        rfl
    · rw [if_neg hie]
      constructor
      · intro h
        exact Or.inl h
      · intro h
        rcases h with h | h
        · exact h
        · exact absurd (by omega : i = readWord fs p - 8) hie
  · rw [if_neg hcond]
    constructor
    · intro h
      exact Or.inl h
    · intro h
      rcases h with h | h
      · exact h
      · exact absurd ((blkIdx_iff (i + 8) (by omega)).mpr (by omega)) (by rw [h] at hcond; exact hcond)

theorem usedOfInode_iff (fs : Image) (u : Nat → Bool) (j i : Nat) (hi : i < 56) :
    (usedOfInode fs u j i = true) ↔
      (u i = true ∨ (is_inode_valid fs j = true ∧
        (readWord fs (inodeField j 10) = i + 8 ∨ readWord fs (inodeField j 11) = i + 8 ∨
         readWord fs (inodeField j 12) = i + 8 ∨ readWord fs (inodeField j 13) = i + 8))) := by
  unfold usedOfInode
  by_cases hv : is_inode_valid fs j = true
  · rw [if_pos hv]
    rw [markPtr_iff _ _ _ _ hi, markPtr_iff _ _ _ _ hi, markPtr_iff _ _ _ _ hi,
      markPtr_iff _ _ _ _ hi]
    simp only [hv, true_and]
    tauto
  · rw [if_neg hv]
    simp [hv]

theorem usedFold_iff (fs : Image) :
    ∀ (l : List Nat) (u : Nat → Bool) (i : Nat), i < 56 →
    ((List.foldl (usedOfInode fs) u l) i = true ↔
      (u i = true ∨ ∃ j ∈ l, is_inode_valid fs j = true ∧
        (readWord fs (inodeField j 10) = i + 8 ∨ readWord fs (inodeField j 11) = i + 8 ∨
         readWord fs (inodeField j 12) = i + 8 ∨ readWord fs (inodeField j 13) = i + 8))) := by
  intro l
  induction l with
  | nil =>
      intro u i hi
      simp
  | cons a t ih =>
      intro u i hi
      rw [List.foldl_cons]
      rw [ih (usedOfInode fs u a) i hi]
      rw [usedOfInode_iff fs u a i hi]
      simp only [List.exists_mem_cons_iff]
      rw [or_assoc]

theorem computeUsed_iff (fs : Image) (i : Nat) (hi : i < 56) :
    (computeUsed fs i = true ↔
      ∃ j, j < 80 ∧ is_inode_valid fs j = true ∧
        (readWord fs (inodeField j 10) = i + 8 ∨ readWord fs (inodeField j 11) = i + 8 ∨
         readWord fs (inodeField j 12) = i + 8 ∨ readWord fs (inodeField j 13) = i + 8)) := by
  unfold computeUsed
  rw [usedFold_iff fs (List.range 80) _ i hi]
  simp [List.mem_range]

theorem dbStep_char (used : Nat → Bool) (st : Bool × Image) (i : Nat) (hi : i < 56) :
    (∀ p, p < 2048 ∨ 2050 ≤ p → readWord (dbStep true used st i).2 p = readWord st.2 p) ∧
    (∀ j, j ≠ i → is_bit_set (dbStep true used st i).2 2048 j = is_bit_set st.2 2048 j) ∧
    is_bit_set (dbStep true used st i).2 2048 i = used i := by
  have hword : ∀ p : Nat, p < 2048 ∨ 2050 ≤ p → p ≠ 2048 + i / 32 := by
    intro p hp
    omega
  unfold dbStep
  by_cases h1 : used i = true ∧ is_bit_set st.2 2048 i = false
  · rw [if_pos h1]
    dsimp only
    rw [if_pos (rfl : (true : Bool) = true)]
    refine ⟨?_, ?_, ?_⟩
    · intro p hp
      exact set_bit_frame st.2 2048 i p (hword p hp)
    · intro j hj
      rw [is_bit_set_set_bit, if_neg hj]
    · rw [is_bit_set_set_bit, if_pos rfl, h1.1]
  · rw [if_neg h1]
    by_cases h2 : used i = false ∧ is_bit_set st.2 2048 i = true
    · rw [if_pos h2]
      dsimp only
      rw [if_pos (rfl : (true : Bool) = true)]
      refine ⟨?_, ?_, ?_⟩
      · intro p hp
        exact clear_bit_frame st.2 2048 i p (hword p hp)
      · intro j hj
        rw [is_bit_set_clear_bit, if_neg hj]
      · rw [is_bit_set_clear_bit, if_pos rfl, h2.1]
    · rw [if_neg h2]
      refine ⟨fun p _ => rfl, fun j _ => rfl, ?_⟩
      rcases Bool.eq_false_or_eq_true (used i) with hl | hl <;>
        rcases Bool.eq_false_or_eq_true (is_bit_set st.2 2048 i) with hc | hc <;>
        simp [hl, hc] at h1 h2 ⊢

theorem db_fix_invariant (fs : Image) (used : Nat → Bool) : ∀ n, n ≤ 56 →
    (∀ p, p < 2048 ∨ 2050 ≤ p →
      readWord (List.foldl (dbStep true used) (true, fs) (List.range n)).2 p
        = readWord fs p) ∧
    (∀ j, n ≤ j →
      is_bit_set (List.foldl (dbStep true used) (true, fs) (List.range n)).2 2048 j
        = is_bit_set fs 2048 j) ∧
    (∀ j, j < n →
      is_bit_set (List.foldl (dbStep true used) (true, fs) (List.range n)).2 2048 j
        = used j) := by
  intro n
  induction n with
  | zero =>
      intro _
      exact ⟨fun p _ => rfl, fun j _ => rfl, fun j hj => absurd hj (by omega)⟩
  | succ n ih =>
      intro hn
      obtain ⟨hframe, hup, hdone⟩ := ih (by omega)
      rw [List.range_succ, List.foldl_append]
      simp only [List.foldl_cons, List.foldl_nil]
      obtain ⟨sframe, sother, sbit⟩ :=
        dbStep_char used (List.foldl (dbStep true used) (true, fs) (List.range n)) n (by omega)
      refine ⟨?_, ?_, ?_⟩
      · intro p hp
        rw [sframe p hp, hframe p hp]
      · intro j hj
        rw [sother j (by omega), hup j (by omega)]
      · intro j hj
        by_cases hjn : j = n
        · subst hjn
          rw [sbit]
        · rw [sother j hjn, hdone j (by omega)]

/-- Claim C5: the used array of the data-bitmap pass holds exactly the blocks
stored in the four top-level pointer slots (direct, single-, double-,
triple-indirect) of live inodes that land in the data region [8, 64) — no
container is ever followed — and the repair-mode pass makes each of the 56
data-bitmap bits agree with it. -/
theorem C5_theorem : ∀ (fs : Image) (i : Nat), i < 56 →
    (computeUsed fs i = true ↔
      ∃ j, j < 80 ∧ is_inode_valid fs j = true ∧
        (readWord fs (inodeField j 10) = i + 8 ∨ readWord fs (inodeField j 11) = i + 8 ∨
         readWord fs (inodeField j 12) = i + 8 ∨ readWord fs (inodeField j 13) = i + 8)) ∧
    is_bit_set (validate_data_bitmap true fs).2 2048 i = computeUsed fs i := by
  intro fs i hi
  refine ⟨computeUsed_iff fs i hi, ?_⟩
  obtain ⟨_, _, hdone⟩ := db_fix_invariant fs (computeUsed fs) 56 le_rfl
  exact hdone i hi

/-- Witness for C5_theorem: on the clean image, bit 0 (block 8) is used. -/
theorem C5_witness :
    (0 : Nat) < 56 ∧
    is_bit_set (validate_data_bitmap true fsClean).2 2048 0 = computeUsed fsClean 0 :=
  ⟨by omega, (C5_theorem fsClean 0 (by omega)).2⟩

/-! ## Checking versus fixing runs of the five passes

Each pass only mutates the image at a spot where it also clears the validity
flag, so a checking run that comes back valid proves the fixing run changed
nothing; and the validity verdicts of the two modes always agree. -/

theorem foldl_absorb_op {σ ι : Type} (P : σ → Prop) (s : σ → ι → σ) (l : List ι)
    (h : ∀ j ∈ l, OpAbsorb P (fun st => s st j)) :
    OpAbsorb P (fun st => List.foldl s st l) := by
  intro st hP
  exact foldl_absorbs s P l (fun st2 j hj h2 => h j hj st2 h2) st hP

theorem foldl_bisim_op {σ ι : Type} (P : σ → Prop) (s1 s2 : σ → ι → σ) (l : List ι)
    (habs1 : ∀ j ∈ l, OpAbsorb P (fun st => s1 st j))
    (habs2 : ∀ j ∈ l, OpAbsorb P (fun st => s2 st j))
    (hb : ∀ j ∈ l, OpBisim P (fun st => s1 st j) (fun st => s2 st j)) :
    OpBisim P (fun st => List.foldl s1 st l) (fun st => List.foldl s2 st l) := by
  intro st hP
  exact foldl_bisim s1 s2 P l (fun st2 j hj h2 => habs1 j hj st2 h2)
    (fun st2 j hj h2 => habs2 j hj st2 h2) (fun st2 j hj h2 => hb j hj st2 h2) st hP

theorem OpAbsorb_comp {σ : Type} (P : σ → Prop) (f g : σ → σ)
    (hf : OpAbsorb P f) (hg : OpAbsorb P g) : OpAbsorb P (fun st => g (f st)) :=
  fun st hP => hg (f st) (hf st hP)

theorem OpBisim_comp {σ : Type} (P : σ → Prop) (f1 f2 g1 g2 : σ → σ)
    (habsg1 : OpAbsorb P g1) (habsg2 : OpAbsorb P g2)
    (hg : OpBisim P g1 g2) (hf : OpBisim P f1 f2) :
    OpBisim P (fun st => g1 (f1 st)) (fun st => g2 (f2 st)) :=
  fun st hP => comp_bisim f1 f2 g1 g2 P habsg1 habsg2 hg st (hf st hP)

theorem foldl_pure_op {σ ι τ : Type} (prj : σ → τ) (s : σ → ι → σ) (l : List ι)
    (h : ∀ j ∈ l, OpPure prj (fun st => s st j)) :
    OpPure prj (fun st => List.foldl s st l) := by
  intro st
  induction l generalizing st with
  | nil => rfl
  | cons a t ih =>
      show prj (List.foldl s st (a :: t)) = prj st
      rw [List.foldl_cons]
      have h1 : prj (List.foldl s (s st a) t) = prj (s st a) :=
        ih (fun j hj => h j (List.mem_cons_of_mem a hj)) (s st a)
      rw [h1]
      exact h a (List.mem_cons_self a t) st

theorem OpPure_comp {σ τ : Type} (prj : σ → τ) (f g : σ → σ)
    (hf : OpPure prj f) (hg : OpPure prj g) : OpPure prj (fun st => g (f st)) :=
  fun st => (hg (f st)).trans (hf st)

theorem foldl_pure_app {σ τ ι : Type} (prj : σ → τ) (s : σ → ι → σ) :
    ∀ (l : List ι), (∀ st j, j ∈ l → prj (s st j) = prj st) →
    ∀ st, prj (List.foldl s st l) = prj st := by
  intro l
  induction l with
  | nil => intro _ st; rfl
  | cons a t ih =>
      intro h st
      rw [List.foldl_cons]
      exact (ih (fun st2 j hj => h st2 j (List.mem_cons_of_mem a hj)) (s st a)).trans
        (h st a (List.mem_cons_self a t))

theorem comp_foldl_bisim {σ ι : Type} (f1 f2 : σ → σ) (s1 s2 : σ → ι → σ) (l : List ι)
    (P : σ → Prop)
    (habs1 : ∀ st j, j ∈ l → ¬ P st → ¬ P (s1 st j))
    (habs2 : ∀ st j, j ∈ l → ¬ P st → ¬ P (s2 st j))
    (hb : ∀ st j, j ∈ l → P st → s1 st j = s2 st j ∨ (¬ P (s1 st j) ∧ ¬ P (s2 st j)))
    (st : σ)
    (hf : f1 st = f2 st ∨ (¬ P (f1 st) ∧ ¬ P (f2 st))) :
    List.foldl s1 (f1 st) l = List.foldl s2 (f2 st) l ∨
      (¬ P (List.foldl s1 (f1 st) l) ∧ ¬ P (List.foldl s2 (f2 st) l)) := by
  rcases hf with heq | hbad
  · rw [heq]
    by_cases hP2 : P (f2 st)
    · exact foldl_bisim s1 s2 P l habs1 habs2 hb (f2 st) hP2
    · exact Or.inr ⟨foldl_absorbs s1 P l habs1 _ hP2, foldl_absorbs s2 P l habs2 _ hP2⟩
  · exact Or.inr ⟨foldl_absorbs s1 P l habs1 _ hbad.1, foldl_absorbs s2 P l habs2 _ hbad.2⟩

/-! The superblock pass. -/

theorem sbStep_absorb (fix : Bool) (f : SBField) :
    OpAbsorb (fun st : Bool × Image => st.1 = true) (fun st => sbStep fix st f) := by
  intro st h
  change ¬ (st.1 = true) at h
  change ¬ ((sbStep fix st f).1 = true)
  unfold sbStep
  by_cases h1 : f.rd st.2 = f.expected
  · rwa [if_pos h1]
  · rw [if_neg h1]
    simp

theorem sbStep_bisim (fix : Bool) (f : SBField) :
    OpBisim (fun st : Bool × Image => st.1 = true)
      (fun st => sbStep fix st f) (fun st => sbStep false st f) := by
  intro st hP
  change st.1 = true at hP
  change sbStep fix st f = sbStep false st f ∨
    (¬ ((sbStep fix st f).1 = true) ∧ ¬ ((sbStep false st f).1 = true))
  unfold sbStep
  by_cases h1 : f.rd st.2 = f.expected
  · rw [if_pos h1, if_pos h1]
    exact Or.inl rfl
  · rw [if_neg h1, if_neg h1]
    exact Or.inr ⟨by simp, by simp⟩

theorem sbStep_pure (f : SBField) :
    OpPure (fun st : Bool × Image => st.2) (fun st => sbStep false st f) := by
  intro st
  change (sbStep false st f).2 = st.2
  unfold sbStep
  by_cases h1 : f.rd st.2 = f.expected
  · rw [if_pos h1]
  · rw [if_neg h1]
    rfl

theorem sb_pure (fs : Image) : (validate_superblock false fs).2 = fs :=
  foldl_pure_op (fun st : Bool × Image => st.2) (sbStep false) sbFields
    (fun f _ => sbStep_pure f) (true, fs)

theorem sb_bisim (fix : Bool) (fs : Image) :
    validate_superblock fix fs = validate_superblock false fs ∨
      ((validate_superblock fix fs).1 ≠ true ∧ (validate_superblock false fs).1 ≠ true) :=
  foldl_bisim_op (fun st : Bool × Image => st.1 = true) (sbStep fix) (sbStep false)
    sbFields (fun f _ => sbStep_absorb fix f) (fun f _ => sbStep_absorb false f)
    (fun f _ => sbStep_bisim fix f) (true, fs) rfl

theorem sb_valid_eq (fix : Bool) (fs : Image) :
    (validate_superblock fix fs).1 = (validate_superblock false fs).1 := by
  rcases sb_bisim fix fs with h | h
  · rw [h]
  · simp only [ne_eq, Bool.not_eq_true] at h
    rw [h.1, h.2]

theorem sb_fixid (fix : Bool) (fs : Image) (h : (validate_superblock false fs).1 = true) :
    validate_superblock fix fs = (true, fs) := by
  rcases sb_bisim fix fs with h2 | h2
  · rw [h2]
    exact Prod.ext h (sb_pure fs)
  · exact absurd h h2.2

/-! The data-bitmap pass. -/

theorem dbStep_absorb (fix : Bool) (used : Nat → Bool) (j : Nat) :
    OpAbsorb (fun st : Bool × Image => st.1 = true) (fun st => dbStep fix used st j) := by
  intro st h
  change ¬ (st.1 = true) at h
  change ¬ ((dbStep fix used st j).1 = true)
  unfold dbStep
  by_cases h1 : used j = true ∧ is_bit_set st.2 2048 j = false
  · rw [if_pos h1]
    simp
  · rw [if_neg h1]
    by_cases h2 : used j = false ∧ is_bit_set st.2 2048 j = true
    · rw [if_pos h2]
      simp
    · rwa [if_neg h2]

theorem dbStep_bisim (fix : Bool) (used : Nat → Bool) (j : Nat) :
    OpBisim (fun st : Bool × Image => st.1 = true)
      (fun st => dbStep fix used st j) (fun st => dbStep false used st j) := by
  intro st hP
  change st.1 = true at hP
  change dbStep fix used st j = dbStep false used st j ∨
    (¬ ((dbStep fix used st j).1 = true) ∧ ¬ ((dbStep false used st j).1 = true))
  unfold dbStep
  by_cases h1 : used j = true ∧ is_bit_set st.2 2048 j = false
  · rw [if_pos h1, if_pos h1]
    exact Or.inr ⟨by simp, by simp⟩
  · rw [if_neg h1, if_neg h1]
    by_cases h2 : used j = false ∧ is_bit_set st.2 2048 j = true
    · rw [if_pos h2, if_pos h2]
      exact Or.inr ⟨by simp, by simp⟩
    · rw [if_neg h2, if_neg h2]
      exact Or.inl rfl

theorem dbStep_pure (used : Nat → Bool) (j : Nat) :
    OpPure (fun st : Bool × Image => st.2) (fun st => dbStep false used st j) := by
  intro st
  change (dbStep false used st j).2 = st.2
  unfold dbStep
  by_cases h1 : used j = true ∧ is_bit_set st.2 2048 j = false
  · rw [if_pos h1]
    rfl
  · rw [if_neg h1]
    by_cases h2 : used j = false ∧ is_bit_set st.2 2048 j = true
    · rw [if_pos h2]
      rfl
    · rw [if_neg h2]

theorem db_pure (fs : Image) : (validate_data_bitmap false fs).2 = fs :=
  foldl_pure_op (fun st : Bool × Image => st.2) (dbStep false (computeUsed fs))
    (List.range 56) (fun j _ => dbStep_pure (computeUsed fs) j) (true, fs)

theorem db_bisim (fix : Bool) (fs : Image) :
    validate_data_bitmap fix fs = validate_data_bitmap false fs ∨
      ((validate_data_bitmap fix fs).1 ≠ true ∧ (validate_data_bitmap false fs).1 ≠ true) :=
  foldl_bisim_op (fun st : Bool × Image => st.1 = true) (dbStep fix (computeUsed fs))
    (dbStep false (computeUsed fs)) (List.range 56)
    (fun j _ => dbStep_absorb fix (computeUsed fs) j)
    (fun j _ => dbStep_absorb false (computeUsed fs) j)
    (fun j _ => dbStep_bisim fix (computeUsed fs) j) (true, fs) rfl

theorem db_valid_eq (fix : Bool) (fs : Image) :
    (validate_data_bitmap fix fs).1 = (validate_data_bitmap false fs).1 := by
  rcases db_bisim fix fs with h | h
  · rw [h]
  · simp only [ne_eq, Bool.not_eq_true] at h
    rw [h.1, h.2]

theorem db_fixid (fix : Bool) (fs : Image) (h : (validate_data_bitmap false fs).1 = true) :
    validate_data_bitmap fix fs = (true, fs) := by
  rcases db_bisim fix fs with h2 | h2
  · rw [h2]
    exact Prod.ext h (db_pure fs)
  · exact absurd h h2.2

/-! The inode-bitmap pass. -/

theorem ibStep_absorb (fix : Bool) (j : Nat) :
    OpAbsorb (fun st : Bool × Image => st.1 = true) (fun st => ibStep fix st j) := by
  intro st h
  change ¬ (st.1 = true) at h
  change ¬ ((ibStep fix st j).1 = true)
  unfold ibStep
  by_cases h1 : is_inode_valid st.2 j = true ∧ is_bit_set st.2 1024 j = false
  · rw [if_pos h1]
    simp
  · rw [if_neg h1]
    by_cases h2 : is_inode_valid st.2 j = false ∧ is_bit_set st.2 1024 j = true
    · rw [if_pos h2]
      simp
    · rwa [if_neg h2]

theorem ibStep_bisim (fix : Bool) (j : Nat) :
    OpBisim (fun st : Bool × Image => st.1 = true)
      (fun st => ibStep fix st j) (fun st => ibStep false st j) := by
  intro st hP
  change st.1 = true at hP
  change ibStep fix st j = ibStep false st j ∨
    (¬ ((ibStep fix st j).1 = true) ∧ ¬ ((ibStep false st j).1 = true))
  unfold ibStep
  by_cases h1 : is_inode_valid st.2 j = true ∧ is_bit_set st.2 1024 j = false
  · rw [if_pos h1, if_pos h1]
    exact Or.inr ⟨by simp, by simp⟩
  · rw [if_neg h1, if_neg h1]
    by_cases h2 : is_inode_valid st.2 j = false ∧ is_bit_set st.2 1024 j = true
    · rw [if_pos h2, if_pos h2]
      exact Or.inr ⟨by simp, by simp⟩
    · rw [if_neg h2, if_neg h2]
      exact Or.inl rfl

theorem ibStep_pure (j : Nat) :
    OpPure (fun st : Bool × Image => st.2) (fun st => ibStep false st j) := by
  intro st
  change (ibStep false st j).2 = st.2
  unfold ibStep
  by_cases h1 : is_inode_valid st.2 j = true ∧ is_bit_set st.2 1024 j = false
  · rw [if_pos h1]
    rfl
  · rw [if_neg h1]
    by_cases h2 : is_inode_valid st.2 j = false ∧ is_bit_set st.2 1024 j = true
    · rw [if_pos h2]
      rfl
    · rw [if_neg h2]

theorem ib_pure (fs : Image) : (validate_inode_bitmap false fs).2 = fs :=
  foldl_pure_op (fun st : Bool × Image => st.2) (ibStep false)
    (List.range 80) (fun j _ => ibStep_pure j) (true, fs)

theorem ib_bisim (fix : Bool) (fs : Image) :
    validate_inode_bitmap fix fs = validate_inode_bitmap false fs ∨
      ((validate_inode_bitmap fix fs).1 ≠ true ∧ (validate_inode_bitmap false fs).1 ≠ true) :=
  foldl_bisim_op (fun st : Bool × Image => st.1 = true) (ibStep fix) (ibStep false)
    (List.range 80) (fun j _ => ibStep_absorb fix j) (fun j _ => ibStep_absorb false j)
    (fun j _ => ibStep_bisim fix j) (true, fs) rfl

theorem ib_valid_eq (fix : Bool) (fs : Image) :
    (validate_inode_bitmap fix fs).1 = (validate_inode_bitmap false fs).1 := by
  rcases ib_bisim fix fs with h | h
  · rw [h]
  · simp only [ne_eq, Bool.not_eq_true] at h
    rw [h.1, h.2]

theorem ib_fixid (fix : Bool) (fs : Image) (h : (validate_inode_bitmap false fs).1 = true) :
    validate_inode_bitmap fix fs = (true, fs) := by
  rcases ib_bisim fix fs with h2 | h2
  · rw [h2]
    exact Prod.ext h (ib_pure fs)
  · exact absurd h h2.2


/-! The bad-block pass: absorption of a cleared flag, check-vs-fix
bisimulation, and image purity of a checking run, level by level. -/

theorem badLeafStep_absorb (fix : Bool) (c j : Nat) :
    OpAbsorb (fun st : Bool × Image => st.1 = true) (fun st => badLeafStep fix c st j) := by
  intro st h
  change ¬ (st.1 = true) at h
  change ¬ ((badLeafStep fix c st j).1 = true)
  unfold badLeafStep
  by_cases h1 : 64 ≤ readWord st.2 (blockWord c j)
  · rw [if_pos h1]
    simp
  · rwa [if_neg h1]

theorem badLeafStep_bisim (fix : Bool) (c j : Nat) :
    OpBisim (fun st : Bool × Image => st.1 = true)
      (fun st => badLeafStep fix c st j) (fun st => badLeafStep false c st j) := by
  intro st hP
  change badLeafStep fix c st j = badLeafStep false c st j ∨
    (¬ ((badLeafStep fix c st j).1 = true) ∧ ¬ ((badLeafStep false c st j).1 = true))
  unfold badLeafStep
  by_cases h1 : 64 ≤ readWord st.2 (blockWord c j)
  · rw [if_pos h1, if_pos h1]
    exact Or.inr ⟨by simp, by simp⟩
  · rw [if_neg h1, if_neg h1]
    exact Or.inl rfl

theorem badLeafStep_pure (c j : Nat) :
    OpPure (fun st : Bool × Image => st.2) (fun st => badLeafStep false c st j) := by
  intro st
  change (badLeafStep false c st j).2 = st.2
  unfold badLeafStep
  by_cases h1 : 64 ≤ readWord st.2 (blockWord c j)
  · rw [if_pos h1]
    rfl
  · rw [if_neg h1]

theorem badLeafWalk_absorb (fix : Bool) (c : Nat) :
    OpAbsorb (fun st : Bool × Image => st.1 = true) (badLeafWalk fix c) :=
  foldl_absorb_op (fun st : Bool × Image => st.1 = true) (badLeafStep fix c)
    (List.range 1024) (fun j _ => badLeafStep_absorb fix c j)

theorem badLeafWalk_bisim (fix : Bool) (c : Nat) :
    OpBisim (fun st : Bool × Image => st.1 = true) (badLeafWalk fix c) (badLeafWalk false c) :=
  foldl_bisim_op (fun st : Bool × Image => st.1 = true) (badLeafStep fix c)
    (badLeafStep false c) (List.range 1024) (fun j _ => badLeafStep_absorb fix c j)
    (fun j _ => badLeafStep_absorb false c j) (fun j _ => badLeafStep_bisim fix c j)

theorem badLeafWalk_pure (c : Nat) :
    OpPure (fun st : Bool × Image => st.2) (badLeafWalk false c) :=
  foldl_pure_op (fun st : Bool × Image => st.2) (badLeafStep false c) (List.range 1024)
    (fun j _ => badLeafStep_pure c j)

theorem badMidStep_absorb (fix : Bool) (c j : Nat) :
    OpAbsorb (fun st : Bool × Image => st.1 = true) (fun st => badMidStep fix c st j) := by
  intro st h
  change ¬ (st.1 = true) at h
  change ¬ ((badMidStep fix c st j).1 = true)
  unfold badMidStep
  by_cases h1 : 64 ≤ readWord st.2 (blockWord c j)
  · rw [if_pos h1]
    simp
  · rw [if_neg h1]
    by_cases h2 : readWord st.2 (blockWord c j) ≠ 0
    · rw [if_pos h2]
      exact badLeafWalk_absorb fix (readWord st.2 (blockWord c j)) st h
    · rwa [if_neg h2]

theorem badMidStep_bisim (fix : Bool) (c j : Nat) :
    OpBisim (fun st : Bool × Image => st.1 = true)
      (fun st => badMidStep fix c st j) (fun st => badMidStep false c st j) := by
  intro st hP
  change st.1 = true at hP
  change badMidStep fix c st j = badMidStep false c st j ∨
    (¬ ((badMidStep fix c st j).1 = true) ∧ ¬ ((badMidStep false c st j).1 = true))
  unfold badMidStep
  by_cases h1 : 64 ≤ readWord st.2 (blockWord c j)
  · rw [if_pos h1, if_pos h1]
    exact Or.inr ⟨by simp, by simp⟩
  · rw [if_neg h1, if_neg h1]
    by_cases h2 : readWord st.2 (blockWord c j) ≠ 0
    · rw [if_pos h2, if_pos h2]
      exact badLeafWalk_bisim fix (readWord st.2 (blockWord c j)) st hP
    · rw [if_neg h2, if_neg h2]
      exact Or.inl rfl

theorem badMidStep_pure (c j : Nat) :
    OpPure (fun st : Bool × Image => st.2) (fun st => badMidStep false c st j) := by
  intro st
  change (badMidStep false c st j).2 = st.2
  unfold badMidStep
  by_cases h1 : 64 ≤ readWord st.2 (blockWord c j)
  · rw [if_pos h1]
    rfl
  · rw [if_neg h1]
    by_cases h2 : readWord st.2 (blockWord c j) ≠ 0
    · rw [if_pos h2]
      exact badLeafWalk_pure (readWord st.2 (blockWord c j)) st
    · rw [if_neg h2]

theorem badMidWalk_absorb (fix : Bool) (c : Nat) :
    OpAbsorb (fun st : Bool × Image => st.1 = true) (badMidWalk fix c) :=
  foldl_absorb_op (fun st : Bool × Image => st.1 = true) (badMidStep fix c)
    (List.range 1024) (fun j _ => badMidStep_absorb fix c j)

theorem badMidWalk_bisim (fix : Bool) (c : Nat) :
    OpBisim (fun st : Bool × Image => st.1 = true) (badMidWalk fix c) (badMidWalk false c) :=
  foldl_bisim_op (fun st : Bool × Image => st.1 = true) (badMidStep fix c)
    (badMidStep false c) (List.range 1024) (fun j _ => badMidStep_absorb fix c j)
    (fun j _ => badMidStep_absorb false c j) (fun j _ => badMidStep_bisim fix c j)

theorem badMidWalk_pure (c : Nat) :
    OpPure (fun st : Bool × Image => st.2) (badMidWalk false c) :=
  foldl_pure_op (fun st : Bool × Image => st.2) (badMidStep false c) (List.range 1024)
    (fun j _ => badMidStep_pure c j)

theorem badTopStep_absorb (fix : Bool) (c j : Nat) :
    OpAbsorb (fun st : Bool × Image => st.1 = true) (fun st => badTopStep fix c st j) := by
  intro st h
  change ¬ (st.1 = true) at h
  change ¬ ((badTopStep fix c st j).1 = true)
  unfold badTopStep
  by_cases h1 : 64 ≤ readWord st.2 (blockWord c j)
  · rw [if_pos h1]
    simp
  · rw [if_neg h1]
    by_cases h2 : readWord st.2 (blockWord c j) ≠ 0
    · rw [if_pos h2]
      exact badMidWalk_absorb fix (readWord st.2 (blockWord c j)) st h
    · rwa [if_neg h2]

theorem badTopStep_bisim (fix : Bool) (c j : Nat) :
    OpBisim (fun st : Bool × Image => st.1 = true)
      (fun st => badTopStep fix c st j) (fun st => badTopStep false c st j) := by
  intro st hP
  change st.1 = true at hP
  change badTopStep fix c st j = badTopStep false c st j ∨
    (¬ ((badTopStep fix c st j).1 = true) ∧ ¬ ((badTopStep false c st j).1 = true))
  unfold badTopStep
  by_cases h1 : 64 ≤ readWord st.2 (blockWord c j)
  · rw [if_pos h1, if_pos h1]
    exact Or.inr ⟨by simp, by simp⟩
  · rw [if_neg h1, if_neg h1]
    by_cases h2 : readWord st.2 (blockWord c j) ≠ 0
    · rw [if_pos h2, if_pos h2]
      exact badMidWalk_bisim fix (readWord st.2 (blockWord c j)) st hP
    · rw [if_neg h2, if_neg h2]
      exact Or.inl rfl

theorem badTopStep_pure (c j : Nat) :
    OpPure (fun st : Bool × Image => st.2) (fun st => badTopStep false c st j) := by
  intro st
  change (badTopStep false c st j).2 = st.2
  unfold badTopStep
  by_cases h1 : 64 ≤ readWord st.2 (blockWord c j)
  · rw [if_pos h1]
    rfl
  · rw [if_neg h1]
    by_cases h2 : readWord st.2 (blockWord c j) ≠ 0
    · rw [if_pos h2]
      exact badMidWalk_pure (readWord st.2 (blockWord c j)) st
    · rw [if_neg h2]

theorem badTopWalk_absorb (fix : Bool) (c : Nat) :
    OpAbsorb (fun st : Bool × Image => st.1 = true) (badTopWalk fix c) :=
  foldl_absorb_op (fun st : Bool × Image => st.1 = true) (badTopStep fix c)
    (List.range 1024) (fun j _ => badTopStep_absorb fix c j)

theorem badTopWalk_bisim (fix : Bool) (c : Nat) :
    OpBisim (fun st : Bool × Image => st.1 = true) (badTopWalk fix c) (badTopWalk false c) :=
  foldl_bisim_op (fun st : Bool × Image => st.1 = true) (badTopStep fix c)
    (badTopStep false c) (List.range 1024) (fun j _ => badTopStep_absorb fix c j)
    (fun j _ => badTopStep_absorb false c j) (fun j _ => badTopStep_bisim fix c j)

theorem badTopWalk_pure (c : Nat) :
    OpPure (fun st : Bool × Image => st.2) (badTopWalk false c) :=
  foldl_pure_op (fun st : Bool × Image => st.2) (badTopStep false c) (List.range 1024)
    (fun j _ => badTopStep_pure c j)

theorem badDirect_absorb (fix : Bool) (ino : Nat) :
    OpAbsorb (fun st : Bool × Image => st.1 = true) (badDirect fix ino) := by
  intro st h
  change ¬ (st.1 = true) at h
  change ¬ ((badDirect fix ino st).1 = true)
  unfold badDirect
  by_cases h1 : 64 ≤ readWord st.2 (inodeField ino 10)
  · rw [if_pos h1]
    simp
  · rwa [if_neg h1]

theorem badDirect_bisim (fix : Bool) (ino : Nat) :
    OpBisim (fun st : Bool × Image => st.1 = true) (badDirect fix ino) (badDirect false ino) := by
  intro st hP
  change badDirect fix ino st = badDirect false ino st ∨
    (¬ ((badDirect fix ino st).1 = true) ∧ ¬ ((badDirect false ino st).1 = true))
  unfold badDirect
  by_cases h1 : 64 ≤ readWord st.2 (inodeField ino 10)
  · rw [if_pos h1, if_pos h1]
    exact Or.inr ⟨by simp, by simp⟩
  · rw [if_neg h1, if_neg h1]
    exact Or.inl rfl

theorem badDirect_pure (ino : Nat) :
    OpPure (fun st : Bool × Image => st.2) (badDirect false ino) := by
  intro st
  change (badDirect false ino st).2 = st.2
  unfold badDirect
  by_cases h1 : 64 ≤ readWord st.2 (inodeField ino 10)
  · rw [if_pos h1]
    rfl
  · rw [if_neg h1]

theorem badSingle_absorb (fix : Bool) (ino : Nat) :
    OpAbsorb (fun st : Bool × Image => st.1 = true) (badSingle fix ino) := by
  intro st h
  change ¬ (st.1 = true) at h
  change ¬ ((badSingle fix ino st).1 = true)
  unfold badSingle
  by_cases h1 : 64 ≤ readWord st.2 (inodeField ino 11)
  · rw [if_pos h1]
    simp
  · rw [if_neg h1]
    by_cases h2 : readWord st.2 (inodeField ino 11) ≠ 0
    · rw [if_pos h2]
      exact badLeafWalk_absorb fix (readWord st.2 (inodeField ino 11)) st h
    · rwa [if_neg h2]

theorem badSingle_bisim (fix : Bool) (ino : Nat) :
    OpBisim (fun st : Bool × Image => st.1 = true) (badSingle fix ino) (badSingle false ino) := by
  intro st hP
  change st.1 = true at hP
  change badSingle fix ino st = badSingle false ino st ∨
    (¬ ((badSingle fix ino st).1 = true) ∧ ¬ ((badSingle false ino st).1 = true))
  unfold badSingle
  by_cases h1 : 64 ≤ readWord st.2 (inodeField ino 11)
  · rw [if_pos h1, if_pos h1]
    exact Or.inr ⟨by simp, by simp⟩
  · rw [if_neg h1, if_neg h1]
    by_cases h2 : readWord st.2 (inodeField ino 11) ≠ 0
    · rw [if_pos h2, if_pos h2]
      exact badLeafWalk_bisim fix (readWord st.2 (inodeField ino 11)) st hP
    · rw [if_neg h2, if_neg h2]
      exact Or.inl rfl

theorem badSingle_pure (ino : Nat) :
    OpPure (fun st : Bool × Image => st.2) (badSingle false ino) := by
  intro st
  change (badSingle false ino st).2 = st.2
  unfold badSingle
  by_cases h1 : 64 ≤ readWord st.2 (inodeField ino 11)
  · rw [if_pos h1]
    rfl
  · rw [if_neg h1]
    by_cases h2 : readWord st.2 (inodeField ino 11) ≠ 0
    · rw [if_pos h2]
      exact badLeafWalk_pure (readWord st.2 (inodeField ino 11)) st
    · rw [if_neg h2]

theorem badDouble_absorb (fix : Bool) (ino : Nat) :
    OpAbsorb (fun st : Bool × Image => st.1 = true) (badDouble fix ino) := by
  intro st h
  change ¬ (st.1 = true) at h
  change ¬ ((badDouble fix ino st).1 = true)
  unfold badDouble
  by_cases h1 : 64 ≤ readWord st.2 (inodeField ino 12)
  · rw [if_pos h1]
    simp
  · rw [if_neg h1]
    by_cases h2 : readWord st.2 (inodeField ino 12) ≠ 0
    · rw [if_pos h2]
      exact badMidWalk_absorb fix (readWord st.2 (inodeField ino 12)) st h
    · rwa [if_neg h2]

theorem badDouble_bisim (fix : Bool) (ino : Nat) :
    OpBisim (fun st : Bool × Image => st.1 = true) (badDouble fix ino) (badDouble false ino) := by
  intro st hP
  change st.1 = true at hP
  change badDouble fix ino st = badDouble false ino st ∨
    (¬ ((badDouble fix ino st).1 = true) ∧ ¬ ((badDouble false ino st).1 = true))
  unfold badDouble
  by_cases h1 : 64 ≤ readWord st.2 (inodeField ino 12)
  · rw [if_pos h1, if_pos h1]
    exact Or.inr ⟨by simp, by simp⟩
  · rw [if_neg h1, if_neg h1]
    by_cases h2 : readWord st.2 (inodeField ino 12) ≠ 0
    · rw [if_pos h2, if_pos h2]
      exact badMidWalk_bisim fix (readWord st.2 (inodeField ino 12)) st hP
    · rw [if_neg h2, if_neg h2]
      exact Or.inl rfl

theorem badDouble_pure (ino : Nat) :
    OpPure (fun st : Bool × Image => st.2) (badDouble false ino) := by
  intro st
  change (badDouble false ino st).2 = st.2
  unfold badDouble
  by_cases h1 : 64 ≤ readWord st.2 (inodeField ino 12)
  · rw [if_pos h1]
    rfl
  · rw [if_neg h1]
    by_cases h2 : readWord st.2 (inodeField ino 12) ≠ 0
    · rw [if_pos h2]
      exact badMidWalk_pure (readWord st.2 (inodeField ino 12)) st
    · rw [if_neg h2]

theorem badTriple_absorb (fix : Bool) (ino : Nat) :
    OpAbsorb (fun st : Bool × Image => st.1 = true) (badTriple fix ino) := by
  intro st h
  change ¬ (st.1 = true) at h
  change ¬ ((badTriple fix ino st).1 = true)
  unfold badTriple
  by_cases h1 : 64 ≤ readWord st.2 (inodeField ino 13)
  · rw [if_pos h1]
    simp
  · rw [if_neg h1]
    by_cases h2 : readWord st.2 (inodeField ino 13) ≠ 0
    · rw [if_pos h2]
      exact badTopWalk_absorb fix (readWord st.2 (inodeField ino 13)) st h
    · rwa [if_neg h2]

theorem badTriple_bisim (fix : Bool) (ino : Nat) :
    OpBisim (fun st : Bool × Image => st.1 = true) (badTriple fix ino) (badTriple false ino) := by
  intro st hP
  change st.1 = true at hP
  change badTriple fix ino st = badTriple false ino st ∨
    (¬ ((badTriple fix ino st).1 = true) ∧ ¬ ((badTriple false ino st).1 = true))
  unfold badTriple
  by_cases h1 : 64 ≤ readWord st.2 (inodeField ino 13)
  · rw [if_pos h1, if_pos h1]
    exact Or.inr ⟨by simp, by simp⟩
  · rw [if_neg h1, if_neg h1]
    by_cases h2 : readWord st.2 (inodeField ino 13) ≠ 0
    · rw [if_pos h2, if_pos h2]
      exact badTopWalk_bisim fix (readWord st.2 (inodeField ino 13)) st hP
    · rw [if_neg h2, if_neg h2]
      exact Or.inl rfl

theorem badTriple_pure (ino : Nat) :
    OpPure (fun st : Bool × Image => st.2) (badTriple false ino) := by
  intro st
  change (badTriple false ino st).2 = st.2
  unfold badTriple
  by_cases h1 : 64 ≤ readWord st.2 (inodeField ino 13)
  · rw [if_pos h1]
    rfl
  · rw [if_neg h1]
    by_cases h2 : readWord st.2 (inodeField ino 13) ≠ 0
    · rw [if_pos h2]
      exact badTopWalk_pure (readWord st.2 (inodeField ino 13)) st
    · rw [if_neg h2]

theorem badInodeStep_absorb (fix : Bool) (i : Nat) :
    OpAbsorb (fun st : Bool × Image => st.1 = true) (fun st => badInodeStep fix st i) := by
  intro st h
  change ¬ (st.1 = true) at h
  change ¬ ((badInodeStep fix st i).1 = true)
  unfold badInodeStep
  by_cases h1 : is_inode_valid st.2 i = true
  · rw [if_pos h1]
    exact badTriple_absorb fix i _ (badDouble_absorb fix i _
      (badSingle_absorb fix i _ (badDirect_absorb fix i st h)))
  · rwa [if_neg h1]

theorem badInodeStep_bisim (fix : Bool) (i : Nat) :
    OpBisim (fun st : Bool × Image => st.1 = true)
      (fun st => badInodeStep fix st i) (fun st => badInodeStep false st i) := by
  have hds : OpBisim (fun st : Bool × Image => st.1 = true)
      (fun st => badSingle fix i (badDirect fix i st))
      (fun st => badSingle false i (badDirect false i st)) :=
    OpBisim_comp (fun st : Bool × Image => st.1 = true)
      (badDirect fix i) (badDirect false i) (badSingle fix i) (badSingle false i)
      (badSingle_absorb fix i) (badSingle_absorb false i)
      (badSingle_bisim fix i) (badDirect_bisim fix i)
  have hdsd : OpBisim (fun st : Bool × Image => st.1 = true)
      (fun st => badDouble fix i (badSingle fix i (badDirect fix i st)))
      (fun st => badDouble false i (badSingle false i (badDirect false i st))) :=
    OpBisim_comp (fun st : Bool × Image => st.1 = true)
      (fun st => badSingle fix i (badDirect fix i st))
      (fun st => badSingle false i (badDirect false i st))
      (badDouble fix i) (badDouble false i)
      (badDouble_absorb fix i) (badDouble_absorb false i)
      (badDouble_bisim fix i) hds
  have hall : OpBisim (fun st : Bool × Image => st.1 = true)
      (fun st => badTriple fix i (badDouble fix i (badSingle fix i (badDirect fix i st))))
      (fun st => badTriple false i (badDouble false i (badSingle false i (badDirect false i st)))) :=
    OpBisim_comp (fun st : Bool × Image => st.1 = true)
      (fun st => badDouble fix i (badSingle fix i (badDirect fix i st)))
      (fun st => badDouble false i (badSingle false i (badDirect false i st)))
      (badTriple fix i) (badTriple false i)
      (badTriple_absorb fix i) (badTriple_absorb false i)
      (badTriple_bisim fix i) hdsd
  intro st hP
  change st.1 = true at hP
  change badInodeStep fix st i = badInodeStep false st i ∨
    (¬ ((badInodeStep fix st i).1 = true) ∧ ¬ ((badInodeStep false st i).1 = true))
  unfold badInodeStep
  by_cases h1 : is_inode_valid st.2 i = true
  · rw [if_pos h1, if_pos h1]
    exact hall st hP
  · rw [if_neg h1, if_neg h1]
    exact Or.inl rfl

theorem badInodeStep_pure (i : Nat) :
    OpPure (fun st : Bool × Image => st.2) (fun st => badInodeStep false st i) := by
  have hall : OpPure (fun st : Bool × Image => st.2)
      (fun st => badTriple false i (badDouble false i (badSingle false i (badDirect false i st)))) :=
    OpPure_comp (fun st : Bool × Image => st.2)
      (fun st => badDouble false i (badSingle false i (badDirect false i st)))
      (badTriple false i)
      (OpPure_comp (fun st : Bool × Image => st.2)
        (fun st => badSingle false i (badDirect false i st))
        (badDouble false i)
        (OpPure_comp (fun st : Bool × Image => st.2)
          (badDirect false i) (badSingle false i)
          (badDirect_pure i) (badSingle_pure i))
        (badDouble_pure i))
      (badTriple_pure i)
  intro st
  change (badInodeStep false st i).2 = st.2
  unfold badInodeStep
  by_cases h1 : is_inode_valid st.2 i = true
  · rw [if_pos h1]
    exact hall st
  · rw [if_neg h1]

theorem bad_pure (fs : Image) : (check_bad_blocks false fs).2 = fs :=
  foldl_pure_op (fun st : Bool × Image => st.2) (badInodeStep false) (List.range 80)
    (fun i _ => badInodeStep_pure i) (true, fs)

theorem bad_bisim (fix : Bool) (fs : Image) :
    check_bad_blocks fix fs = check_bad_blocks false fs ∨
      ((check_bad_blocks fix fs).1 ≠ true ∧ (check_bad_blocks false fs).1 ≠ true) :=
  foldl_bisim_op (fun st : Bool × Image => st.1 = true) (badInodeStep fix)
    (badInodeStep false) (List.range 80) (fun i _ => badInodeStep_absorb fix i)
    (fun i _ => badInodeStep_absorb false i) (fun i _ => badInodeStep_bisim fix i)
    (true, fs) rfl

theorem bad_valid_eq (fix : Bool) (fs : Image) :
    (check_bad_blocks fix fs).1 = (check_bad_blocks false fs).1 := by
  rcases bad_bisim fix fs with h | h
  · rw [h]
  · simp only [ne_eq, Bool.not_eq_true] at h
    rw [h.1, h.2]

theorem bad_fixid (fix : Bool) (fs : Image) (h : (check_bad_blocks false fs).1 = true) :
    check_bad_blocks fix fs = (true, fs) := by
  rcases bad_bisim fix fs with h2 | h2
  · rw [h2]
    exact Prod.ext h (bad_pure fs)
  · exact absurd h h2.2

/-! The duplicate-block pass: the same triple of properties over DupSt.  The
walked folds are stated in applied form so that every use site coincides with
the goal syntactically (the walks are never evaluated). -/

theorem dupSlotVisit_absorb (fix : Bool) (ino slot b : Nat) :
    OpAbsorb (fun st : DupSt => st.ok = true) (dupSlotVisit fix ino slot b) := by
  intro st h
  change ¬ (st.ok = true) at h
  change ¬ ((dupSlotVisit fix ino slot b st).ok = true)
  unfold dupSlotVisit
  by_cases h1 : (check_data_block_for_duplicates b ino st.seen st.owner).1 = true
  · rw [if_pos h1]
    exact h
  · rw [if_neg h1]
    simp

theorem dupSlotVisit_bisim (fix : Bool) (ino slot b : Nat) :
    OpBisim (fun st : DupSt => st.ok = true)
      (dupSlotVisit fix ino slot b) (dupSlotVisit false ino slot b) := by
  intro st hP
  change st.ok = true at hP
  change dupSlotVisit fix ino slot b st = dupSlotVisit false ino slot b st ∨
    (¬ ((dupSlotVisit fix ino slot b st).ok = true) ∧
     ¬ ((dupSlotVisit false ino slot b st).ok = true))
  unfold dupSlotVisit
  by_cases h1 : (check_data_block_for_duplicates b ino st.seen st.owner).1 = true
  · rw [if_pos h1, if_pos h1]
    exact Or.inl rfl
  · rw [if_neg h1, if_neg h1]
    exact Or.inr ⟨by simp, by simp⟩

theorem dupSlotVisit_pure (ino slot b : Nat) :
    OpPure (fun st : DupSt => st.img) (dupSlotVisit false ino slot b) := by
  intro st
  change (dupSlotVisit false ino slot b st).img = st.img
  unfold dupSlotVisit
  by_cases h1 : (check_data_block_for_duplicates b ino st.seen st.owner).1 = true
  · rw [if_pos h1]
  · rw [if_neg h1]
    rfl

theorem dupLeafStep_absorb (fix : Bool) (ino c j : Nat) :
    OpAbsorb (fun st : DupSt => st.ok = true) (fun st => dupLeafStep fix ino c st j) := by
  intro st h
  change ¬ (st.ok = true) at h
  change ¬ ((dupLeafStep fix ino c st j).ok = true)
  unfold dupLeafStep
  by_cases h1 : readWord st.img (blockWord c j) ≠ 0
  · rw [if_pos h1]
    exact dupSlotVisit_absorb fix ino (blockWord c j) (readWord st.img (blockWord c j)) st h
  · rwa [if_neg h1]

theorem dupLeafStep_bisim (fix : Bool) (ino c j : Nat) :
    OpBisim (fun st : DupSt => st.ok = true)
      (fun st => dupLeafStep fix ino c st j) (fun st => dupLeafStep false ino c st j) := by
  intro st hP
  change st.ok = true at hP
  change dupLeafStep fix ino c st j = dupLeafStep false ino c st j ∨
    (¬ ((dupLeafStep fix ino c st j).ok = true) ∧ ¬ ((dupLeafStep false ino c st j).ok = true))
  unfold dupLeafStep
  by_cases h1 : readWord st.img (blockWord c j) ≠ 0
  · rw [if_pos h1, if_pos h1]
    exact dupSlotVisit_bisim fix ino (blockWord c j) (readWord st.img (blockWord c j)) st hP
  · rw [if_neg h1, if_neg h1]
    exact Or.inl rfl

theorem dupLeafStep_pure (ino c j : Nat) :
    OpPure (fun st : DupSt => st.img) (fun st => dupLeafStep false ino c st j) := by
  intro st
  change (dupLeafStep false ino c st j).img = st.img
  unfold dupLeafStep
  by_cases h1 : readWord st.img (blockWord c j) ≠ 0
  · rw [if_pos h1]
    exact dupSlotVisit_pure ino (blockWord c j) (readWord st.img (blockWord c j)) st
  · rw [if_neg h1]

theorem dupLeafFold_absorb (fix : Bool) (ino c : Nat) : ∀ st : DupSt, ¬ st.ok = true →
    ¬ (List.foldl (dupLeafStep fix ino c) st (List.range 1024)).ok = true :=
  fun st h => foldl_absorbs (dupLeafStep fix ino c) (fun st => st.ok = true)
    (List.range 1024) (fun st2 j hj h2 => dupLeafStep_absorb fix ino c j st2 h2) st h

theorem dupLeafFold_bisim (fix : Bool) (ino c : Nat) : ∀ st : DupSt, st.ok = true →
    List.foldl (dupLeafStep fix ino c) st (List.range 1024) =
      List.foldl (dupLeafStep false ino c) st (List.range 1024) ∨
    (¬ (List.foldl (dupLeafStep fix ino c) st (List.range 1024)).ok = true ∧
     ¬ (List.foldl (dupLeafStep false ino c) st (List.range 1024)).ok = true) :=
  fun st hP => foldl_bisim (dupLeafStep fix ino c) (dupLeafStep false ino c)
    (fun st => st.ok = true) (List.range 1024)
    (fun st2 j hj h2 => dupLeafStep_absorb fix ino c j st2 h2)
    (fun st2 j hj h2 => dupLeafStep_absorb false ino c j st2 h2)
    (fun st2 j hj h2 => dupLeafStep_bisim fix ino c j st2 h2) st hP

theorem dupLeafFold_pure (ino c : Nat) : ∀ st : DupSt,
    (List.foldl (dupLeafStep false ino c) st (List.range 1024)).img = st.img :=
  fun st => foldl_pure_app (fun st : DupSt => st.img) (dupLeafStep false ino c)
    (List.range 1024) (fun st2 j hj => dupLeafStep_pure ino c j st2) st

theorem dupDblEntryStep_absorb (fix : Bool) (ino c j : Nat) :
    OpAbsorb (fun st : DupSt => st.ok = true) (fun st => dupDblEntryStep fix ino c st j) := by
  intro st h
  change ¬ (st.ok = true) at h
  change ¬ ((dupDblEntryStep fix ino c st j).ok = true)
  unfold dupDblEntryStep
  by_cases h1 : readWord st.img (blockWord c j) ≠ 0
  · rw [if_pos h1]
    by_cases h2 : readWord st.img (blockWord c j) < 64
    · rw [if_pos h2]
      exact dupLeafFold_absorb fix ino (readWord st.img (blockWord c j))
        (dupSlotVisit fix ino (blockWord c j) (readWord st.img (blockWord c j)) st)
        (dupSlotVisit_absorb fix ino (blockWord c j) (readWord st.img (blockWord c j)) st h)
    · rw [if_neg h2]
      exact dupSlotVisit_absorb fix ino (blockWord c j) (readWord st.img (blockWord c j)) st h
  · rwa [if_neg h1]

theorem dupDblEntryStep_bisim (fix : Bool) (ino c j : Nat) :
    OpBisim (fun st : DupSt => st.ok = true)
      (fun st => dupDblEntryStep fix ino c st j) (fun st => dupDblEntryStep false ino c st j) := by
  intro st hP
  change st.ok = true at hP
  change dupDblEntryStep fix ino c st j = dupDblEntryStep false ino c st j ∨
    (¬ ((dupDblEntryStep fix ino c st j).ok = true) ∧
     ¬ ((dupDblEntryStep false ino c st j).ok = true))
  unfold dupDblEntryStep
  by_cases h1 : readWord st.img (blockWord c j) ≠ 0
  · rw [if_pos h1, if_pos h1]
    by_cases h2 : readWord st.img (blockWord c j) < 64
    · rw [if_pos h2, if_pos h2]
      exact comp_foldl_bisim
        (dupSlotVisit fix ino (blockWord c j) (readWord st.img (blockWord c j)))
        (dupSlotVisit false ino (blockWord c j) (readWord st.img (blockWord c j)))
        (dupLeafStep fix ino (readWord st.img (blockWord c j)))
        (dupLeafStep false ino (readWord st.img (blockWord c j)))
        (List.range 1024) (fun st : DupSt => st.ok = true)
        (fun st2 j2 hj2 h2 => dupLeafStep_absorb fix ino (readWord st.img (blockWord c j)) j2 st2 h2)
        (fun st2 j2 hj2 h2 => dupLeafStep_absorb false ino (readWord st.img (blockWord c j)) j2 st2 h2)
        (fun st2 j2 hj2 h2 => dupLeafStep_bisim fix ino (readWord st.img (blockWord c j)) j2 st2 h2)
        st (dupSlotVisit_bisim fix ino (blockWord c j) (readWord st.img (blockWord c j)) st hP)
    · rw [if_neg h2, if_neg h2]
      exact dupSlotVisit_bisim fix ino (blockWord c j) (readWord st.img (blockWord c j)) st hP
  · rw [if_neg h1, if_neg h1]
    exact Or.inl rfl

theorem dupDblEntryStep_pure (ino c j : Nat) :
    OpPure (fun st : DupSt => st.img) (fun st => dupDblEntryStep false ino c st j) := by
  intro st
  change (dupDblEntryStep false ino c st j).img = st.img
  unfold dupDblEntryStep
  by_cases h1 : readWord st.img (blockWord c j) ≠ 0
  · rw [if_pos h1]
    by_cases h2 : readWord st.img (blockWord c j) < 64
    · rw [if_pos h2]
      exact (dupLeafFold_pure ino (readWord st.img (blockWord c j))
        (dupSlotVisit false ino (blockWord c j) (readWord st.img (blockWord c j)) st)).trans
        (dupSlotVisit_pure ino (blockWord c j) (readWord st.img (blockWord c j)) st)
    · rw [if_neg h2]
      exact dupSlotVisit_pure ino (blockWord c j) (readWord st.img (blockWord c j)) st
  · rw [if_neg h1]

theorem dupDblFold_absorb (fix : Bool) (ino c : Nat) : ∀ st : DupSt, ¬ st.ok = true →
    ¬ (List.foldl (dupDblEntryStep fix ino c) st (List.range 1024)).ok = true :=
  fun st h => foldl_absorbs (dupDblEntryStep fix ino c) (fun st => st.ok = true)
    (List.range 1024) (fun st2 j hj h2 => dupDblEntryStep_absorb fix ino c j st2 h2) st h

theorem dupDblFold_bisim (fix : Bool) (ino c : Nat) : ∀ st : DupSt, st.ok = true →
    List.foldl (dupDblEntryStep fix ino c) st (List.range 1024) =
      List.foldl (dupDblEntryStep false ino c) st (List.range 1024) ∨
    (¬ (List.foldl (dupDblEntryStep fix ino c) st (List.range 1024)).ok = true ∧
     ¬ (List.foldl (dupDblEntryStep false ino c) st (List.range 1024)).ok = true) :=
  fun st hP => foldl_bisim (dupDblEntryStep fix ino c) (dupDblEntryStep false ino c)
    (fun st => st.ok = true) (List.range 1024)
    (fun st2 j hj h2 => dupDblEntryStep_absorb fix ino c j st2 h2)
    (fun st2 j hj h2 => dupDblEntryStep_absorb false ino c j st2 h2)
    (fun st2 j hj h2 => dupDblEntryStep_bisim fix ino c j st2 h2) st hP

theorem dupDblFold_pure (ino c : Nat) : ∀ st : DupSt,
    (List.foldl (dupDblEntryStep false ino c) st (List.range 1024)).img = st.img :=
  fun st => foldl_pure_app (fun st : DupSt => st.img) (dupDblEntryStep false ino c)
    (List.range 1024) (fun st2 j hj => dupDblEntryStep_pure ino c j st2) st

theorem dupTrpEntryStep_absorb (fix : Bool) (ino c j : Nat) :
    OpAbsorb (fun st : DupSt => st.ok = true) (fun st => dupTrpEntryStep fix ino c st j) := by
  intro st h
  change ¬ (st.ok = true) at h
  change ¬ ((dupTrpEntryStep fix ino c st j).ok = true)
  unfold dupTrpEntryStep
  by_cases h1 : readWord st.img (blockWord c j) ≠ 0
  · rw [if_pos h1]
    by_cases h2 : readWord st.img (blockWord c j) < 64
    · rw [if_pos h2]
      exact dupDblFold_absorb fix ino (readWord st.img (blockWord c j))
        (dupSlotVisit fix ino (blockWord c j) (readWord st.img (blockWord c j)) st)
        (dupSlotVisit_absorb fix ino (blockWord c j) (readWord st.img (blockWord c j)) st h)
    · rw [if_neg h2]
      exact dupSlotVisit_absorb fix ino (blockWord c j) (readWord st.img (blockWord c j)) st h
  · rwa [if_neg h1]

theorem dupTrpEntryStep_bisim (fix : Bool) (ino c j : Nat) :
    OpBisim (fun st : DupSt => st.ok = true)
      (fun st => dupTrpEntryStep fix ino c st j) (fun st => dupTrpEntryStep false ino c st j) := by
  intro st hP
  change st.ok = true at hP
  change dupTrpEntryStep fix ino c st j = dupTrpEntryStep false ino c st j ∨
    (¬ ((dupTrpEntryStep fix ino c st j).ok = true) ∧
     ¬ ((dupTrpEntryStep false ino c st j).ok = true))
  unfold dupTrpEntryStep
  by_cases h1 : readWord st.img (blockWord c j) ≠ 0
  · rw [if_pos h1, if_pos h1]
    by_cases h2 : readWord st.img (blockWord c j) < 64
    · rw [if_pos h2, if_pos h2]
      exact comp_foldl_bisim
        (dupSlotVisit fix ino (blockWord c j) (readWord st.img (blockWord c j)))
        (dupSlotVisit false ino (blockWord c j) (readWord st.img (blockWord c j)))
        (dupDblEntryStep fix ino (readWord st.img (blockWord c j)))
        (dupDblEntryStep false ino (readWord st.img (blockWord c j)))
        (List.range 1024) (fun st : DupSt => st.ok = true)
        (fun st2 j2 hj2 h2 =>
          dupDblEntryStep_absorb fix ino (readWord st.img (blockWord c j)) j2 st2 h2)
        (fun st2 j2 hj2 h2 =>
          dupDblEntryStep_absorb false ino (readWord st.img (blockWord c j)) j2 st2 h2)
        (fun st2 j2 hj2 h2 =>
          dupDblEntryStep_bisim fix ino (readWord st.img (blockWord c j)) j2 st2 h2)
        st (dupSlotVisit_bisim fix ino (blockWord c j) (readWord st.img (blockWord c j)) st hP)
    · rw [if_neg h2, if_neg h2]
      exact dupSlotVisit_bisim fix ino (blockWord c j) (readWord st.img (blockWord c j)) st hP
  · rw [if_neg h1, if_neg h1]
    exact Or.inl rfl

theorem dupTrpEntryStep_pure (ino c j : Nat) :
    OpPure (fun st : DupSt => st.img) (fun st => dupTrpEntryStep false ino c st j) := by
  intro st
  change (dupTrpEntryStep false ino c st j).img = st.img
  unfold dupTrpEntryStep
  by_cases h1 : readWord st.img (blockWord c j) ≠ 0
  · rw [if_pos h1]
    by_cases h2 : readWord st.img (blockWord c j) < 64
    · rw [if_pos h2]
      exact (dupDblFold_pure ino (readWord st.img (blockWord c j))
        (dupSlotVisit false ino (blockWord c j) (readWord st.img (blockWord c j)) st)).trans
        (dupSlotVisit_pure ino (blockWord c j) (readWord st.img (blockWord c j)) st)
    · rw [if_neg h2]
      exact dupSlotVisit_pure ino (blockWord c j) (readWord st.img (blockWord c j)) st
  · rw [if_neg h1]

theorem dupTrpFold_absorb (fix : Bool) (ino c : Nat) : ∀ st : DupSt, ¬ st.ok = true →
    ¬ (List.foldl (dupTrpEntryStep fix ino c) st (List.range 1024)).ok = true :=
  fun st h => foldl_absorbs (dupTrpEntryStep fix ino c) (fun st => st.ok = true)
    (List.range 1024) (fun st2 j hj h2 => dupTrpEntryStep_absorb fix ino c j st2 h2) st h

theorem dupTrpFold_bisim (fix : Bool) (ino c : Nat) : ∀ st : DupSt, st.ok = true →
    List.foldl (dupTrpEntryStep fix ino c) st (List.range 1024) =
      List.foldl (dupTrpEntryStep false ino c) st (List.range 1024) ∨
    (¬ (List.foldl (dupTrpEntryStep fix ino c) st (List.range 1024)).ok = true ∧
     ¬ (List.foldl (dupTrpEntryStep false ino c) st (List.range 1024)).ok = true) :=
  fun st hP => foldl_bisim (dupTrpEntryStep fix ino c) (dupTrpEntryStep false ino c)
    (fun st => st.ok = true) (List.range 1024)
    (fun st2 j hj h2 => dupTrpEntryStep_absorb fix ino c j st2 h2)
    (fun st2 j hj h2 => dupTrpEntryStep_absorb false ino c j st2 h2)
    (fun st2 j hj h2 => dupTrpEntryStep_bisim fix ino c j st2 h2) st hP

theorem dupTrpFold_pure (ino c : Nat) : ∀ st : DupSt,
    (List.foldl (dupTrpEntryStep false ino c) st (List.range 1024)).img = st.img :=
  fun st => foldl_pure_app (fun st : DupSt => st.img) (dupTrpEntryStep false ino c)
    (List.range 1024) (fun st2 j hj => dupTrpEntryStep_pure ino c j st2) st

theorem dupDirect_absorb (fix : Bool) (ino : Nat) :
    OpAbsorb (fun st : DupSt => st.ok = true) (dupDirect fix ino) := by
  intro st h
  change ¬ (st.ok = true) at h
  change ¬ ((dupDirect fix ino st).ok = true)
  unfold dupDirect
  by_cases h1 : readWord st.img (inodeField ino 10) ≠ 0
  · rw [if_pos h1]
    by_cases h2 : 8 ≤ readWord st.img (inodeField ino 10) ∧
        readWord st.img (inodeField ino 10) < 64
    · rw [if_pos h2]
      by_cases h3 : st.seen (readWord st.img (inodeField ino 10)) = true
      · rw [if_pos h3]
        simp
      · rw [if_neg h3]
        exact h
    · rwa [if_neg h2]
  · rwa [if_neg h1]

theorem dupDirect_bisim (fix : Bool) (ino : Nat) :
    OpBisim (fun st : DupSt => st.ok = true) (dupDirect fix ino) (dupDirect false ino) := by
  intro st hP
  change st.ok = true at hP
  change dupDirect fix ino st = dupDirect false ino st ∨
    (¬ ((dupDirect fix ino st).ok = true) ∧ ¬ ((dupDirect false ino st).ok = true))
  unfold dupDirect
  by_cases h1 : readWord st.img (inodeField ino 10) ≠ 0
  · rw [if_pos h1, if_pos h1]
    by_cases h2 : 8 ≤ readWord st.img (inodeField ino 10) ∧
        readWord st.img (inodeField ino 10) < 64
    · rw [if_pos h2, if_pos h2]
      by_cases h3 : st.seen (readWord st.img (inodeField ino 10)) = true
      · rw [if_pos h3, if_pos h3]
        exact Or.inr ⟨by simp, by simp⟩
      · rw [if_neg h3, if_neg h3]
        exact Or.inl rfl
    · rw [if_neg h2, if_neg h2]
      exact Or.inl rfl
  · rw [if_neg h1, if_neg h1]
    exact Or.inl rfl

theorem dupDirect_pure (ino : Nat) :
    OpPure (fun st : DupSt => st.img) (dupDirect false ino) := by
  intro st
  change (dupDirect false ino st).img = st.img
  unfold dupDirect
  by_cases h1 : readWord st.img (inodeField ino 10) ≠ 0
  · rw [if_pos h1]
    by_cases h2 : 8 ≤ readWord st.img (inodeField ino 10) ∧
        readWord st.img (inodeField ino 10) < 64
    · rw [if_pos h2]
      by_cases h3 : st.seen (readWord st.img (inodeField ino 10)) = true
      · rw [if_pos h3]
        rfl
      · rw [if_neg h3]
        rfl
    · rw [if_neg h2]
  · rw [if_neg h1]

theorem dupSingle_absorb (fix : Bool) (ino : Nat) :
    OpAbsorb (fun st : DupSt => st.ok = true) (dupSingle fix ino) := by
  intro st h
  change ¬ (st.ok = true) at h
  change ¬ ((dupSingle fix ino st).ok = true)
  unfold dupSingle
  by_cases h1 : readWord st.img (inodeField ino 11) ≠ 0
  · rw [if_pos h1]
    by_cases h2 : 8 ≤ readWord st.img (inodeField ino 11) ∧
        readWord st.img (inodeField ino 11) < 64
    · rw [if_pos h2]
      by_cases h3 : st.seen (readWord st.img (inodeField ino 11)) = true
      · rw [if_pos h3]
        simp
      · rw [if_neg h3]
        exact dupLeafFold_absorb fix ino (readWord st.img (inodeField ino 11))
          (dupMark st (readWord st.img (inodeField ino 11)) ino) h
    · rwa [if_neg h2]
  · rwa [if_neg h1]

theorem dupSingle_bisim (fix : Bool) (ino : Nat) :
    OpBisim (fun st : DupSt => st.ok = true) (dupSingle fix ino) (dupSingle false ino) := by
  intro st hP
  change st.ok = true at hP
  change dupSingle fix ino st = dupSingle false ino st ∨
    (¬ ((dupSingle fix ino st).ok = true) ∧ ¬ ((dupSingle false ino st).ok = true))
  unfold dupSingle
  by_cases h1 : readWord st.img (inodeField ino 11) ≠ 0
  · rw [if_pos h1, if_pos h1]
    by_cases h2 : 8 ≤ readWord st.img (inodeField ino 11) ∧
        readWord st.img (inodeField ino 11) < 64
    · rw [if_pos h2, if_pos h2]
      by_cases h3 : st.seen (readWord st.img (inodeField ino 11)) = true
      · rw [if_pos h3, if_pos h3]
        exact Or.inr ⟨by simp, by simp⟩
      · rw [if_neg h3, if_neg h3]
        exact dupLeafFold_bisim fix ino (readWord st.img (inodeField ino 11))
          (dupMark st (readWord st.img (inodeField ino 11)) ino) hP
    · rw [if_neg h2, if_neg h2]
      exact Or.inl rfl
  · rw [if_neg h1, if_neg h1]
    exact Or.inl rfl

theorem dupSingle_pure (ino : Nat) :
    OpPure (fun st : DupSt => st.img) (dupSingle false ino) := by
  intro st
  change (dupSingle false ino st).img = st.img
  unfold dupSingle
  by_cases h1 : readWord st.img (inodeField ino 11) ≠ 0
  · rw [if_pos h1]
    by_cases h2 : 8 ≤ readWord st.img (inodeField ino 11) ∧
        readWord st.img (inodeField ino 11) < 64
    · rw [if_pos h2]
      by_cases h3 : st.seen (readWord st.img (inodeField ino 11)) = true
      · rw [if_pos h3]
        rfl
      · rw [if_neg h3]
        exact dupLeafFold_pure ino (readWord st.img (inodeField ino 11))
          (dupMark st (readWord st.img (inodeField ino 11)) ino)
    · rw [if_neg h2]
  · rw [if_neg h1]

theorem dupDouble_absorb (fix : Bool) (ino : Nat) :
    OpAbsorb (fun st : DupSt => st.ok = true) (dupDouble fix ino) := by
  intro st h
  change ¬ (st.ok = true) at h
  change ¬ ((dupDouble fix ino st).ok = true)
  unfold dupDouble
  by_cases h1 : readWord st.img (inodeField ino 12) ≠ 0
  · rw [if_pos h1]
    by_cases h2 : 8 ≤ readWord st.img (inodeField ino 12) ∧
        readWord st.img (inodeField ino 12) < 64
    · rw [if_pos h2]
      by_cases h3 : st.seen (readWord st.img (inodeField ino 12)) = true
      · rw [if_pos h3]
        simp
      · rw [if_neg h3]
        exact dupDblFold_absorb fix ino (readWord st.img (inodeField ino 12))
          (dupMark st (readWord st.img (inodeField ino 12)) ino) h
    · rwa [if_neg h2]
  · rwa [if_neg h1]

theorem dupDouble_bisim (fix : Bool) (ino : Nat) :
    OpBisim (fun st : DupSt => st.ok = true) (dupDouble fix ino) (dupDouble false ino) := by
  intro st hP
  change st.ok = true at hP
  change dupDouble fix ino st = dupDouble false ino st ∨
    (¬ ((dupDouble fix ino st).ok = true) ∧ ¬ ((dupDouble false ino st).ok = true))
  unfold dupDouble
  by_cases h1 : readWord st.img (inodeField ino 12) ≠ 0
  · rw [if_pos h1, if_pos h1]
    by_cases h2 : 8 ≤ readWord st.img (inodeField ino 12) ∧
        readWord st.img (inodeField ino 12) < 64
    · rw [if_pos h2, if_pos h2]
      by_cases h3 : st.seen (readWord st.img (inodeField ino 12)) = true
      · rw [if_pos h3, if_pos h3]
        exact Or.inr ⟨by simp, by simp⟩
      · rw [if_neg h3, if_neg h3]
        exact dupDblFold_bisim fix ino (readWord st.img (inodeField ino 12))
          (dupMark st (readWord st.img (inodeField ino 12)) ino) hP
    · rw [if_neg h2, if_neg h2]
      exact Or.inl rfl
  · rw [if_neg h1, if_neg h1]
    exact Or.inl rfl

theorem dupDouble_pure (ino : Nat) :
    OpPure (fun st : DupSt => st.img) (dupDouble false ino) := by
  intro st
  change (dupDouble false ino st).img = st.img
  unfold dupDouble
  by_cases h1 : readWord st.img (inodeField ino 12) ≠ 0
  · rw [if_pos h1]
    by_cases h2 : 8 ≤ readWord st.img (inodeField ino 12) ∧
        readWord st.img (inodeField ino 12) < 64
    · rw [if_pos h2]
      by_cases h3 : st.seen (readWord st.img (inodeField ino 12)) = true
      · rw [if_pos h3]
        rfl
      · rw [if_neg h3]
        exact dupDblFold_pure ino (readWord st.img (inodeField ino 12))
          (dupMark st (readWord st.img (inodeField ino 12)) ino)
    · rw [if_neg h2]
  · rw [if_neg h1]

theorem dupTriple_absorb (fix : Bool) (ino : Nat) :
    OpAbsorb (fun st : DupSt => st.ok = true) (dupTriple fix ino) := by
  intro st h
  change ¬ (st.ok = true) at h
  change ¬ ((dupTriple fix ino st).ok = true)
  unfold dupTriple
  by_cases h1 : readWord st.img (inodeField ino 13) ≠ 0
  · rw [if_pos h1]
    by_cases h2 : 8 ≤ readWord st.img (inodeField ino 13) ∧
        readWord st.img (inodeField ino 13) < 64
    · rw [if_pos h2]
      by_cases h3 : st.seen (readWord st.img (inodeField ino 13)) = true
      · rw [if_pos h3]
        simp
      · rw [if_neg h3]
        exact dupTrpFold_absorb fix ino (readWord st.img (inodeField ino 13))
          (dupMark st (readWord st.img (inodeField ino 13)) ino) h
    · rwa [if_neg h2]
  · rwa [if_neg h1]

theorem dupTriple_bisim (fix : Bool) (ino : Nat) :
    OpBisim (fun st : DupSt => st.ok = true) (dupTriple fix ino) (dupTriple false ino) := by
  intro st hP
  change st.ok = true at hP
  change dupTriple fix ino st = dupTriple false ino st ∨
    (¬ ((dupTriple fix ino st).ok = true) ∧ ¬ ((dupTriple false ino st).ok = true))
  unfold dupTriple
  by_cases h1 : readWord st.img (inodeField ino 13) ≠ 0
  · rw [if_pos h1, if_pos h1]
    by_cases h2 : 8 ≤ readWord st.img (inodeField ino 13) ∧
        readWord st.img (inodeField ino 13) < 64
    · rw [if_pos h2, if_pos h2]
      by_cases h3 : st.seen (readWord st.img (inodeField ino 13)) = true
      · rw [if_pos h3, if_pos h3]
        exact Or.inr ⟨by simp, by simp⟩
      · rw [if_neg h3, if_neg h3]
        exact dupTrpFold_bisim fix ino (readWord st.img (inodeField ino 13))
          (dupMark st (readWord st.img (inodeField ino 13)) ino) hP
    · rw [if_neg h2, if_neg h2]
      exact Or.inl rfl
  · rw [if_neg h1, if_neg h1]
    exact Or.inl rfl

theorem dupTriple_pure (ino : Nat) :
    OpPure (fun st : DupSt => st.img) (dupTriple false ino) := by
  intro st
  change (dupTriple false ino st).img = st.img
  unfold dupTriple
  by_cases h1 : readWord st.img (inodeField ino 13) ≠ 0
  · rw [if_pos h1]
    by_cases h2 : 8 ≤ readWord st.img (inodeField ino 13) ∧
        readWord st.img (inodeField ino 13) < 64
    · rw [if_pos h2]
      by_cases h3 : st.seen (readWord st.img (inodeField ino 13)) = true
      · rw [if_pos h3]
        rfl
      · rw [if_neg h3]
        exact dupTrpFold_pure ino (readWord st.img (inodeField ino 13))
          (dupMark st (readWord st.img (inodeField ino 13)) ino)
    · rw [if_neg h2]
  · rw [if_neg h1]

theorem dupInodeStep_absorb (fix : Bool) (i : Nat) :
    OpAbsorb (fun st : DupSt => st.ok = true) (fun st => dupInodeStep fix st i) := by
  intro st h
  change ¬ (st.ok = true) at h
  change ¬ ((dupInodeStep fix st i).ok = true)
  unfold dupInodeStep
  by_cases h1 : is_inode_valid st.img i = true
  · rw [if_pos h1]
    exact dupTriple_absorb fix i _ (dupDouble_absorb fix i _
      (dupSingle_absorb fix i _ (dupDirect_absorb fix i st h)))
  · rwa [if_neg h1]

theorem dupInodeStep_bisim (fix : Bool) (i : Nat) :
    OpBisim (fun st : DupSt => st.ok = true)
      (fun st => dupInodeStep fix st i) (fun st => dupInodeStep false st i) := by
  have hds : OpBisim (fun st : DupSt => st.ok = true)
      (fun st => dupSingle fix i (dupDirect fix i st))
      (fun st => dupSingle false i (dupDirect false i st)) :=
    OpBisim_comp (fun st : DupSt => st.ok = true)
      (dupDirect fix i) (dupDirect false i) (dupSingle fix i) (dupSingle false i)
      (dupSingle_absorb fix i) (dupSingle_absorb false i)
      (dupSingle_bisim fix i) (dupDirect_bisim fix i)
  have hdsd : OpBisim (fun st : DupSt => st.ok = true)
      (fun st => dupDouble fix i (dupSingle fix i (dupDirect fix i st)))
      (fun st => dupDouble false i (dupSingle false i (dupDirect false i st))) :=
    OpBisim_comp (fun st : DupSt => st.ok = true)
      (fun st => dupSingle fix i (dupDirect fix i st))
      (fun st => dupSingle false i (dupDirect false i st))
      (dupDouble fix i) (dupDouble false i)
      (dupDouble_absorb fix i) (dupDouble_absorb false i)
      (dupDouble_bisim fix i) hds
  have hall : OpBisim (fun st : DupSt => st.ok = true)
      (fun st => dupTriple fix i (dupDouble fix i (dupSingle fix i (dupDirect fix i st))))
      (fun st => dupTriple false i (dupDouble false i (dupSingle false i (dupDirect false i st)))) :=
    OpBisim_comp (fun st : DupSt => st.ok = true)
      (fun st => dupDouble fix i (dupSingle fix i (dupDirect fix i st)))
      (fun st => dupDouble false i (dupSingle false i (dupDirect false i st)))
      (dupTriple fix i) (dupTriple false i)
      (dupTriple_absorb fix i) (dupTriple_absorb false i)
      (dupTriple_bisim fix i) hdsd
  intro st hP
  change st.ok = true at hP
  change dupInodeStep fix st i = dupInodeStep false st i ∨
    (¬ ((dupInodeStep fix st i).ok = true) ∧ ¬ ((dupInodeStep false st i).ok = true))
  unfold dupInodeStep
  by_cases h1 : is_inode_valid st.img i = true
  · rw [if_pos h1, if_pos h1]
    exact hall st hP
  · rw [if_neg h1, if_neg h1]
    exact Or.inl rfl

theorem dupInodeStep_pure (i : Nat) :
    OpPure (fun st : DupSt => st.img) (fun st => dupInodeStep false st i) := by
  have hall : OpPure (fun st : DupSt => st.img)
      (fun st => dupTriple false i (dupDouble false i (dupSingle false i (dupDirect false i st)))) :=
    OpPure_comp (fun st : DupSt => st.img)
      (fun st => dupDouble false i (dupSingle false i (dupDirect false i st)))
      (dupTriple false i)
      (OpPure_comp (fun st : DupSt => st.img)
        (fun st => dupSingle false i (dupDirect false i st))
        (dupDouble false i)
        (OpPure_comp (fun st : DupSt => st.img)
          (dupDirect false i) (dupSingle false i)
          (dupDirect_pure i) (dupSingle_pure i))
        (dupDouble_pure i))
      (dupTriple_pure i)
  intro st
  change (dupInodeStep false st i).img = st.img
  unfold dupInodeStep
  by_cases h1 : is_inode_valid st.img i = true
  · rw [if_pos h1]
    exact hall st
  · rw [if_neg h1]

theorem dup_eq (fix : Bool) (fs : Image) :
    check_duplicate_blocks fix fs =
      ((List.foldl (dupInodeStep fix)
          { ok := true, seen := fun _ => false, owner := fun _ => 0, img := fs }
          (List.range 80)).ok,
       (List.foldl (dupInodeStep fix)
          { ok := true, seen := fun _ => false, owner := fun _ => 0, img := fs }
          (List.range 80)).img) := rfl

theorem dupRun_pure (fs : Image) :
    (List.foldl (dupInodeStep false)
        { ok := true, seen := fun _ => false, owner := fun _ => 0, img := fs }
        (List.range 80)).img = fs :=
  foldl_pure_app (fun st : DupSt => st.img) (dupInodeStep false) (List.range 80)
    (fun st2 i hi => dupInodeStep_pure i st2)
    { ok := true, seen := fun _ => false, owner := fun _ => 0, img := fs }

theorem dupRun_bisim (fix : Bool) (fs : Image) :
    List.foldl (dupInodeStep fix)
        { ok := true, seen := fun _ => false, owner := fun _ => 0, img := fs }
        (List.range 80) =
      List.foldl (dupInodeStep false)
        { ok := true, seen := fun _ => false, owner := fun _ => 0, img := fs }
        (List.range 80) ∨
    (¬ (List.foldl (dupInodeStep fix)
        { ok := true, seen := fun _ => false, owner := fun _ => 0, img := fs }
        (List.range 80)).ok = true ∧
     ¬ (List.foldl (dupInodeStep false)
        { ok := true, seen := fun _ => false, owner := fun _ => 0, img := fs }
        (List.range 80)).ok = true) :=
  foldl_bisim (dupInodeStep fix) (dupInodeStep false) (fun st : DupSt => st.ok = true)
    (List.range 80) (fun st2 i hi h2 => dupInodeStep_absorb fix i st2 h2)
    (fun st2 i hi h2 => dupInodeStep_absorb false i st2 h2)
    (fun st2 i hi h2 => dupInodeStep_bisim fix i st2 h2)
    { ok := true, seen := fun _ => false, owner := fun _ => 0, img := fs } rfl

theorem dup_eq2 (fix : Bool) (fs : Image) :
    (check_duplicate_blocks fix fs).2 =
      (List.foldl (dupInodeStep fix)
          { ok := true, seen := fun _ => false, owner := fun _ => 0, img := fs }
          (List.range 80)).img := by
  rw [dup_eq]

theorem dup_eq1 (fix : Bool) (fs : Image) :
    (check_duplicate_blocks fix fs).1 =
      (List.foldl (dupInodeStep fix)
          { ok := true, seen := fun _ => false, owner := fun _ => 0, img := fs }
          (List.range 80)).ok := by
  rw [dup_eq]

theorem dup_pure (fs : Image) : (check_duplicate_blocks false fs).2 = fs :=
  (dup_eq2 false fs).trans (dupRun_pure fs)

theorem dup_bisim (fix : Bool) (fs : Image) :
    check_duplicate_blocks fix fs = check_duplicate_blocks false fs ∨
      ((check_duplicate_blocks fix fs).1 ≠ true ∧ (check_duplicate_blocks false fs).1 ≠ true) := by
  rcases dupRun_bisim fix fs with h | h
  · left
    rw [dup_eq, dup_eq, h]
  · right
    refine ⟨?_, ?_⟩
    · rw [dup_eq1]
      exact h.1
    · rw [dup_eq1]
      exact h.2

theorem dup_valid_eq (fix : Bool) (fs : Image) :
    (check_duplicate_blocks fix fs).1 = (check_duplicate_blocks false fs).1 := by
  rcases dup_bisim fix fs with h | h
  · rw [h]
  · simp only [ne_eq, Bool.not_eq_true] at h
    rw [h.1, h.2]

theorem dup_fixid (fix : Bool) (fs : Image) (h : (check_duplicate_blocks false fs).1 = true) :
    check_duplicate_blocks fix fs = (true, fs) := by
  rcases dup_bisim fix fs with h2 | h2
  · rw [h2]
    exact Prod.ext h (dup_pure fs)
  · exact absurd h h2.2
theorem runChecks_eq (fix : Bool) (fs : Image) : runChecks fix fs =
    { img := (check_bad_blocks fix (check_duplicate_blocks fix (validate_inode_bitmap fix
        (validate_data_bitmap fix (validate_superblock fix fs).2).2).2).2).2,
      sbOk := (validate_superblock fix fs).1,
      dbOk := (validate_data_bitmap fix (validate_superblock fix fs).2).1,
      ibOk := (validate_inode_bitmap fix
        (validate_data_bitmap fix (validate_superblock fix fs).2).2).1,
      dupOk := (check_duplicate_blocks fix (validate_inode_bitmap fix
        (validate_data_bitmap fix (validate_superblock fix fs).2).2).2).1,
      badOk := (check_bad_blocks fix (check_duplicate_blocks fix (validate_inode_bitmap fix
        (validate_data_bitmap fix (validate_superblock fix fs).2).2).2).2).1,
      trace := [PassTag.superblockHdr, PassTag.dataBitmapHdr, PassTag.inodeBitmapHdr,
        PassTag.duplicateHdr, PassTag.badBlockHdr] } := by
  simp only [runChecks, runSuperblock, runDataBitmap, runInodeBitmap, runDuplicate,
    runBadBlocks]

theorem runChecks_check (fs : Image) : runChecks false fs =
    { img := fs, sbOk := (validate_superblock false fs).1,
      dbOk := (validate_data_bitmap false fs).1,
      ibOk := (validate_inode_bitmap false fs).1,
      dupOk := (check_duplicate_blocks false fs).1,
      badOk := (check_bad_blocks false fs).1,
      trace := [PassTag.superblockHdr, PassTag.dataBitmapHdr, PassTag.inodeBitmapHdr,
        PassTag.duplicateHdr, PassTag.badBlockHdr] } := by
  obtain ⟨b1, h1⟩ : ∃ b, (validate_superblock false fs).1 = b := ⟨_, rfl⟩
  obtain ⟨b2, h2⟩ : ∃ b, (validate_data_bitmap false fs).1 = b := ⟨_, rfl⟩
  obtain ⟨b3, h3⟩ : ∃ b, (validate_inode_bitmap false fs).1 = b := ⟨_, rfl⟩
  obtain ⟨b4, h4⟩ : ∃ b, (check_duplicate_blocks false fs).1 = b := ⟨_, rfl⟩
  obtain ⟨b5, h5⟩ : ∃ b, (check_bad_blocks false fs).1 = b := ⟨_, rfl⟩
  have hp1 : validate_superblock false fs = (b1, fs) := Prod.ext h1 (sb_pure fs)
  have hp2 : validate_data_bitmap false fs = (b2, fs) := Prod.ext h2 (db_pure fs)
  have hp3 : validate_inode_bitmap false fs = (b3, fs) := Prod.ext h3 (ib_pure fs)
  have hp4 : check_duplicate_blocks false fs = (b4, fs) := Prod.ext h4 (dup_pure fs)
  have hp5 : check_bad_blocks false fs = (b5, fs) := Prod.ext h5 (bad_pure fs)
  simp only [runChecks, runSuperblock, runDataBitmap, runInodeBitmap, runDuplicate,
    runBadBlocks, hp1, hp2, hp3, hp4, hp5]

theorem valid_lit (a b c d e : Bool) (img : Image) (tr : List PassTag) :
    (RunOut.mk img a b c d e tr).valid = (a && b && c && d && e) := rfl

theorem valid_lit_true (a b c d e : Bool) (img : Image) (tr : List PassTag) :
    (RunOut.mk img a b c d e tr).valid = true ↔
      (a = true ∧ b = true ∧ c = true ∧ d = true ∧ e = true) := by
  rw [valid_lit]
  cases a <;> cases b <;> cases c <;> cases d <;> cases e <;> simp

theorem consistentImg_parts (fs : Image) (h : consistentImg fs = true) :
    (validate_superblock false fs).1 = true ∧ (validate_data_bitmap false fs).1 = true ∧
    (validate_inode_bitmap false fs).1 = true ∧ (check_duplicate_blocks false fs).1 = true ∧
    (check_bad_blocks false fs).1 = true := by
  unfold consistentImg at h
  rw [runChecks_check fs, valid_lit_true] at h
  exact h

theorem runChecks_fix_consistent (fix : Bool) (fs : Image) (h : consistentImg fs = true) :
    runChecks fix fs =
      { img := fs, sbOk := true, dbOk := true, ibOk := true, dupOk := true, badOk := true,
        trace := [PassTag.superblockHdr, PassTag.dataBitmapHdr, PassTag.inodeBitmapHdr,
          PassTag.duplicateHdr, PassTag.badBlockHdr] } := by
  obtain ⟨h1, h2, h3, h4, h5⟩ := consistentImg_parts fs h
  have hp1 : validate_superblock fix fs = (true, fs) := sb_fixid fix fs h1
  have hp2 : validate_data_bitmap fix fs = (true, fs) := db_fixid fix fs h2
  have hp3 : validate_inode_bitmap fix fs = (true, fs) := ib_fixid fix fs h3
  have hp4 : check_duplicate_blocks fix fs = (true, fs) := dup_fixid fix fs h4
  have hp5 : check_bad_blocks fix fs = (true, fs) := bad_fixid fix fs h5
  simp only [runChecks, runSuperblock, runDataBitmap, runInodeBitmap, runDuplicate,
    runBadBlocks, hp1, hp2, hp3, hp4, hp5]

theorem consistent_of_fix_valid (fix : Bool) (fs : Image)
    (hv : (runChecks fix fs).valid = true) : consistentImg fs = true := by
  rw [runChecks_eq, valid_lit_true] at hv
  obtain ⟨hs, hd, hi, hdu, hb⟩ := hv
  have c1 : (validate_superblock false fs).1 = true := (sb_valid_eq fix fs).symm.trans hs
  have hp1 : validate_superblock fix fs = (true, fs) := sb_fixid fix fs c1
  rw [hp1] at hd
  have hd2 : (validate_data_bitmap fix fs).1 = true := hd
  have c2 : (validate_data_bitmap false fs).1 = true := (db_valid_eq fix fs).symm.trans hd2
  have hp2 : validate_data_bitmap fix fs = (true, fs) := db_fixid fix fs c2
  rw [hp1] at hi
  have hi1 : (validate_inode_bitmap fix (validate_data_bitmap fix fs).2).1 = true := hi
  rw [hp2] at hi1
  have hi2 : (validate_inode_bitmap fix fs).1 = true := hi1
  have c3 : (validate_inode_bitmap false fs).1 = true := (ib_valid_eq fix fs).symm.trans hi2
  have hp3 : validate_inode_bitmap fix fs = (true, fs) := ib_fixid fix fs c3
  rw [hp1] at hdu
  have hdu1 : (check_duplicate_blocks fix (validate_inode_bitmap fix
      (validate_data_bitmap fix fs).2).2).1 = true := hdu
  rw [hp2] at hdu1
  have hdu2 : (check_duplicate_blocks fix (validate_inode_bitmap fix fs).2).1 = true := hdu1
  rw [hp3] at hdu2
  have hdu3 : (check_duplicate_blocks fix fs).1 = true := hdu2
  have c4 : (check_duplicate_blocks false fs).1 = true := (dup_valid_eq fix fs).symm.trans hdu3
  have hp4 : check_duplicate_blocks fix fs = (true, fs) := dup_fixid fix fs c4
  rw [hp1] at hb
  have hb1 : (check_bad_blocks fix (check_duplicate_blocks fix (validate_inode_bitmap fix
      (validate_data_bitmap fix fs).2).2).2).1 = true := hb
  rw [hp2] at hb1
  have hb2 : (check_bad_blocks fix (check_duplicate_blocks fix
      (validate_inode_bitmap fix fs).2).2).1 = true := hb1
  rw [hp3] at hb2
  have hb3 : (check_bad_blocks fix (check_duplicate_blocks fix fs).2).1 = true := hb2
  rw [hp4] at hb3
  have hb4 : (check_bad_blocks fix fs).1 = true := hb3
  have c5 : (check_bad_blocks false fs).1 = true := (bad_valid_eq fix fs).symm.trans hb4
  unfold consistentImg
  rw [runChecks_check fs, valid_lit_true]
  exact ⟨c1, c2, c3, c4, c5⟩

theorem runChecks_valid_eq (fix : Bool) (fs : Image) :
    (runChecks fix fs).valid = (runChecks false fs).valid := by
  by_cases h : consistentImg fs = true
  · rw [runChecks_fix_consistent fix fs h, runChecks_fix_consistent false fs h]
  · have h1 : ¬ ((runChecks fix fs).valid = true) :=
      fun hv => h (consistent_of_fix_valid fix fs hv)
    have h2 : ¬ ((runChecks false fs).valid = true) :=
      fun hv => h (consistent_of_fix_valid false fs hv)
    rw [(Bool.not_eq_true _).mp h1, (Bool.not_eq_true _).mp h2]

/-- Claim C9: for every image on which a check-only round finds no violation,
a repair-mode run also reports every pass valid, leaves the in-memory buffer
byte-for-byte unchanged, performs no write-back to the file (so the file is
untouched as well), and exits 0. -/
theorem C9_theorem : ∀ fs : Image, consistentImg fs = true →
    (runChecks true fs).valid = true ∧ (runChecks true fs).img = fs ∧
    (vsfsckMain (goodInput true fs)).writes = 0 ∧
    (vsfsckMain (goodInput true fs)).finalImg = fs ∧
    (vsfsckMain (goodInput true fs)).exitCode = 0 := by
  intro fs h
  have hr := runChecks_fix_consistent true fs h
  have hmain := vsfsckMain_run (goodInput true fs) rfl rfl rfl rfl rfl rfl rfl
  rw [show (goodInput true fs).img = fs from rfl] at hmain
  rw [hr] at hmain
  rw [if_neg (by rw [valid_lit]; norm_num)] at hmain
  refine ⟨?_, ?_, ?_, ?_, ?_⟩
  · rw [hr, valid_lit]
    rfl
  · rw [hr]
  · rw [hmain]
  · rw [hmain]
  · rw [hmain]

theorem Clean_runChecks_check : runChecks false fsClean =
    { img := fsClean, sbOk := true, dbOk := true, ibOk := true, dupOk := true,
      badOk := true,
      trace := [PassTag.superblockHdr, PassTag.dataBitmapHdr, PassTag.inodeBitmapHdr,
        PassTag.duplicateHdr, PassTag.badBlockHdr] } := by
  have h1 : validate_superblock false fsClean = (true, fsClean) := rfl
  have h2 : validate_data_bitmap false fsClean = (true, fsClean) := rfl
  have h3 : validate_inode_bitmap false fsClean = (true, fsClean) := rfl
  have h4 : check_duplicate_blocks false fsClean = (true, fsClean) := rfl
  have h5 : check_bad_blocks false fsClean = (true, fsClean) := rfl
  simp only [runChecks, runSuperblock, runDataBitmap, runInodeBitmap, runDuplicate,
    runBadBlocks, h1, h2, h3, h4, h5]

theorem consistentImg_fsClean : consistentImg fsClean = true := by
  unfold consistentImg
  rw [Clean_runChecks_check]
  rfl

/-- Witness: the consistent image fsClean satisfies the hypothesis and the
conclusion of C9_theorem. -/
theorem C9_witness : consistentImg fsClean = true ∧
    ((runChecks true fsClean).valid = true ∧ (runChecks true fsClean).img = fsClean ∧
     (vsfsckMain (goodInput true fsClean)).writes = 0 ∧
     (vsfsckMain (goodInput true fsClean)).finalImg = fsClean ∧
     (vsfsckMain (goodInput true fsClean)).exitCode = 0) :=
  ⟨consistentImg_fsClean, C9_theorem fsClean consistentImg_fsClean⟩

theorem vsfsckMain_writes (inp : RunInput) :
    (vsfsckMain inp).writes =
      if inp.argc < 2 ∨ 3 < inp.argc then 0
      else if inp.openOk = false then 0
      else if inp.fileSize ≠ 262144 then 0
      else if inp.mallocOk = false then 0
      else if inp.readOk = false then 0
      else if inp.callocOk = false then 0
      else if (decide (inp.argc = 3) && inp.fixArg) = true ∧
          (runChecks (decide (inp.argc = 3) && inp.fixArg) inp.img).valid = false then 1
      else 0 := by
  unfold vsfsckMain
  dsimp only
  split_ifs <;> rfl

/-- Claim C3 (amended): main attempts at most one write-back; it writes
exactly once when the invocation is a well-formed repair run (argc = 3 with
the fix flag, open/size/malloc/read/calloc all succeed) on an image that the
audit finds inconsistent, and never writes otherwise — in particular a
check-only run never writes, and a repair run on a consistent image does not
write either. -/
theorem C3_theorem : ∀ inp : RunInput,
    ((vsfsckMain inp).writes = 0 ∨ (vsfsckMain inp).writes = 1) ∧
    ((vsfsckMain inp).writes = 1 ↔
      (inp.argc = 3 ∧ inp.fixArg = true ∧ inp.openOk = true ∧ inp.fileSize = 262144 ∧
       inp.mallocOk = true ∧ inp.readOk = true ∧ inp.callocOk = true ∧
       consistentImg inp.img = false)) := by
  intro inp
  rw [vsfsckMain_writes]
  split_ifs with h1 h2 h3 h4 h5 h6 h7
  · refine ⟨Or.inl rfl, iff_of_false (by norm_num) ?_⟩
    rintro ⟨ha, -⟩
    omega
  · refine ⟨Or.inl rfl, iff_of_false (by norm_num) ?_⟩
    rintro ⟨-, -, ho, -⟩
    rw [ho] at h2
    exact Bool.noConfusion h2
  · refine ⟨Or.inl rfl, iff_of_false (by norm_num) ?_⟩
    rintro ⟨-, -, -, hs, -⟩
    exact h3 hs
  · refine ⟨Or.inl rfl, iff_of_false (by norm_num) ?_⟩
    rintro ⟨-, -, -, -, hm, -⟩
    rw [hm] at h4
    exact Bool.noConfusion h4
  · refine ⟨Or.inl rfl, iff_of_false (by norm_num) ?_⟩
    rintro ⟨-, -, -, -, -, hr, -⟩
    rw [hr] at h5
    exact Bool.noConfusion h5
  · refine ⟨Or.inl rfl, iff_of_false (by norm_num) ?_⟩
    rintro ⟨-, -, -, -, -, -, hc, -⟩
    rw [hc] at h6
    exact Bool.noConfusion h6
  · refine ⟨Or.inr rfl, iff_of_true rfl ?_⟩
    obtain ⟨hfix, hval⟩ := h7
    obtain ⟨hd, hf⟩ := (Bool.and_eq_true _ _).mp hfix
    have ha : inp.argc = 3 := of_decide_eq_true hd
    have ho : inp.openOk = true := by simpa using h2
    have hm : inp.mallocOk = true := by simpa using h4
    have hrd : inp.readOk = true := by simpa using h5
    have hc : inp.callocOk = true := by simpa using h6
    have hcons : (runChecks false inp.img).valid = false :=
      (runChecks_valid_eq (decide (inp.argc = 3) && inp.fixArg) inp.img).symm.trans hval
    exact ⟨ha, hf, ho, not_not.mp h3, hm, hrd, hc, hcons⟩
  · refine ⟨Or.inl rfl, iff_of_false (by norm_num) ?_⟩
    rintro ⟨ha, hf, -, -, -, -, -, hcons⟩
    apply h7
    refine ⟨by rw [ha, hf]; rfl, ?_⟩
    have hc2 : (runChecks false inp.img).valid = false := hcons
    exact (runChecks_valid_eq _ inp.img).trans hc2

theorem BadFrame_refl (a : Image) : BadFrame a a := fun _ => Or.inl rfl

theorem BadFrame_trans (a b c : Image) (h1 : BadFrame a b) (h2 : BadFrame b c) :
    BadFrame a c := by
  intro p
  rcases h2 p with h | ⟨hge, hz⟩
  · rw [h]
    exact h1 p
  · rcases h1 p with h' | ⟨hge', hz'⟩
    · unfold readWord at hge
      rw [h'] at hge
      exact Or.inr ⟨hge, hz⟩
    · unfold readWord at hge
      rw [hz'] at hge
      omega

theorem BadFrame_write (a : Image) (q : Nat) (h : 64 ≤ readWord a q) :
    BadFrame a (writeWord a q 0) := by
  intro p
  by_cases hp : p = q
  · subst hp
    exact Or.inr ⟨h, by simp [writeWord]⟩
  · exact Or.inl (by simp [writeWord, hp])

theorem badFlag_witness (fs img : Image) (q : Nat) (hf : BadFrame fs img)
    (h1 : 64 ≤ readWord img q) : ∃ p, 64 ≤ readWord fs p := by
  rcases hf q with he | ⟨hge, hz⟩
  · refine ⟨q, ?_⟩
    have h2 : readWord fs q = readWord img q := by
      unfold readWord
      rw [he]
    rw [h2]
    exact h1
  · exfalso
    unfold readWord at h1
    rw [hz] at h1
    omega

theorem BadGood_flag (fs : Image) (st : Bool × Image) (q : Nat) (fix : Bool)
    (hg : BadGood fs st) (h1 : 64 ≤ readWord st.2 q) :
    BadGood fs (false, if fix then writeWord st.2 q 0 else st.2) := by
  refine ⟨BadFrame_trans fs st.2 _ hg.1 ?_, fun _ => badFlag_witness fs st.2 q hg.1 h1⟩
  cases fix
  · exact BadFrame_refl st.2
  · exact BadFrame_write st.2 q h1

theorem foldl_pres {σ ι : Type} (P : σ → Prop) (s : σ → ι → σ)
    (h : ∀ st j, P st → P (s st j)) :
    ∀ (l : List ι) (st : σ), P st → P (List.foldl s st l) := by
  intro l
  induction l with
  | nil => intro st hP; exact hP
  | cons a t ih =>
      intro st hP
      rw [List.foldl_cons]
      exact ih (s st a) (h st a hP)

theorem badLeafStep_good (fs : Image) (fix : Bool) (c j : Nat) :
    ∀ st, BadGood fs st → BadGood fs (badLeafStep fix c st j) := by
  intro st hg
  unfold badLeafStep
  by_cases h1 : 64 ≤ readWord st.2 (blockWord c j)
  · rw [if_pos h1]
    exact BadGood_flag fs st (blockWord c j) fix hg h1
  · rwa [if_neg h1]

theorem badLeafWalk_good (fs : Image) (fix : Bool) (c : Nat) :
    ∀ st, BadGood fs st → BadGood fs (badLeafWalk fix c st) :=
  fun st hg => foldl_pres (BadGood fs) (badLeafStep fix c)
    (fun st2 j h2 => badLeafStep_good fs fix c j st2 h2) (List.range 1024) st hg

theorem badMidStep_good (fs : Image) (fix : Bool) (c j : Nat) :
    ∀ st, BadGood fs st → BadGood fs (badMidStep fix c st j) := by
  intro st hg
  unfold badMidStep
  by_cases h1 : 64 ≤ readWord st.2 (blockWord c j)
  · rw [if_pos h1]
    exact BadGood_flag fs st (blockWord c j) fix hg h1
  · rw [if_neg h1]
    by_cases h2 : readWord st.2 (blockWord c j) ≠ 0
    · rw [if_pos h2]
      exact badLeafWalk_good fs fix (readWord st.2 (blockWord c j)) st hg
    · rwa [if_neg h2]

theorem badMidWalk_good (fs : Image) (fix : Bool) (c : Nat) :
    ∀ st, BadGood fs st → BadGood fs (badMidWalk fix c st) :=
  fun st hg => foldl_pres (BadGood fs) (badMidStep fix c)
    (fun st2 j h2 => badMidStep_good fs fix c j st2 h2) (List.range 1024) st hg

theorem badTopStep_good (fs : Image) (fix : Bool) (c j : Nat) :
    ∀ st, BadGood fs st → BadGood fs (badTopStep fix c st j) := by
  intro st hg
  unfold badTopStep
  by_cases h1 : 64 ≤ readWord st.2 (blockWord c j)
  · rw [if_pos h1]
    exact BadGood_flag fs st (blockWord c j) fix hg h1
  · rw [if_neg h1]
    by_cases h2 : readWord st.2 (blockWord c j) ≠ 0
    · rw [if_pos h2]
      exact badMidWalk_good fs fix (readWord st.2 (blockWord c j)) st hg
    · rwa [if_neg h2]

theorem badTopWalk_good (fs : Image) (fix : Bool) (c : Nat) :
    ∀ st, BadGood fs st → BadGood fs (badTopWalk fix c st) :=
  fun st hg => foldl_pres (BadGood fs) (badTopStep fix c)
    (fun st2 j h2 => badTopStep_good fs fix c j st2 h2) (List.range 1024) st hg

theorem badDirect_good (fs : Image) (fix : Bool) (ino : Nat) :
    ∀ st, BadGood fs st → BadGood fs (badDirect fix ino st) := by
  intro st hg
  unfold badDirect
  by_cases h1 : 64 ≤ readWord st.2 (inodeField ino 10)
  · rw [if_pos h1]
    exact BadGood_flag fs st (inodeField ino 10) fix hg h1
  · rwa [if_neg h1]

theorem badSingle_good (fs : Image) (fix : Bool) (ino : Nat) :
    ∀ st, BadGood fs st → BadGood fs (badSingle fix ino st) := by
  intro st hg
  unfold badSingle
  by_cases h1 : 64 ≤ readWord st.2 (inodeField ino 11)
  · rw [if_pos h1]
    exact BadGood_flag fs st (inodeField ino 11) fix hg h1
  · rw [if_neg h1]
    by_cases h2 : readWord st.2 (inodeField ino 11) ≠ 0
    · rw [if_pos h2]
      exact badLeafWalk_good fs fix (readWord st.2 (inodeField ino 11)) st hg
    · rwa [if_neg h2]

theorem badDouble_good (fs : Image) (fix : Bool) (ino : Nat) :
    ∀ st, BadGood fs st → BadGood fs (badDouble fix ino st) := by
  intro st hg
  unfold badDouble
  by_cases h1 : 64 ≤ readWord st.2 (inodeField ino 12)
  · rw [if_pos h1]
    exact BadGood_flag fs st (inodeField ino 12) fix hg h1
  · rw [if_neg h1]
    by_cases h2 : readWord st.2 (inodeField ino 12) ≠ 0
    · rw [if_pos h2]
      exact badMidWalk_good fs fix (readWord st.2 (inodeField ino 12)) st hg
    · rwa [if_neg h2]

theorem badTriple_good (fs : Image) (fix : Bool) (ino : Nat) :
    ∀ st, BadGood fs st → BadGood fs (badTriple fix ino st) := by
  intro st hg
  unfold badTriple
  by_cases h1 : 64 ≤ readWord st.2 (inodeField ino 13)
  · rw [if_pos h1]
    exact BadGood_flag fs st (inodeField ino 13) fix hg h1
  · rw [if_neg h1]
    by_cases h2 : readWord st.2 (inodeField ino 13) ≠ 0
    · rw [if_pos h2]
      exact badTopWalk_good fs fix (readWord st.2 (inodeField ino 13)) st hg
    · rwa [if_neg h2]

theorem badInodeStep_good (fs : Image) (fix : Bool) (i : Nat) :
    ∀ st, BadGood fs st → BadGood fs (badInodeStep fix st i) := by
  intro st hg
  unfold badInodeStep
  by_cases h1 : is_inode_valid st.2 i = true
  · rw [if_pos h1]
    exact badTriple_good fs fix i _ (badDouble_good fs fix i _
      (badSingle_good fs fix i _ (badDirect_good fs fix i st hg)))
  · rwa [if_neg h1]

theorem check_bad_blocks_good (fix : Bool) (fs : Image) :
    BadGood fs (check_bad_blocks fix fs) :=
  foldl_pres (BadGood fs) (badInodeStep fix)
    (fun st i h => badInodeStep_good fs fix i st h) (List.range 80) (true, fs)
    ⟨BadFrame_refl fs, fun h => Bool.noConfusion h⟩

/-- Claim C7: the bad-block detector classifies a block number as bad exactly
when it is >= TOTAL_BLOCKS (64): a pointer or walked container entry >= 64 is
reported and, in repair mode, zeroed in place; any value < 64 — including 0
(meaning absent) and the metadata range [1, 8) below first_data_block — is
accepted as non-bad; every live inode has its top-level pointers checked and
dead inodes are skipped; at the whole-pass level the pass only ever zeroes
words whose current value was bad, and it reports a violation only when the
image contains a word >= 64. -/
theorem C7_theorem : ∀ (fix : Bool) (fs : Image),
    (∀ (st : Bool × Image) (c j : Nat), 64 ≤ readWord st.2 (blockWord c j) →
      badLeafStep fix c st j =
        (false, if fix then writeWord st.2 (blockWord c j) 0 else st.2)) ∧
    (∀ (st : Bool × Image) (c j : Nat), readWord st.2 (blockWord c j) < 64 →
      badLeafStep fix c st j = st) ∧
    (∀ (st : Bool × Image) (c j : Nat), 64 ≤ readWord st.2 (blockWord c j) →
      badMidStep fix c st j =
        (false, if fix then writeWord st.2 (blockWord c j) 0 else st.2)) ∧
    (∀ (st : Bool × Image) (ino : Nat), 64 ≤ readWord st.2 (inodeField ino 10) →
      badDirect fix ino st =
        (false, if fix then writeWord st.2 (inodeField ino 10) 0 else st.2)) ∧
    (∀ (st : Bool × Image) (ino : Nat), readWord st.2 (inodeField ino 10) < 64 →
      badDirect fix ino st = st) ∧
    (∀ (st : Bool × Image) (ino : Nat), readWord st.2 (inodeField ino 11) = 0 →
      badSingle fix ino st = st) ∧
    (∀ (st : Bool × Image) (i : Nat), is_inode_valid st.2 i = true →
      badInodeStep fix st i =
        badTriple fix i (badDouble fix i (badSingle fix i (badDirect fix i st)))) ∧
    (∀ (st : Bool × Image) (i : Nat), is_inode_valid st.2 i = false →
      badInodeStep fix st i = st) ∧
    (∀ p : Nat, (check_bad_blocks fix fs).2 p = fs p ∨
      (64 ≤ readWord fs p ∧ (check_bad_blocks fix fs).2 p = 0)) ∧
    ((check_bad_blocks fix fs).1 = false → ∃ p, 64 ≤ readWord fs p) := by
  intro fix fs
  refine ⟨?_, ?_, ?_, ?_, ?_, ?_, ?_, ?_, ?_, ?_⟩
  · intro st c j h
    unfold badLeafStep
    rw [if_pos h]
  · intro st c j h
    unfold badLeafStep
    rw [if_neg (not_le.mpr h)]
  · intro st c j h
    unfold badMidStep
    rw [if_pos h]
  · intro st ino h
    unfold badDirect
    rw [if_pos h]
  · intro st ino h
    unfold badDirect
    rw [if_neg (not_le.mpr h)]
  · intro st ino h
    unfold badSingle
    rw [if_neg (show ¬ (64 ≤ readWord st.2 (inodeField ino 11)) by rw [h]; omega)]
    rw [if_neg (show ¬ (readWord st.2 (inodeField ino 11) ≠ 0) from not_not.mpr h)]
  · intro st i h
    unfold badInodeStep
    rw [if_pos h]
  · intro st i h
    unfold badInodeStep
    rw [if_neg (show ¬ (is_inode_valid st.2 i = true) by rw [h]; simp)]
  · exact (check_bad_blocks_good fix fs).1
  · exact (check_bad_blocks_good fix fs).2

/-- Witness: on fsBadDirect (inode 0 live with direct_block = 100) the pass
reports a violation, and C7_theorem then yields a bad word of the image. -/
theorem C7_witness :
    (check_bad_blocks true fsBadDirect).1 = false ∧ (∃ p, 64 ≤ readWord fsBadDirect p) :=
  ⟨rfl, (C7_theorem true fsBadDirect).2.2.2.2.2.2.2.2.2 rfl⟩

/-- Claim C6, counterexample: after a full repair run on fsC6, inode 1 is live
(the bad-block pass zeroed its stale dtime while walking inode 0's
single_indirect = 3 into the inode table) but its inode-bitmap bit is clear,
so the repaired image violates the claimed invariant, and dtime of inode 1
was modified by a pass that runs after the inode-bitmap pass. -/
theorem C6_counterexample :
    is_inode_valid (vsfsckMain inpC6).finalImg 1 = true ∧
    is_bit_set (vsfsckMain inpC6).finalImg 1024 1 = false ∧
    readWord fsC6 (inodeField 1 7) = 100 ∧
    readWord (vsfsckMain inpC6).finalImg (inodeField 1 7) = 0 := by
  rw [C6_main]
  exact ⟨rfl, rfl, rfl, rfl⟩

end VSFSck
